import Mathlib

/-!
Replication state machine of `condor_had` and job-queue plugin of `pandad`

A shallow embedding of `src/condor_had/ReplicatorStateMachine.cpp` (namespace
`Replication`) and of `src/pandad/pandadClassAdLogPlugin.cpp` (namespace `Pandad`).
For the state machine:

* The object's data members become the fields of the structure
  `ReplicatorStateMachine`; every member function becomes a function from the
  state before the call to the state after it.
* What a handler does to the outside world (broadcasts, process creation,
  signals, file removal) is appended to the field `effects`, oldest first.
* What a handler reads from the outside world (`time(NULL)`, `rand()`, the pid
  of a created process, whether the state file changed) is supplied by `Env`.
* `REPLICATION_ASSERT` is an assertion: when its condition is false the
  handler does not return (`Outcome.assertionFailed`).
* Times of type `time_t` are unbounded integers. Where the source stores the time in
  an `int` (`int currentTime = time( NULL )` in `replicationTimer`), the value is
  reduced to 32 bits (`toInt32`).

For the plugin, the lines written to the pipe of pandad are collected in the field
`pandad`, the job queue and the library functions are supplied by `Schedd`, and
`unquote` yields the list of its writes into the static buffer.
-/

namespace Replication

/-! ## Data model -/

/-- The four states of the replication daemon. -/
inductive ReplicatorState
  | VERSION_REQUESTING
  | VERSION_DOWNLOADING
  | BACKUP
  | REPLICATION_LEADER
  deriving DecidableEq, Repr

/-- Numeric value of a state, as it is sent on the wire. -/
def ReplicatorState.toInt : ReplicatorState → Int
  | .VERSION_REQUESTING => 0
  | .VERSION_DOWNLOADING => 1
  | .BACKUP => 2
  | .REPLICATION_LEADER => 3

/-- Modelled from the spec: the class `Version` (its header and implementation
are not part of the sources at hand). A version has a generation id, a logical
clock, the address of its producer and the producer's state; the state is kept
as the integer that travels on the wire, since `decodeVersionAndState` stores
`ReplicatorState( remoteReplicatorState )` for any decoded integer. -/
structure Version where
  gid : Int
  logicalClock : Int
  sinfulString : String
  state : Int
  deriving DecidableEq, Repr

namespace Version

/-- Modelled from the spec: the default-constructed `Version` (`Version version;`),
the local-only initial value without an address. -/
def empty : Version :=
  { gid := 0, logicalClock := 0, sinfulString := "", state := ReplicatorState.VERSION_REQUESTING.toInt }

/-- Modelled from the spec: `isComparable(other)` is `this.gid == other.gid`. -/
def isComparable (a b : Version) : Bool := a.gid == b.gid

/-- Modelled from the spec: the strict order `A > B`, which on comparable
versions equals `A.logicalClock > B.logicalClock`. Every use in the source is
guarded by `isComparable`. -/
def gt (a b : Version) : Bool := decide (a.logicalClock > b.logicalClock)

/-- Modelled from the spec: `A >= B`, the non-strict companion of `>`:
`B` is not strictly greater than `A`. -/
def ge (a b : Version) : Bool := !(gt b a)

/-- Modelled from the spec: `setState( version )` aligns the state with the one of
the given version (`local.state := newVersion.state`). -/
def setState (a b : Version) : Version := { a with state := b.state }

/-- Modelled from the spec: `setState( ReplicatorState( n ) )`. -/
def setStateInt (a : Version) (n : Int) : Version := { a with state := n }

/-- Modelled from the spec: `setGid`. -/
def setGid (a : Version) (g : Int) : Version := { a with gid := g }

end Version

/-- The command kinds registered in `initialize`. -/
inductive Command
  | HAD_BEFORE_PASSIVE_STATE
  | HAD_AFTER_ELECTION_STATE
  | HAD_AFTER_LEADER_STATE
  | HAD_IN_LEADER_STATE
  | REPLICATION_LEADER_VERSION
  | REPLICATION_TRANSFER_FILE
  | REPLICATION_NEWLY_JOINED_VERSION
  | REPLICATION_GIVING_UP_VERSION
  | REPLICATION_SOLICIT_VERSION
  | REPLICATION_SOLICIT_VERSION_REPLY
  deriving DecidableEq, Repr

/-- Modelled from the spec: `ProcessMetadata`, the per-child record
`{ pid, startedAt }` kept for a transferer. -/
structure ProcessMetadata where
  m_pid : Int
  m_lastTimeCreated : Int
  deriving DecidableEq, Repr

namespace ProcessMetadata

/-- Modelled from the spec: a valid record has `pid > 0`. -/
def isValid (p : ProcessMetadata) : Bool := decide (0 < p.m_pid)

/-- Modelled from the spec: `set( )` without arguments clears the record; the
cleared record carries the sentinel `-1` used for all identifiers of the class. -/
def cleared : ProcessMetadata := { m_pid := -1, m_lastTimeCreated := -1 }

end ProcessMetadata

/-- The three timer handlers given to `Register_Timer`. -/
inductive TimerKind
  | replication
  | versionRequesting
  | versionDownloading
  deriving DecidableEq, Repr

/-- Modelled from the spec: a one-shot timer held by the daemon event loop. -/
structure Timer where
  id : Int
  kind : TimerKind
  period : Int
  deriving DecidableEq, Repr

/-- What a handler does to the outside world. -/
inductive Effect
  /-- Call of `broadcastVersion( command )`, with the local version that is sent. -/
  | broadcastVersion (command : Command) (version : Version)
  /-- Call of `requestVersions( )`. -/
  | requestVersions
  /-- Call of `sendVersionAndStateCommand( command, address )`. -/
  | sendVersionAndStateCommand (command : Command) (address : String)
  /-- Call of `download( address )`. -/
  | download (address : String)
  /-- Call of `upload( address )`. -/
  | upload (address : String)
  /-- Call of `daemonCore->Send_Signal( pid, SIGKILL )`. -/
  | sendSignalKill (pid : Int)
  /-- Call of `FilesOperations::safeUnlinkFile( path, extension )`. -/
  | safeUnlinkFile (path : String) (extension : String)
  /-- Promotion of a downloaded temporary file into place. -/
  | rotateFile (path : String) (extension : String)
  deriving DecidableEq, Repr

/-- The data members of `ReplicatorStateMachine` (with those inherited from
`AbstractReplicatorStateMachine`), the timers held by the daemon event loop
and the log of effects. -/
structure ReplicatorStateMachine where
  m_state : ReplicatorState
  m_myVersion : Version
  m_versionsList : List Version
  m_downloadTransfererMetadata : ProcessMetadata
  m_uploadTransfererMetadataList : List ProcessMetadata
  m_replicationTimerId : Int
  m_versionRequestingTimerId : Int
  m_versionDownloadingTimerId : Int
  m_replicationInterval : Int
  m_hadAliveTolerance : Int
  m_maxTransfererLifeTime : Int
  m_newlyJoinedWaitingVersionInterval : Int
  m_lastHadAliveTime : Int
  m_versionFilePath : String
  m_stateFilePath : String
  timers : List Timer
  nextTimerId : Int
  effects : List Effect
  deriving DecidableEq, Repr

/-- What a handler reads from the outside world during one call. -/
structure Env where
  /-- Value of `time( NULL )`. -/
  now : Int
  /-- Whether `synchronize` finds the state file changed. -/
  fileChanged : Bool
  /-- Pid returned by the creation of a transferer process (not positive on failure). -/
  newPid : Int
  /-- Successive values of `rand( )`. -/
  rand : Nat → Int

/-- Result of running a handler. -/
inductive Outcome (α : Type)
  /-- The handler returned. -/
  | ok (a : α)
  /-- A `REPLICATION_ASSERT` failed. -/
  | assertionFailed
  /-- A null pointer was dereferenced. -/
  | nullDereference
  /-- The loop did not finish within the given number of iterations. -/
  | outOfFuel
  deriving DecidableEq, Repr

/-- Return code of a reaper for a transferer that ended well. -/
def TRANSFERER_TRUE : Int := 1

/-- Return code of a reaper for a transferer that failed. -/
def TRANSFERER_FALSE : Int := 0

/-- Extension of the temporary files of a downloading transferer. -/
def DOWNLOADING_TEMPORARY_FILES_EXTENSION : String := "down"

/-- Extension of the temporary files of an uploading transferer. -/
def UPLOADING_TEMPORARY_FILES_EXTENSION : String := "up"

/-- Short name of the machine's type. -/
abbrev RSM := ReplicatorStateMachine

/-! ## The layer below the state machine -/

/-- Appends effects to the log. -/
def RSM.emit (s : RSM) (es : List Effect) : RSM := { s with effects := s.effects ++ es }

/-- Effects appended to the log between the state `s` and the later state `t`. -/
def emitted (s t : RSM) : List Effect := t.effects.drop s.effects.length

/-- Modelled from the spec: `daemonCore->Register_Timer( period, handler, ... )`
arms a one-shot timer in the daemon event loop and returns its identifier. -/
def registerTimer (period : Int) (kind : TimerKind) (s : RSM) : Int × RSM :=
  (s.nextTimerId,
   { s with timers := s.timers ++ [{ id := s.nextTimerId, kind := kind, period := period }],
            nextTimerId := s.nextTimerId + 1 })

/-- Modelled from the spec: `utilCancelTimer( timerId )`; a valid identifier is
cancelled in the daemon event loop, and the identifier becomes `-1`
(cancellation is idempotent). The result is the timer table. -/
def utilCancelTimer (timerId : Int) (timers : List Timer) : List Timer :=
  if 0 ≤ timerId then timers.filter (fun t => t.id != timerId) else timers

/-- Modelled from the spec: `broadcastVersion( command )` sends the command with the
local version and state to every peer. -/
def broadcastVersion (command : Command) (s : RSM) : RSM :=
  s.emit [Effect.broadcastVersion command s.m_myVersion]

/-- Modelled from the spec: `requestVersions( )` broadcasts `REPLICATION_SOLICIT_VERSION`. -/
def requestVersions (s : RSM) : RSM := s.emit [Effect.requestVersions]

/-- Modelled from the spec: `sendVersionAndStateCommand( command, address )` sends the
command with the local version and state to one peer. -/
def sendVersionAndStateCommand (command : Command) (address : String) (s : RSM) : RSM :=
  s.emit [Effect.sendVersionAndStateCommand command address]

/-- Modelled from the spec: `Version::synchronize( true )`; when the state file
changed since the last call the logical clock is incremented and the call
returns true, otherwise nothing changes and it returns false. -/
def synchronize (env : Env) (s : RSM) : Bool × RSM :=
  if env.fileChanged then
    (true, { s with m_myVersion := { s.m_myVersion with logicalClock := s.m_myVersion.logicalClock + 1 } })
  else (false, s)

/-- Modelled from the spec: `checkVersionSynchronization( )` calls
`myVersion.synchronize( true )` and broadcasts the local version on change (the
spec does not name the command of that broadcast; the one of the leader's tick
is taken). -/
def checkVersionSynchronization (env : Env) (s : RSM) : RSM :=
  let r := synchronize env s
  if r.1 then broadcastVersion Command.REPLICATION_LEADER_VERSION r.2 else r.2

/-- Modelled from the spec: `updateVersionsList( v )`, an upsert keyed by the sender's
address: an earlier entry of the same sender is removed and `v` is appended. -/
def updateVersionsList (v : Version) (s : RSM) : RSM :=
  { s with m_versionsList :=
      s.m_versionsList.filter (fun w => w.sinfulString != v.sinfulString) ++ [v] }

/-- Modelled from the spec: `downloadTransferersNumber( )`, the number of active
downloads: one when the download record is valid, zero otherwise. -/
def downloadTransferersNumber (s : RSM) : Nat :=
  if s.m_downloadTransfererMetadata.isValid then 1 else 0

/-- Modelled from the spec: `download( peer )` starts a downloading transferer
and records its pid and creation time; the request is dropped when a download
is already active, and nothing is recorded when no process was created. The
call itself is logged in both cases. -/
def download (env : Env) (address : String) (s : RSM) : RSM :=
  let s1 := s.emit [Effect.download address]
  if s.m_downloadTransfererMetadata.isValid then s1
  else if 0 < env.newPid then
    { s1 with m_downloadTransfererMetadata :=
                { m_pid := env.newPid, m_lastTimeCreated := env.now } }
  else s1

/-- Modelled from the spec: `upload( peer )` starts an uploading transferer and
appends its record; uploads are not singletons. -/
def upload (env : Env) (address : String) (s : RSM) : RSM :=
  let s1 := s.emit [Effect.upload address]
  if 0 < env.newPid then
    { s1 with m_uploadTransfererMetadataList :=
                s1.m_uploadTransfererMetadataList ++
                  [{ m_pid := env.newPid, m_lastTimeCreated := env.now }] }
  else s1

/-- Extension of the temporary files of the transferer `pid`: the pid, a dot and
the ending that tells downloads from uploads. -/
def temporaryExtension (pid : Int) (ending : String) : String :=
  toString pid ++ "." ++ ending

/-- Modelled from the spec: the reaper of the supervisor for a downloading
transferer (`AbstractReplicatorStateMachine::downloadReplicaTransfererReaper`):
on exit status `0` the temporary files are promoted into place, otherwise they
are deleted; the record of that pid is cleared; the result is
`TRANSFERER_TRUE` on success and `TRANSFERER_FALSE` otherwise. -/
def abstractDownloadReplicaTransfererReaper (pid exitStatus : Int) (s : RSM) : Int × RSM :=
  let extension := temporaryExtension pid DOWNLOADING_TEMPORARY_FILES_EXTENSION
  let s1 : RSM :=
    if s.m_downloadTransfererMetadata.m_pid = pid then
      { s with m_downloadTransfererMetadata := ProcessMetadata.cleared }
    else s
  if exitStatus = 0 then
    (TRANSFERER_TRUE,
     s1.emit [Effect.rotateFile s.m_versionFilePath extension,
              Effect.rotateFile s.m_stateFilePath extension])
  else
    (TRANSFERER_FALSE,
     s1.emit [Effect.safeUnlinkFile s.m_versionFilePath extension,
              Effect.safeUnlinkFile s.m_stateFilePath extension])

/-- Modelled from the spec: the reaper of the supervisor for an uploading
transferer (`AbstractReplicatorStateMachine::uploadReplicaTransfererReaper`):
the temporary files are deleted and the record of that pid is cleared. -/
def uploadReplicaTransfererReaper (pid exitStatus : Int) (s : RSM) : Int × RSM :=
  let extension := temporaryExtension pid UPLOADING_TEMPORARY_FILES_EXTENSION
  let s1 : RSM :=
    { s with m_uploadTransfererMetadataList :=
               s.m_uploadTransfererMetadataList.filter (fun p => p.m_pid != pid) }
  (if exitStatus = 0 then TRANSFERER_TRUE else TRANSFERER_FALSE,
   s1.emit [Effect.safeUnlinkFile s.m_versionFilePath extension,
            Effect.safeUnlinkFile s.m_stateFilePath extension])

/-! ## The wire -/

/-- Modelled from the spec: one coded item of an inbound message. -/
inductive Item
  | int32 (v : Int)
  | int64 (v : Int)
  | str (v : String)
  deriving DecidableEq, Repr

/-- Modelled from the spec: the rest of an inbound message, as the items still to
be read. -/
abbrev WireStream := List Item

/-- Modelled from the spec: `stream->code( int& )` reads a 32-bit integer. -/
def codeInt : WireStream → Option (Int × WireStream)
  | Item.int32 v :: rest => some (v, rest)
  | _ => none

/-- Modelled from the spec: `stream->code( char*& )` reads a string. -/
def codeString : WireStream → Option (String × WireStream)
  | Item.str v :: rest => some (v, rest)
  | _ => none

/-- Modelled from the spec: `Version::decode( stream )` reads `gid` as a 32-bit
integer, `logicalClock` as a 64-bit integer and `sinfulString` as a string. -/
def Version.decode : WireStream → Option (Version × WireStream)
  | Item.int32 g :: Item.int64 c :: Item.str a :: rest =>
      some ({ gid := g, logicalClock := c, sinfulString := a, state := Version.empty.state }, rest)
  | _ => none

/-- Modelled from the spec: `Version::encode( stream )`, the layout read by `decode`. -/
def Version.encode (v : Version) : WireStream :=
  [Item.int32 v.gid, Item.int64 v.logicalClock, Item.str v.sinfulString]

/-! ## The state machine -/

/-- Sequencing of handlers: a handler that does not return ends the run. -/
def Outcome.bind {α β : Type} (x : Outcome α) (f : α → Outcome β) : Outcome β :=
  match x with
  | .ok a => f a
  | .assertionFailed => .assertionFailed
  | .nullDereference => .nullDereference
  | .outOfFuel => .outOfFuel

/-- Value of a timer identifier after `utilCancelTimer`. -/
def cancelledId (timerId : Int) : Int := if 0 ≤ timerId then -1 else timerId

/-- Source: `ReplicatorStateMachine::beforePassiveStateHandler`. -/
def beforePassiveStateHandler (s : RSM) : Outcome RSM :=
  if s.m_state = ReplicatorState.VERSION_REQUESTING then
    let s1 := broadcastVersion Command.REPLICATION_NEWLY_JOINED_VERSION s
    let s2 := requestVersions s1
    let r := registerTimer s2.m_newlyJoinedWaitingVersionInterval TimerKind.versionRequesting s2
    Outcome.ok { r.2 with m_versionRequestingTimerId := r.1 }
  else Outcome.assertionFailed

/-- Source: the loop of `replicaSelectionHandler` over the versions after the first. -/
def bestVersionLoop (bestVersion : Version) : List Version → Version
  | [] => bestVersion
  | version :: rest =>
      if version.isComparable bestVersion && version.gt bestVersion then
        bestVersionLoop version rest
      else bestVersionLoop bestVersion rest

/-- Source: `ReplicatorStateMachine::replicaSelectionHandler`; the result is the
returned boolean with the value of the in/out argument after the call. -/
def replicaSelectionHandler (s : RSM) (newVersion : Version) : Outcome (Bool × Version) :=
  if s.m_state = ReplicatorState.VERSION_DOWNLOADING ∨ s.m_state = ReplicatorState.BACKUP then
    let actualVersionsList := s.m_versionsList
    let myVersionCopy := s.m_myVersion
    if s.m_state = ReplicatorState.BACKUP then
      let myVersionCopy := myVersionCopy.setState newVersion
      Outcome.ok (!newVersion.isComparable myVersionCopy || newVersion.gt myVersionCopy, newVersion)
    else
      match actualVersionsList with
      | [] => Outcome.ok (false, newVersion)
      | first :: rest =>
          let bestVersion := bestVersionLoop first rest
          let myVersionCopy := myVersionCopy.setState bestVersion
          if myVersionCopy.isComparable bestVersion && myVersionCopy.ge bestVersion then
            Outcome.ok (false, newVersion)
          else Outcome.ok (true, bestVersion)
  else Outcome.assertionFailed

/-- Source: the first loop of `gidSelectionHandler`, which stops at the first
version that is not comparable with the local one. -/
def areVersionsComparable (myVersion : Version) : List Version → Bool
  | [] => true
  | actualVersion :: rest =>
      if !myVersion.isComparable actualVersion then false
      else areVersionsComparable myVersion rest

/-- Source: the loop `while( ( temporaryGid = rand( ) ) == m_myVersion.getGid( ) );`
reading the values of `rand( )` from position `i` on, for at most `fuel`
iterations. -/
def selectGidLoop (rand : Nat → Int) (gid : Int) : Nat → Nat → Option Int
  | 0, _ => none
  | fuel + 1, i =>
      if rand i = gid then selectGidLoop rand gid fuel (i + 1) else some (rand i)

/-- Source: `ReplicatorStateMachine::gidSelectionHandler`. -/
def gidSelectionHandler (fuel : Nat) (env : Env) (s : RSM) : Outcome RSM :=
  if s.m_state = ReplicatorState.BACKUP ∨ s.m_state = ReplicatorState.REPLICATION_LEADER then
    if areVersionsComparable s.m_myVersion s.m_versionsList then Outcome.ok s
    else
      match selectGidLoop env.rand s.m_myVersion.gid fuel 0 with
      | none => Outcome.outOfFuel
      | some temporaryGid =>
          Outcome.ok { s with m_myVersion := s.m_myVersion.setGid temporaryGid }
  else Outcome.assertionFailed

/-- Source: `ReplicatorStateMachine::decodeVersionAndState`; `none` is the null
pointer returned on failure. -/
def decodeVersionAndState (stream : WireStream) : Option Version :=
  match Version.decode stream with
  | none => none
  | some (newVersion, rest) =>
      match codeInt rest with
      | none => none
      | some (remoteReplicatorState, _) => some (newVersion.setStateInt remoteReplicatorState)

/-- Source: `ReplicatorStateMachine::becomeLeader`. -/
def becomeLeader (fuel : Nat) (env : Env) (s : RSM) : Outcome RSM :=
  (gidSelectionHandler fuel env { s with m_lastHadAliveTime := env.now }).bind
    fun s1 => Outcome.ok { s1 with m_state := ReplicatorState.REPLICATION_LEADER }

/-- Source: `ReplicatorStateMachine::afterElectionStateHandler`. -/
def afterElectionStateHandler (fuel : Nat) (env : Env) (s : RSM) : Outcome RSM :=
  if s.m_state ≠ ReplicatorState.REPLICATION_LEADER then
    if s.m_state = ReplicatorState.VERSION_REQUESTING ∨
        s.m_state = ReplicatorState.VERSION_DOWNLOADING then Outcome.ok s
    else becomeLeader fuel env s
  else Outcome.assertionFailed

/-- Source: `ReplicatorStateMachine::afterLeaderStateHandler`. -/
def afterLeaderStateHandler (s : RSM) : RSM :=
  if s.m_state = ReplicatorState.VERSION_REQUESTING ∨
      s.m_state = ReplicatorState.VERSION_DOWNLOADING then s
  else if s.m_state = ReplicatorState.BACKUP then s
  else
    { broadcastVersion Command.REPLICATION_GIVING_UP_VERSION s with
        m_state := ReplicatorState.BACKUP }

/-- Source: `ReplicatorStateMachine::inLeaderStateHandler`. -/
def inLeaderStateHandler (fuel : Nat) (env : Env) (s : RSM) : Outcome RSM :=
  if s.m_state = ReplicatorState.VERSION_REQUESTING ∨
      s.m_state = ReplicatorState.VERSION_DOWNLOADING then Outcome.ok s
  else if s.m_state = ReplicatorState.BACKUP then becomeLeader fuel env s
  else Outcome.ok { s with m_lastHadAliveTime := env.now }

/-- Source: `ReplicatorStateMachine::onLeaderVersion`; the received version is
the one decoded from the stream, and a null pointer given to
`replicaSelectionHandler` is dereferenced there. -/
def onLeaderVersion (env : Env) (stream : WireStream) (s : RSM) : Outcome RSM :=
  if s.m_state ≠ ReplicatorState.BACKUP then Outcome.ok s
  else
    let s1 := checkVersionSynchronization env s
    match decodeVersionAndState stream with
    | none => Outcome.nullDereference
    | some newVersion =>
        (replicaSelectionHandler s1 newVersion).bind fun r =>
          if downloadTransferersNumber s1 = 0 ∧ r.1 = true then
            Outcome.ok (download env r.2.sinfulString s1)
          else Outcome.ok s1

/-- Source: `ReplicatorStateMachine::onTransferFile`. -/
def onTransferFile (env : Env) (daemonSinfulString : String) (s : RSM) : RSM :=
  if s.m_state = ReplicatorState.REPLICATION_LEADER then upload env daemonSinfulString s else s

/-- Source: `ReplicatorStateMachine::onSolicitVersion`. -/
def onSolicitVersion (daemonSinfulString : String) (s : RSM) : RSM :=
  if s.m_state = ReplicatorState.BACKUP ∨ s.m_state = ReplicatorState.REPLICATION_LEADER then
    sendVersionAndStateCommand Command.REPLICATION_SOLICIT_VERSION_REPLY daemonSinfulString s
  else s

/-- Source: `ReplicatorStateMachine::onSolicitVersionReply`. -/
def onSolicitVersionReply (stream : WireStream) (s : RSM) : RSM :=
  if s.m_state = ReplicatorState.VERSION_REQUESTING then
    match decodeVersionAndState stream with
    | some newVersion => updateVersionsList newVersion s
    | none => s
  else s

/-- Source: `ReplicatorStateMachine::onNewlyJoinedVersion` (void by now). -/
def onNewlyJoinedVersion (_stream : WireStream) (s : RSM) : RSM := s

/-- Source: `ReplicatorStateMachine::onGivingUpVersion`. -/
def onGivingUpVersion (fuel : Nat) (env : Env) (_stream : WireStream) (s : RSM) : Outcome RSM :=
  if s.m_state = ReplicatorState.REPLICATION_LEADER then gidSelectionHandler fuel env s
  else Outcome.ok s

/-- Source: `ReplicatorStateMachine::versionDownloadingTimer`. -/
def versionDownloadingTimer (env : Env) (s : RSM) : RSM :=
  let s1 : RSM :=
    { s with timers := utilCancelTimer s.m_versionDownloadingTimerId s.timers,
             m_versionDownloadingTimerId := cancelledId s.m_versionDownloadingTimerId }
  let s2 : RSM := { s1 with m_versionsList := [] }
  let s3 := checkVersionSynchronization env s2
  { s3 with m_state := ReplicatorState.BACKUP }

/-- Source: `ReplicatorStateMachine::versionRequestingTimer`. -/
def versionRequestingTimer (env : Env) (s : RSM) : Outcome RSM :=
  let s1 : RSM :=
    { s with timers := utilCancelTimer s.m_versionRequestingTimerId s.timers,
             m_versionRequestingTimerId := cancelledId s.m_versionRequestingTimerId }
  let s2 : RSM := { s1 with m_state := ReplicatorState.VERSION_DOWNLOADING }
  (replicaSelectionHandler s2 Version.empty).bind fun r =>
    if r.1 = true then
      let s3 := download env r.2.sinfulString s2
      let t := registerTimer s3.m_maxTransfererLifeTime TimerKind.versionDownloading s3
      Outcome.ok { t.2 with m_versionDownloadingTimerId := t.1 }
    else Outcome.ok (versionDownloadingTimer env s2)

/-- Source: `ReplicatorStateMachine::downloadReplicaTransfererReaper`; the result
is the returned value with the state after the call. -/
def downloadReplicaTransfererReaper (env : Env) (pid exitStatus : Int) (s : RSM) : Int × RSM :=
  let r := abstractDownloadReplicaTransfererReaper pid exitStatus s
  if r.1 = TRANSFERER_TRUE ∧ r.2.m_state = ReplicatorState.VERSION_DOWNLOADING then
    (r.1, versionDownloadingTimer env r.2)
  else r

/-- Source: `ReplicatorStateMachine::killStuckDownloadingTransferer`. -/
def killStuckDownloadingTransferer (currentTime : Int) (s : RSM) : RSM :=
  if s.m_downloadTransfererMetadata.isValid = true ∧
      currentTime - s.m_downloadTransfererMetadata.m_lastTimeCreated > s.m_maxTransfererLifeTime then
    let extension :=
      temporaryExtension s.m_downloadTransfererMetadata.m_pid DOWNLOADING_TEMPORARY_FILES_EXTENSION
    let s1 := s.emit [Effect.sendSignalKill s.m_downloadTransfererMetadata.m_pid,
                      Effect.safeUnlinkFile s.m_versionFilePath extension,
                      Effect.safeUnlinkFile s.m_stateFilePath extension]
    { s1 with m_downloadTransfererMetadata := ProcessMetadata.cleared }
  else s

/-- Source: the loop of `killStuckUploadingTransferers`; the result is the effects
of the loop with the records that stay in the list. -/
def killStuckUploadingLoop (currentTime maxTransfererLifeTime : Int)
    (versionFilePath stateFilePath : String) :
    List ProcessMetadata → List Effect × List ProcessMetadata
  | [] => ([], [])
  | uploadTransfererMetadata :: rest =>
      let r := killStuckUploadingLoop currentTime maxTransfererLifeTime
                 versionFilePath stateFilePath rest
      if uploadTransfererMetadata.isValid = true ∧
          currentTime - uploadTransfererMetadata.m_lastTimeCreated > maxTransfererLifeTime then
        let extension :=
          temporaryExtension uploadTransfererMetadata.m_pid UPLOADING_TEMPORARY_FILES_EXTENSION
        ([Effect.sendSignalKill uploadTransfererMetadata.m_pid,
          Effect.safeUnlinkFile versionFilePath extension,
          Effect.safeUnlinkFile stateFilePath extension] ++ r.1, r.2)
      else (r.1, uploadTransfererMetadata :: r.2)

/-- Source: `ReplicatorStateMachine::killStuckUploadingTransferers`. -/
def killStuckUploadingTransferers (currentTime : Int) (s : RSM) : RSM :=
  let r := killStuckUploadingLoop currentTime s.m_maxTransfererLifeTime
             s.m_versionFilePath s.m_stateFilePath s.m_uploadTransfererMetadataList
  { s.emit r.1 with m_uploadTransfererMetadataList := r.2 }

/-- Value of an `int` expression: the mathematical value reduced to 32 bits, two's
complement. -/
def toInt32 (x : Int) : Int := (x + 2 ^ 31) % 2 ^ 32 - 2 ^ 31

/-- Source: `ReplicatorStateMachine::replicationTimer`. The clock is read into
`int currentTime = time( NULL )`: the value of `time( NULL )` is reduced to 32 bits, and it
is this `int` that the two kill functions receive and that is compared with
`m_lastHadAliveTime`, which is a `time_t` and holds the time as it was read. -/
def replicationTimer (env : Env) (s : RSM) : RSM :=
  let s1 : RSM :=
    { s with timers := utilCancelTimer s.m_replicationTimerId s.timers,
             m_replicationTimerId := cancelledId s.m_replicationTimerId }
  let t := registerTimer s1.m_replicationInterval TimerKind.replication s1
  let s2 : RSM := { t.2 with m_replicationTimerId := t.1 }
  if s2.m_state = ReplicatorState.VERSION_REQUESTING then s2
  else
    let currentTime := toInt32 env.now
    let s3 := killStuckDownloadingTransferer currentTime s2
    if s3.m_state = ReplicatorState.VERSION_DOWNLOADING then s3
    else
      let s4 := killStuckUploadingTransferers currentTime s3
      if s4.m_state = ReplicatorState.BACKUP then checkVersionSynchronization env s4
      else
        let r := synchronize env s4
        let s5 := if r.1 then broadcastVersion Command.REPLICATION_LEADER_VERSION r.2 else r.2
        if currentTime - s5.m_lastHadAliveTime > s5.m_hadAliveTolerance then
          { broadcastVersion Command.REPLICATION_GIVING_UP_VERSION s5 with
              m_state := ReplicatorState.BACKUP }
        else s5

/-- Source: `ReplicatorStateMachine::commandHandler`. -/
def commandHandler (fuel : Nat) (env : Env) (command : Command) (stream : WireStream)
    (s : RSM) : Outcome RSM :=
  match codeString stream with
  | none => Outcome.ok s
  | some (daemonSinfulString, stream) =>
      match command with
      | .REPLICATION_LEADER_VERSION => onLeaderVersion env stream s
      | .REPLICATION_TRANSFER_FILE => Outcome.ok (onTransferFile env daemonSinfulString s)
      | .REPLICATION_SOLICIT_VERSION => Outcome.ok (onSolicitVersion daemonSinfulString s)
      | .REPLICATION_SOLICIT_VERSION_REPLY => Outcome.ok (onSolicitVersionReply stream s)
      | .REPLICATION_NEWLY_JOINED_VERSION => Outcome.ok (onNewlyJoinedVersion stream s)
      | .REPLICATION_GIVING_UP_VERSION => onGivingUpVersion fuel env stream s
      | .HAD_BEFORE_PASSIVE_STATE => beforePassiveStateHandler s
      | .HAD_AFTER_ELECTION_STATE => afterElectionStateHandler fuel env s
      | .HAD_AFTER_LEADER_STATE => Outcome.ok (afterLeaderStateHandler s)
      | .HAD_IN_LEADER_STATE => inLeaderStateHandler fuel env s

/-! ## The daemon event loop -/

/-- What the daemon event loop can deliver to the machine. -/
inductive Event
  /-- Delivery of a registered command with its message. -/
  | command (command : Command) (stream : WireStream)
  /-- Expiry of the timer with the given identifier. -/
  | timer (id : Int)
  /-- Exit of a downloading transferer. -/
  | downloadReaper (pid exitStatus : Int)
  /-- Exit of an uploading transferer. -/
  | uploadReaper (pid exitStatus : Int)
  deriving DecidableEq, Repr

/-- Modelled from the spec: the daemon event loop delivers one event. A timer
expires only while it is registered, it is one-shot, and its handler is the
one it was registered with. -/
def step (fuel : Nat) (env : Env) (e : Event) (s : RSM) : Outcome RSM :=
  match e with
  | .command c stream => commandHandler fuel env c stream s
  | .timer id =>
      match s.timers.find? (fun t => t.id == id) with
      | none => Outcome.ok s
      | some t =>
          let s1 : RSM := { s with timers := s.timers.filter (fun u => u.id != id) }
          match t.kind with
          | .replication => Outcome.ok (replicationTimer env s1)
          | .versionRequesting => versionRequestingTimer env s1
          | .versionDownloading => Outcome.ok (versionDownloadingTimer env s1)
  | .downloadReaper pid exitStatus =>
      Outcome.ok (downloadReplicaTransfererReaper env pid exitStatus s).2
  | .uploadReaper pid exitStatus => Outcome.ok (uploadReplicaTransfererReaper pid exitStatus s).2

/-- Delivery of a sequence of events, each with what the outside world answers
during its handler. -/
def run (fuel : Nat) : List (Env × Event) → RSM → Outcome RSM
  | [], s => Outcome.ok s
  | (env, e) :: rest, s => (step fuel env e s).bind (run fuel rest)

/-- Source: the constructor of `ReplicatorStateMachine`, for a machine whose
inherited members hold the given local version and file paths. -/
def constructed (myVersion : Version) (versionFilePath stateFilePath : String) : RSM :=
  { m_state := ReplicatorState.VERSION_REQUESTING
    m_myVersion := myVersion
    m_versionsList := []
    m_downloadTransfererMetadata := ProcessMetadata.cleared
    m_uploadTransfererMetadataList := []
    m_replicationTimerId := -1
    m_versionRequestingTimerId := -1
    m_versionDownloadingTimerId := -1
    m_replicationInterval := -1
    m_hadAliveTolerance := -1
    m_maxTransfererLifeTime := -1
    m_newlyJoinedWaitingVersionInterval := -1
    m_lastHadAliveTime := -1
    m_versionFilePath := versionFilePath
    m_stateFilePath := stateFilePath
    timers := []
    nextTimerId := 0
    effects := [] }

/-- Source: the end of `ReplicatorStateMachine::reinitialize`, once the four
intervals are known: the replication timer is registered and
`beforePassiveStateHandler` is called. -/
def initialState (replicationInterval maxTransfererLifeTime newlyJoinedWaitingVersionInterval
    hadAliveTolerance : Int) (myVersion : Version) (versionFilePath stateFilePath : String) :
    Outcome RSM :=
  let s0 : RSM :=
    { constructed myVersion versionFilePath stateFilePath with
        m_replicationInterval := replicationInterval
        m_maxTransfererLifeTime := maxTransfererLifeTime
        m_newlyJoinedWaitingVersionInterval := newlyJoinedWaitingVersionInterval
        m_hadAliveTolerance := hadAliveTolerance }
  let t := registerTimer s0.m_replicationInterval TimerKind.replication s0
  beforePassiveStateHandler { t.2 with m_replicationTimerId := t.1 }

/-! ## Concrete machines and environments used in examples -/

/-- Environment in which the clock shows `now`, the state file is unchanged,
a created transferer gets the pid `77` and `rand( )` yields `0, 1, 2, ...`. -/
def exampleEnv (now : Int) : Env :=
  { now := now, fileChanged := false, newPid := 77, rand := fun i => (i : Int) }

/-- Machine in the given state with the given local version, with
`HAD_ALIVE_TOLERANCE = 50`, `MAX_TRANSFERER_LIFETIME = 60`, the last message of
HAD at time `1000`, no transferer and no peer version. -/
def exampleMachine (state : ReplicatorState) (myVersion : Version) : RSM :=
  { constructed myVersion "Version" "State" with
      m_state := state
      m_replicationInterval := 300
      m_hadAliveTolerance := 50
      m_maxTransfererLifeTime := 60
      m_newlyJoinedWaitingVersionInterval := 10
      m_lastHadAliveTime := 1000 }

/-- Example version with the given gid and clock, produced by `address`. -/
def exampleVersion (gid clock : Int) (address : String) : Version :=
  { gid := gid, logicalClock := clock, sinfulString := address,
    state := ReplicatorState.BACKUP.toInt }

/-- Items of a message after the sender's address: the version `v` and its state. -/
def payload (v : Version) : WireStream := v.encode ++ [Item.int32 v.state]

/-- Message of the peer `sender` carrying the version `v` and its state. -/
def message (sender : String) (v : Version) : WireStream := Item.str sender :: payload v

/-- Machine right after `reinitialize`, with empty local files, a waiting
interval of 10, `MAX_TRANSFERER_LIFETIME = 60` and `HAD_ALIVE_TOLERANCE = 50`. -/
def exampleInitial : Outcome RSM := initialState 300 60 10 50 Version.empty "Version" "State"

/-- A start in which HAD announces its passive state twice more while the
versions are collected, the peer `B` answers with `{gid=7,clock=42}`, and the
first of the three armed `versionRequesting` timers expires. -/
def doubleJoinTrace : List (Env × Event) :=
  [(exampleEnv 1, Event.command Command.HAD_BEFORE_PASSIVE_STATE [Item.str "had"]),
   (exampleEnv 2, Event.command Command.HAD_BEFORE_PASSIVE_STATE [Item.str "had"]),
   (exampleEnv 3, Event.command Command.REPLICATION_SOLICIT_VERSION_REPLY
      (message "B" (exampleVersion 7 42 "B"))),
   (exampleEnv 10, Event.timer 1)]

/-- The best version in the words of the spec: the entries are reduced from the
first one on with the rule "replace the current best iff the candidate is
comparable with it and strictly greater", so that ties keep the earlier entry;
there is no best version in an empty list. -/
def specBestVersion : List Version → Option Version
  | [] => none
  | first :: rest =>
      some (rest.foldl
        (fun best candidate =>
          if candidate.isComparable best = true ∧ candidate.gt best = true then candidate
          else best)
        first)

/-- Machine in `VERSION_DOWNLOADING` with empty local files that has received
`{gid=7,clock=40}` from `A` and `{gid=7,clock=42}` from `B`. -/
def exampleDownloading : RSM :=
  { exampleMachine ReplicatorState.VERSION_DOWNLOADING Version.empty with
      m_versionsList := [exampleVersion 7 40 "A", exampleVersion 7 42 "B"] }

/-- Machine in `VERSION_REQUESTING` with empty local files that has received
`{gid=7,clock=40}` from `A` and `{gid=7,clock=42}` from `B`. -/
def exampleRequesting : RSM :=
  { exampleMachine ReplicatorState.VERSION_REQUESTING Version.empty with
      m_versionsList := [exampleVersion 7 40 "A", exampleVersion 7 42 "B"] }

/-- Kind of the registered timer with the given identifier, if there is one. -/
def registeredTimerKind (s : RSM) (id : Int) : Option TimerKind :=
  (s.timers.find? (fun t => t.id == id)).map (fun t => t.kind)

/-- The states in which the machine can be between two handlers: the state after
`reinitialize`, and every state in which a handler returns when the daemon
event loop delivers a command, the expiry of a timer or the exit of a
transferer to a machine in such a state. -/
inductive Reachable : RSM → Prop
  | start (replicationInterval maxTransfererLifeTime newlyJoinedWaitingVersionInterval
      hadAliveTolerance : Int) (myVersion : Version) (versionFilePath stateFilePath : String)
      (s : RSM) :
      initialState replicationInterval maxTransfererLifeTime newlyJoinedWaitingVersionInterval
        hadAliveTolerance myVersion versionFilePath stateFilePath = Outcome.ok s →
      Reachable s
  | next (fuel : Nat) (env : Env) (e : Event) (s t : RSM) :
      Reachable s → step fuel env e s = Outcome.ok t → Reachable t

/-- The selection that the `versionRequesting` timer would make is true. -/
def selectionHolds (s : RSM) : Prop :=
  ∃ best, replicaSelectionHandler { s with m_state := ReplicatorState.VERSION_DOWNLOADING }
    Version.empty = Outcome.ok (true, best)

/-- The value of an outcome, or `d` when the handler did not return. -/
def Outcome.getD {α : Type} (x : Outcome α) (d : α) : α :=
  match x with
  | .ok a => a
  | _ => d

/-- Machine that, after `reinitialize`, received the version `{gid=7,clock=42}` of
`B` and whose `versionRequesting` timer expired: it is downloading from `B`. -/
def exampleReachedDownloading : RSM :=
  (exampleInitial.bind (run 0
    [(exampleEnv 3, Event.command Command.REPLICATION_SOLICIT_VERSION_REPLY
        (message "B" (exampleVersion 7 42 "B"))),
     (exampleEnv 10, Event.timer 1)])).getD
    (constructed Version.empty "Version" "State")

/-- A tracked transferer record is overdue at time `now` when it is valid and
`now − startedAt` exceeds the maximal lifetime (the words of the spec). -/
def isOverdue (now maxLifetime : Int) (p : ProcessMetadata) : Bool :=
  p.isValid && decide (now - p.m_lastTimeCreated > maxLifetime)

/-- The pid to which an effect sends the kill signal, if it is one. -/
def Effect.killedPid : Effect → Option Int
  | .sendSignalKill pid => some pid
  | _ => none

/-- Leader that started an upload (pid 8) at time 0, with
`MAX_TRANSFERER_LIFETIME = 60`. -/
def exampleUploading : RSM :=
  { exampleMachine ReplicatorState.REPLICATION_LEADER (exampleVersion 3 9 "local") with
      m_uploadTransfererMetadataList := [{ m_pid := 8, m_lastTimeCreated := 0 }] }

/-- Leader with gid 5 that holds the version of a peer with gid 9. -/
def exampleSplitLeader : RSM :=
  { exampleMachine ReplicatorState.REPLICATION_LEADER (exampleVersion 5 9 "local") with
      m_versionsList := [exampleVersion 9 1 "peer"] }

/-- Leader with gid 5 that holds the version of a peer with the same gid. -/
def exampleAgreeingLeader : RSM :=
  { exampleMachine ReplicatorState.REPLICATION_LEADER (exampleVersion 5 9 "local") with
      m_versionsList := [exampleVersion 5 1 "peer"] }

/-- Environment in which `rand( )` yields `5, 5, 11, 11, ...`. -/
def exampleRandEnv : Env :=
  { now := 0, fileChanged := false, newPid := 77, rand := fun i => if i < 2 then 5 else 11 }

/-- Backup with gid 5 that holds the version of a peer with gid 9. -/
def exampleSplitBackup : RSM :=
  { exampleMachine ReplicatorState.BACKUP (exampleVersion 5 9 "local") with
      m_versionsList := [exampleVersion 9 1 "peer"] }

/-- A start in which HAD announces its passive state twice more, no peer answers,
the first of the three armed `versionRequesting` timers expires (the machine
passes to `BACKUP`), and HAD announces that it is the leader at time 20. -/
def staleTimerTrace : List (Env × Event) :=
  [(exampleEnv 1, Event.command Command.HAD_BEFORE_PASSIVE_STATE [Item.str "had"]),
   (exampleEnv 2, Event.command Command.HAD_BEFORE_PASSIVE_STATE [Item.str "had"]),
   (exampleEnv 10, Event.timer 1),
   (exampleEnv 20, Event.command Command.HAD_IN_LEADER_STATE [Item.str "had"])]

/-- Environment in which the clock shows `now` and the state file has changed
since the last synchronization. -/
def exampleChangedEnv (now : Int) : Env :=
  { now := now, fileChanged := true, newPid := 77, rand := fun i => (i : Int) }

/-! ## The configuration -/

/-- Multiplicative factor of the source: how long an active HAD that sends no
message is considered alive. -/
def HAD_ALIVE_TOLERANCE_FACTOR : Int := 2

/-- Multiplicative factor of the source: how long a newly joining machine may
download the version and state files. -/
def NEWLY_JOINED_TOLERANCE_FACTOR : Int := 2

/-- Modelled from the spec: `MINUTE`, the number of seconds of a minute (the
default of five minutes is 300 seconds). -/
def MINUTE : Int := 60

/-- What the configuration functions read from outside: the configuration file
(`param`), the parser `utilAtoi` with its success flag, the number of entries
of a string list (`StringList::number`) and the constant
`DEFAULT_SEND_COMMAND_TIMEOUT`; none of them is part of the sources at hand. -/
structure Configuration where
  param : String → Option String
  utilAtoi : String → Int × Bool
  stringListNumber : String → Int
  DEFAULT_SEND_COMMAND_TIMEOUT : Int

/-- Result of code that may stop the program through `utilCrucialError`. -/
inductive Startup (α : Type)
  /-- The code returned. -/
  | ok (a : α)
  /-- The code called `utilCrucialError` for the given parameter. -/
  | crucialError (parameter : String)
  deriving DecidableEq, Repr

/-- Sequencing: after `utilCrucialError` nothing runs. -/
def Startup.bind {α β : Type} (x : Startup α) (f : α → Startup β) : Startup β :=
  match x with
  | .ok a => f a
  | .crucialError p => .crucialError p

mutual

/-- Source: `getConfigurationDefaultPositiveIntegerParameter`. -/
def getConfigurationDefaultPositiveIntegerParameter (c : Configuration) (parameter : String) :
    Startup Int :=
  if parameter = "REPLICATION_INTERVAL" then Startup.ok (toInt32 (5 * MINUTE))
  else if parameter = "HAD_CONNECTION_TIMEOUT" then Startup.ok c.DEFAULT_SEND_COMMAND_TIMEOUT
  else if parameter = "MAX_TRANSFERER_LIFETIME" then Startup.ok (toInt32 (5 * MINUTE))
  else if parameter = "NEWLY_JOINED_WAITING_VERSION_INTERVAL" then
    (getConfigurationPositiveIntegerParameter c "HAD_CONNECTION_TIMEOUT").bind
      fun hadConnectionTimeout =>
        Startup.ok (toInt32 (NEWLY_JOINED_TOLERANCE_FACTOR * toInt32 (hadConnectionTimeout + 1)))
  else Startup.ok (-1)
termination_by if parameter = "NEWLY_JOINED_WAITING_VERSION_INTERVAL" then 2 else 0
decreasing_by
  simp_wf
  simp_all

/-- Source: `getConfigurationPositiveIntegerParameter`. -/
def getConfigurationPositiveIntegerParameter (c : Configuration) (parameter : String) :
    Startup Int :=
  match c.param parameter with
  | some buffer =>
      let r := c.utilAtoi buffer
      if r.2 = false ∨ r.1 ≤ 0 then Startup.crucialError parameter
      else Startup.ok r.1
  | none => getConfigurationDefaultPositiveIntegerParameter c parameter
termination_by if parameter = "NEWLY_JOINED_WAITING_VERSION_INTERVAL" then 3 else 1
decreasing_by
  simp_wf
  split <;> simp

end

/-- Source: `ReplicatorStateMachine::reinitialize`, for a machine whose inherited
members hold the given local version and file paths after `finalize` and the
inherited `reinitialize`: the four intervals are read, the tolerance is
deduced from `HAD_CONNECTION_TIMEOUT` and the number of entries of `HAD_LIST`,
and the machine is started. -/
def reinitialize (c : Configuration) (myVersion : Version) (versionFilePath stateFilePath : String) :
    Startup (Outcome RSM) :=
  (getConfigurationPositiveIntegerParameter c "REPLICATION_INTERVAL").bind
    fun replicationInterval =>
  (getConfigurationPositiveIntegerParameter c "MAX_TRANSFER_LIFETIME").bind
    fun maxTransfererLifeTime =>
  (getConfigurationPositiveIntegerParameter c "NEWLY_JOINED_WAITING_VERSION_INTERVAL").bind
    fun newlyJoinedWaitingVersionInterval =>
  (getConfigurationPositiveIntegerParameter c "HAD_CONNECTION_TIMEOUT").bind
    fun hadConnectionTimeout =>
  match c.param "HAD_LIST" with
  | some buffer =>
      let hadAliveTolerance :=
        toInt32 (HAD_ALIVE_TOLERANCE_FACTOR *
          toInt32 (toInt32 (toInt32 (2 * hadConnectionTimeout) * c.stringListNumber buffer) + 1))
      Startup.ok (initialState replicationInterval maxTransfererLifeTime
        newlyJoinedWaitingVersionInterval hadAliveTolerance myVersion versionFilePath
        stateFilePath)
  | none => Startup.crucialError "HAD_LIST"

/-- Configuration that sets `REPLICATION_INTERVAL = 300`,
`HAD_CONNECTION_TIMEOUT = 5` and a `HAD_LIST` of three peers, and nothing
else; `utilAtoi` reads the two numbers and rejects every other text. -/
def exampleConfiguration : Configuration :=
  { param := fun p =>
      if p = "REPLICATION_INTERVAL" then some "300"
      else if p = "HAD_CONNECTION_TIMEOUT" then some "5"
      else if p = "HAD_LIST" then some "a,b,c"
      else none
    utilAtoi := fun text =>
      if text = "300" then (300, true) else if text = "5" then (5, true) else (0, false)
    stringListNumber := fun text => if text = "a,b,c" then 3 else 0
    DEFAULT_SEND_COMMAND_TIMEOUT := 20 }

/-- The configuration `exampleConfiguration` with `MAX_TRANSFERER_LIFETIME = 300`
added, under the name that the table of defaults uses. -/
def exampleConfigurationWithLifetime : Configuration :=
  { exampleConfiguration with
      param := fun p =>
        if p = "MAX_TRANSFERER_LIFETIME" then some "300" else exampleConfiguration.param p }

/-- Machine in `VERSION_DOWNLOADING` with empty local files and the given versions
list. -/
def exampleDownloadingWith (versions : List Version) : RSM :=
  { exampleMachine ReplicatorState.VERSION_DOWNLOADING Version.empty with
      m_versionsList := versions }

/-- How the state and the versions list after a handler relate to those before:
the state is kept, with the list kept unless the machine is collecting
versions; or a backup became leader, or a leader became backup, with the list
kept; or the machine is in `VERSION_DOWNLOADING`; or it is in `BACKUP` with an
empty list. -/
def Shape (s t : RSM) : Prop :=
  (t.m_state = s.m_state ∧
    (t.m_versionsList = s.m_versionsList ∨ s.m_state = ReplicatorState.VERSION_REQUESTING)) ∨
  (s.m_state = ReplicatorState.BACKUP ∧ t.m_state = ReplicatorState.REPLICATION_LEADER ∧
    t.m_versionsList = s.m_versionsList) ∨
  (s.m_state = ReplicatorState.REPLICATION_LEADER ∧ t.m_state = ReplicatorState.BACKUP ∧
    t.m_versionsList = s.m_versionsList) ∨
  t.m_state = ReplicatorState.VERSION_DOWNLOADING ∨
  (t.m_state = ReplicatorState.BACKUP ∧ t.m_versionsList = [])

/-- Machine that, after `reinitialize`, received no version and whose
`versionRequesting` timer expired: it is a backup. -/
def exampleReachedBackup : RSM :=
  (exampleInitial.bind (run 0 [(exampleEnv 10, Event.timer 1)])).getD
    (constructed Version.empty "Version" "State")

/-- The commands that peers send: those named `REPLICATION_...`. -/
def Command.isPeerCommand : Command → Bool
  | .REPLICATION_LEADER_VERSION => true
  | .REPLICATION_TRANSFER_FILE => true
  | .REPLICATION_NEWLY_JOINED_VERSION => true
  | .REPLICATION_GIVING_UP_VERSION => true
  | .REPLICATION_SOLICIT_VERSION => true
  | .REPLICATION_SOLICIT_VERSION_REPLY => true
  | _ => false

end Replication

namespace Pandad

/-! ## The plugin that reports the job queue to pandad -/

/-- The largest value of an `int`. -/
def INT_MAX : Int := 2 ^ 31 - 1

/-- Size of the static buffer of `unquote`. -/
def bufferSize : Nat := 128

/-- The character that ends a C string. -/
def NUL : Char := Char.ofNat 0

/-- The loop `for( ; i < bufferSize && quotedString[i] != '\0'; ++i ) buffer[i] = quotedString[i]`
of `unquote`, started at index `i`: the list of its writes `buffer[index] = character`, in
order. The argument holds the characters of the C string before its terminator. -/
def copyLoop : List Char → Nat → List (Nat × Char)
  | [], _ => []
  | c :: rest, i => if i < bufferSize then (i, c) :: copyLoop rest (i + 1) else []

/-- Content of the cell `buffer[i]` after the writes, in order; a cell that was not written
reads as `NUL`. Indices from `bufferSize` on lie behind the buffer. -/
def bufferAt (writes : List (Nat × Char)) (i : Nat) : Char :=
  writes.foldl (fun c w => if w.1 = i then w.2 else c) NUL

/-- The C string that starts at `buffer[start]`: the cells up to the first `NUL`, reading at
most `fuel` cells. -/
def cString (writes : List (Nat × Char)) : Nat → Nat → List Char
  | 0, _ => []
  | fuel + 1, start =>
    if bufferAt writes start = NUL then [] else
      bufferAt writes start :: cString writes fuel (start + 1)

/-- What a call of `unquote` does: its writes into `buffer`, in order, and the offset in
`buffer` of the pointer it returns. -/
structure Unquoted where
  writes : List (Nat × Char)
  start : Nat
deriving DecidableEq, Repr

/-- The function `unquote`; `none` is the NULL pointer. -/
def unquote (quotedString : Option (List Char)) : Unquoted :=
  match quotedString with
  | none => { writes := [(0, NUL)], start := 0 }
  | some q =>
    let copied := copyLoop q 0
    let i := copied.length
    let terminated := copied ++ [(i, NUL)]
    let stripped :=
      if 0 < i ∧ bufferAt terminated (i - 1) = '"' then terminated ++ [(i - 1, NUL)]
      else terminated
    if bufferAt stripped 0 = '"' then { writes := stripped, start := 1 }
    else { writes := stripped, start := 0 }

/-- The string a caller of `unquote` reads from the returned pointer. -/
def Unquoted.result (u : Unquoted) : List Char :=
  cString u.writes (bufferSize + 1) u.start

/-- The input of `unquote` with one leading and one trailing double quote removed when
present. -/
def withoutQuotes (q : List Char) : List Char :=
  let q := if q.getLast? = some '"' then q.dropLast else q
  if q.head? = some '"' then q.tail else q

/-- A class ad as the plugin reads it: the result of `LookupString( "GlobalJobId", _ )` and
the attributes `NextExpr` yields, in order, each with its unparsed value. -/
structure ClassAd where
  globalJobId : Option String
  exprs : List (String × String)

/-- The functions the plugin calls outside its own file: `sscanf` with the format `"%d.%d"`
(`some` when both numbers were read), `ScheddGetJobAd`, `BinaryLookup` with `strcasecmp`, and
`ProcIdToStr`. -/
structure Schedd where
  sscanf : String → Option (Int × Int)
  ScheddGetJobAd : Int → Int → Option ClassAd
  BinaryLookup : List (String × String) → String → Option (String × String)
  ProcIdToStr : Int → Int → String

/-- One line written to the pipe of pandad. -/
inductive PandaEvent
  | ADD (globalJobID condorJobID : String)
  | UPDATE (globalJobID attr value : String)
  | REMOVE (globalJobID : String)
deriving DecidableEq, Repr

/-- The members of `PandadClassAdLogPlugin`; `pandad` holds the lines written so far. -/
structure PandadClassAdLogPlugin where
  inTransaction : Bool
  lowestNewCluster : Int
  highestNewCluster : Int
  pandad : List PandaEvent
deriving DecidableEq, Repr

/-- The table `sortedMap`. -/
def sortedMap : List (String × String) :=
  [("Cmd", "cmd"), ("Err", "p_stderr"), ("JobPrio", "pri"), ("Out", "p_stdout"),
   ("Owner", "owner"), ("QDate", "submitted"), ("RemoteWallClockTime", "run_time"),
   ("ResidentSetSize", "size")]

/-- `CondorToPandaMap::map`. -/
def CondorToPandaMap.map (q : Schedd) (key : String) : Option String :=
  match q.BinaryLookup sortedMap key with
  | some t => some t.2
  | none => none

/-- `CondorToPandaMap::contains`. -/
def CondorToPandaMap.contains (q : Schedd) (key : String) : Bool :=
  (CondorToPandaMap.map q key).isSome

/-- The plugin as its constructor leaves it. -/
def pluginConstructed : PandadClassAdLogPlugin :=
  { inTransaction := false, lowestNewCluster := INT_MAX, highestNewCluster := 0, pandad := [] }

/-- `PandadClassAdLogPlugin::beginTransaction`. -/
def beginTransaction (p : PandadClassAdLogPlugin) : PandadClassAdLogPlugin :=
  { p with inTransaction := true, lowestNewCluster := INT_MAX, highestNewCluster := 0 }

/-- `PandadClassAdLogPlugin::shouldIgnoreJob`: `none` when the job is ignored, else the
cluster and the proc read from the key. -/
def shouldIgnoreJob (q : Schedd) (key : String) : Option (Int × Int) :=
  match q.sscanf key with
  | none => none
  | some (cluster, proc) => if cluster = 0 ∧ proc = 0 then none else some (cluster, proc)

/-- `PandadClassAdLogPlugin::getGlobalJobID`: `none` when it returns `false`. -/
def getGlobalJobID (q : Schedd) (cluster proc : Int) : Option String :=
  match q.ScheddGetJobAd cluster proc with
  | none => none
  | some classAd =>
    match classAd.globalJobId with
    | none => none
    | some globalJobID => if globalJobID = "" then none else some globalJobID

/-- `PandadClassAdLogPlugin::shouldIgnoreAttribute`. -/
def shouldIgnoreAttribute (q : Schedd) (attr : String) : Bool :=
  if CondorToPandaMap.contains q attr then false else true

/-- The string `fprintf` prints for `unquote( globalJobID )`. The characters of the string
stand for its bytes, which they are for an identifier in ASCII. -/
def unquoted (globalJobID : String) : String :=
  String.mk (unquote (some globalJobID.data)).result

/-- `PandadClassAdLogPlugin::addPandaJob`. -/
def addPandaJob (condorJobID globalJobID : String) (p : PandadClassAdLogPlugin) :
    PandadClassAdLogPlugin :=
  { p with pandad := p.pandad ++ [PandaEvent.ADD (unquoted globalJobID) condorJobID] }

/-- `PandadClassAdLogPlugin::updatePandaJob`; the value `none` is the NULL pointer, and
`fprintf` prints a NULL attribute as `(null)`. -/
def updatePandaJob (q : Schedd) (globalJobID attr : String) (value : Option String)
    (p : PandadClassAdLogPlugin) : PandadClassAdLogPlugin :=
  match value with
  | none => p
  | some v =>
    { p with pandad := p.pandad ++
        [PandaEvent.UPDATE (unquoted globalJobID)
          ((CondorToPandaMap.map q attr).getD "(null)") v] }

/-- `PandadClassAdLogPlugin::removePandaJob`. -/
def removePandaJob (globalJobID : String) (p : PandadClassAdLogPlugin) :
    PandadClassAdLogPlugin :=
  { p with pandad := p.pandad ++ [PandaEvent.REMOVE (unquoted globalJobID)] }

/-- `PandadClassAdLogPlugin::newClassAd`. -/
def newClassAd (q : Schedd) (key : String) (p : PandadClassAdLogPlugin) :
    PandadClassAdLogPlugin :=
  match shouldIgnoreJob q key with
  | none => p
  | some (cluster, _) =>
    if p.inTransaction = false then p else
      let p := if cluster < p.lowestNewCluster then { p with lowestNewCluster := cluster } else p
      if cluster > p.highestNewCluster then { p with highestNewCluster := cluster } else p

/-- `PandadClassAdLogPlugin::destroyClassAd`. -/
def destroyClassAd (q : Schedd) (key : String) (p : PandadClassAdLogPlugin) :
    PandadClassAdLogPlugin :=
  match shouldIgnoreJob q key with
  | none => p
  | some (cluster, proc) =>
    if proc = -1 then p
    else if p.inTransaction = true ∧ cluster > p.lowestNewCluster then p
    else
      match getGlobalJobID q cluster proc with
      | none => p
      | some globalJobID => removePandaJob globalJobID p

/-- `PandadClassAdLogPlugin::setAttribute`. -/
def setAttribute (q : Schedd) (key attr : String) (value : Option String)
    (p : PandadClassAdLogPlugin) : PandadClassAdLogPlugin :=
  match shouldIgnoreJob q key with
  | none => p
  | some (cluster, proc) =>
    if p.inTransaction = true ∧ cluster > p.lowestNewCluster then p
    else
      match getGlobalJobID q cluster proc with
      | none => p
      | some globalJobID =>
        if shouldIgnoreAttribute q attr then p
        else updatePandaJob q globalJobID attr value p

/-- `PandadClassAdLogPlugin::deleteAttribute`. -/
def deleteAttribute (q : Schedd) (key attr : String) (p : PandadClassAdLogPlugin) :
    PandadClassAdLogPlugin :=
  match shouldIgnoreJob q key with
  | none => p
  | some (cluster, proc) =>
    if p.inTransaction = true ∧ cluster > p.lowestNewCluster then p
    else
      match getGlobalJobID q cluster proc with
      | none => p
      | some globalJobID =>
        let p := updatePandaJob q globalJobID attr none p
        if attr = "GlobalJobId" then removePandaJob globalJobID p else p

/-- The two `while( ad->NextExpr( attribute, valueExpr ) )` loops of `endTransaction`, over
the attributes of one ad. -/
def updateLoop (q : Schedd) (globalJobID : String) (exprs : List (String × String))
    (p : PandadClassAdLogPlugin) : PandadClassAdLogPlugin :=
  exprs.foldl
    (fun p e =>
      if shouldIgnoreAttribute q e.1 then p else updatePandaJob q globalJobID e.1 (some e.2) p)
    p

/-- The loop `for( int proc = 0; ; ++proc )` of `endTransaction` from `proc` on; it ends at
the first proc without a job ad, and `none` means that `fuel` procs did not reach one. -/
def procLoop (q : Schedd) (cluster : Int) (clusterAd : Option ClassAd) :
    Nat → Int → PandadClassAdLogPlugin → Option PandadClassAdLogPlugin
  | 0, _, _ => none
  | fuel + 1, proc, p =>
    match q.ScheddGetJobAd cluster proc with
    | none => some p
    | some jobAd =>
      match jobAd.globalJobId with
      | none => procLoop q cluster clusterAd fuel (proc + 1) p
      | some globalJobID =>
        if globalJobID = "" then procLoop q cluster clusterAd fuel (proc + 1) p
        else
          let p := addPandaJob (q.ProcIdToStr cluster proc) globalJobID p
          let p :=
            match clusterAd with
            | some ad => updateLoop q globalJobID ad.exprs p
            | none => p
          let p := updateLoop q globalJobID jobAd.exprs p
          procLoop q cluster clusterAd fuel (proc + 1) p

/-- The clusters `endTransaction` scans: `lowestNewCluster` through `highestNewCluster`
inclusive. -/
def scannedClusters (p : PandadClassAdLogPlugin) : List Int :=
  (List.range (p.highestNewCluster - p.lowestNewCluster + 1).toNat).map
    fun k => p.lowestNewCluster + (k : Int)

/-- `PandadClassAdLogPlugin::endTransaction`, with `fuel` procs at most for each cluster. -/
def endTransaction (q : Schedd) (fuel : Nat) (p : PandadClassAdLogPlugin) :
    Option PandadClassAdLogPlugin :=
  if p.inTransaction = false then some p
  else
    ((scannedClusters p).foldlM
      (fun p cluster => procLoop q cluster (q.ScheddGetJobAd cluster (-1)) fuel 0 p) p).map
      fun p => { p with inTransaction := false }

/-- A job queue with the one job `5.0`, whose ad holds its global job id and its owner. -/
def exampleSchedd : Schedd where
  sscanf := fun key => if key = "5.0" then some (5, 0) else none
  ScheddGetJobAd := fun cluster proc =>
    if cluster = 5 ∧ proc = 0 then
      some { globalJobId := some "\"submit#5.0#1400000000\"", exprs := [("Owner", "\"alice\"")] }
    else none
  BinaryLookup := fun table key => table.find? fun t => t.1 = key
  ProcIdToStr := fun cluster proc => if cluster = 5 ∧ proc = 0 then "5.0" else ""

/-- The plugin inside a transaction that has created the job `5.0`. -/
def exampleCreated : PandadClassAdLogPlugin :=
  newClassAd exampleSchedd "5.0" (beginTransaction pluginConstructed)

end Pandad

namespace Replication

/-- Whether the event is a command `HAD_IN_LEADER_STATE` whose sender address
`commandHandler` can read, so that the command is handled. -/
def Event.isInLeaderState : Event → Bool
  | .command .HAD_IN_LEADER_STATE stream => (codeString stream).isSome
  | _ => false

/-- Whether the event is a command by which HAD names the peer the leader,
`HAD_IN_LEADER_STATE` or `HAD_AFTER_ELECTION_STATE`, whose sender address `commandHandler`
can read, so that the command is handled. -/
def Event.isLeaderNotification : Event → Bool
  | .command .HAD_IN_LEADER_STATE stream => (codeString stream).isSome
  | .command .HAD_AFTER_ELECTION_STATE stream => (codeString stream).isSome
  | _ => false

/-- Time at which the last event of the kind `p` was delivered, `earlier` when the events
hold none. -/
def lastTime (p : Event → Bool) (earlier : Option Int) : List (Env × Event) → Option Int
  | [] => earlier
  | (env, e) :: rest => lastTime p (if p e = true then some env.now else earlier) rest

/-- The property of two peers at the instant `now`, of which `lastA` and `lastB` are the
times at which they received their last `HAD_IN_LEADER_STATE`: if both are
`REPLICATION_LEADER`, one of them received it more than its `HAD_ALIVE_TOLERANCE` ago. -/
def singleLeaderWriter (now : Int) (a b : RSM) (lastA lastB : Int) : Prop :=
  a.m_state = ReplicatorState.REPLICATION_LEADER →
  b.m_state = ReplicatorState.REPLICATION_LEADER →
    now - lastA > a.m_hadAliveTolerance ∨ now - lastB > b.m_hadAliveTolerance

instance (now : Int) (a b : RSM) (lastA lastB : Int) :
    Decidable (singleLeaderWriter now a b lastA lastB) := by
  unfold singleLeaderWriter
  infer_instance

/-- Events of a peer that receives no version after its start, becomes a backup when its
`versionRequesting` timer expires at the time 10, and is told by HAD at the time `now` that
HAD is the leader. -/
def exampleLeaderTrace (now : Int) : List (Env × Event) :=
  [(exampleEnv 10, Event.timer 1),
   (exampleEnv now, Event.command Command.HAD_IN_LEADER_STATE [Item.str "had"])]

/-- The peer after the events of `exampleLeaderTrace now`. -/
def exampleNotifiedLeader (now : Int) : RSM :=
  (exampleInitial.bind (run 0 (exampleLeaderTrace now))).getD
    (constructed Version.empty "Version" "State")

/-- Events of a peer that becomes a backup at the time 10 and that HAD tells at the time
`now`, with `HAD_AFTER_ELECTION_STATE`, that the election is over. -/
def exampleElectedTrace (now : Int) : List (Env × Event) :=
  [(exampleEnv 10, Event.timer 1),
   (exampleEnv now, Event.command Command.HAD_AFTER_ELECTION_STATE [Item.str "had"])]

/-- Leader with `HAD_ALIVE_TOLERANCE = 50` whose last message of HAD came at the time
`2^31 - 10`. -/
def exampleLateLeader : RSM :=
  { exampleMachine ReplicatorState.REPLICATION_LEADER (exampleVersion 3 9 "local") with
      m_lastHadAliveTime := 2147483638 }

/-- Leader with `MAX_TRANSFERER_LIFETIME = 60` that started an upload (pid 8) at the time
`2^31 - 10` and heard from HAD at the time `2^31 + 90`. -/
def exampleLateUploading : RSM :=
  { exampleMachine ReplicatorState.REPLICATION_LEADER (exampleVersion 3 9 "local") with
      m_lastHadAliveTime := 2147483738
      m_uploadTransfererMetadataList := [{ m_pid := 8, m_lastTimeCreated := 2147483638 }] }

/-- What an event does to a leader's record of HAD: when the machine is `REPLICATION_LEADER`
after the event, either the event is a command by which HAD names the peer the leader and
`m_lastHadAliveTime` is the time of the event, or it is no such command, the machine was a
leader before and `m_lastHadAliveTime` is unchanged. -/
def LeaderTime (env : Env) (e : Event) (s t : RSM) : Prop :=
  t.m_state = ReplicatorState.REPLICATION_LEADER →
    (e.isLeaderNotification = true ∧ t.m_lastHadAliveTime = env.now) ∨
    (e.isLeaderNotification = false ∧ s.m_state = ReplicatorState.REPLICATION_LEADER ∧
      t.m_lastHadAliveTime = s.m_lastHadAliveTime)

/-! ## Frame lemmas of the layer below the state machine -/

theorem toInt32_of_fits (x : Int) (h0 : -2 ^ 31 ≤ x) (h1 : x < 2 ^ 31) : toInt32 x = x := by
  unfold toInt32
  rw [Int.emod_eq_of_lt (by omega) (by omega)]
  omega

theorem emitted_of_append {s t : RSM} {es : List Effect} (h : t.effects = s.effects ++ es) :
    emitted s t = es := by
  simp [emitted, h]

@[simp] theorem synchronize_state (env : Env) (s : RSM) :
    (synchronize env s).2.m_state = s.m_state := by
  simp only [synchronize]; split_ifs <;> rfl

@[simp] theorem synchronize_versionsList (env : Env) (s : RSM) :
    (synchronize env s).2.m_versionsList = s.m_versionsList := by
  simp only [synchronize]; split_ifs <;> rfl

@[simp] theorem synchronize_downloadTransfererMetadata (env : Env) (s : RSM) :
    (synchronize env s).2.m_downloadTransfererMetadata = s.m_downloadTransfererMetadata := by
  simp only [synchronize]; split_ifs <;> rfl

@[simp] theorem synchronize_uploadTransfererMetadataList (env : Env) (s : RSM) :
    (synchronize env s).2.m_uploadTransfererMetadataList = s.m_uploadTransfererMetadataList := by
  simp only [synchronize]; split_ifs <;> rfl

@[simp] theorem synchronize_replicationTimerId (env : Env) (s : RSM) :
    (synchronize env s).2.m_replicationTimerId = s.m_replicationTimerId := by
  simp only [synchronize]; split_ifs <;> rfl

@[simp] theorem synchronize_versionRequestingTimerId (env : Env) (s : RSM) :
    (synchronize env s).2.m_versionRequestingTimerId = s.m_versionRequestingTimerId := by
  simp only [synchronize]; split_ifs <;> rfl

@[simp] theorem synchronize_versionDownloadingTimerId (env : Env) (s : RSM) :
    (synchronize env s).2.m_versionDownloadingTimerId = s.m_versionDownloadingTimerId := by
  simp only [synchronize]; split_ifs <;> rfl

@[simp] theorem synchronize_replicationInterval (env : Env) (s : RSM) :
    (synchronize env s).2.m_replicationInterval = s.m_replicationInterval := by
  simp only [synchronize]; split_ifs <;> rfl

@[simp] theorem synchronize_hadAliveTolerance (env : Env) (s : RSM) :
    (synchronize env s).2.m_hadAliveTolerance = s.m_hadAliveTolerance := by
  simp only [synchronize]; split_ifs <;> rfl

@[simp] theorem synchronize_maxTransfererLifeTime (env : Env) (s : RSM) :
    (synchronize env s).2.m_maxTransfererLifeTime = s.m_maxTransfererLifeTime := by
  simp only [synchronize]; split_ifs <;> rfl

@[simp] theorem synchronize_newlyJoinedWaitingVersionInterval (env : Env) (s : RSM) :
    (synchronize env s).2.m_newlyJoinedWaitingVersionInterval = s.m_newlyJoinedWaitingVersionInterval := by
  simp only [synchronize]; split_ifs <;> rfl

@[simp] theorem synchronize_lastHadAliveTime (env : Env) (s : RSM) :
    (synchronize env s).2.m_lastHadAliveTime = s.m_lastHadAliveTime := by
  simp only [synchronize]; split_ifs <;> rfl

@[simp] theorem synchronize_versionFilePath (env : Env) (s : RSM) :
    (synchronize env s).2.m_versionFilePath = s.m_versionFilePath := by
  simp only [synchronize]; split_ifs <;> rfl

@[simp] theorem synchronize_stateFilePath (env : Env) (s : RSM) :
    (synchronize env s).2.m_stateFilePath = s.m_stateFilePath := by
  simp only [synchronize]; split_ifs <;> rfl

@[simp] theorem synchronize_timers (env : Env) (s : RSM) :
    (synchronize env s).2.timers = s.timers := by
  simp only [synchronize]; split_ifs <;> rfl

@[simp] theorem synchronize_nextTimerId (env : Env) (s : RSM) :
    (synchronize env s).2.nextTimerId = s.nextTimerId := by
  simp only [synchronize]; split_ifs <;> rfl

@[simp] theorem synchronize_effects (env : Env) (s : RSM) :
    (synchronize env s).2.effects = s.effects := by
  simp only [synchronize]; split_ifs <;> rfl

@[simp] theorem checkVersionSynchronization_state (env : Env) (s : RSM) :
    (checkVersionSynchronization env s).m_state = s.m_state := by
  simp only [checkVersionSynchronization, synchronize, broadcastVersion, RSM.emit]; split_ifs <;> rfl

@[simp] theorem checkVersionSynchronization_versionsList (env : Env) (s : RSM) :
    (checkVersionSynchronization env s).m_versionsList = s.m_versionsList := by
  simp only [checkVersionSynchronization, synchronize, broadcastVersion, RSM.emit]; split_ifs <;> rfl

@[simp] theorem checkVersionSynchronization_downloadTransfererMetadata (env : Env) (s : RSM) :
    (checkVersionSynchronization env s).m_downloadTransfererMetadata = s.m_downloadTransfererMetadata := by
  simp only [checkVersionSynchronization, synchronize, broadcastVersion, RSM.emit]; split_ifs <;> rfl

@[simp] theorem checkVersionSynchronization_uploadTransfererMetadataList (env : Env) (s : RSM) :
    (checkVersionSynchronization env s).m_uploadTransfererMetadataList = s.m_uploadTransfererMetadataList := by
  simp only [checkVersionSynchronization, synchronize, broadcastVersion, RSM.emit]; split_ifs <;> rfl

@[simp] theorem checkVersionSynchronization_replicationTimerId (env : Env) (s : RSM) :
    (checkVersionSynchronization env s).m_replicationTimerId = s.m_replicationTimerId := by
  simp only [checkVersionSynchronization, synchronize, broadcastVersion, RSM.emit]; split_ifs <;> rfl

@[simp] theorem checkVersionSynchronization_versionRequestingTimerId (env : Env) (s : RSM) :
    (checkVersionSynchronization env s).m_versionRequestingTimerId = s.m_versionRequestingTimerId := by
  simp only [checkVersionSynchronization, synchronize, broadcastVersion, RSM.emit]; split_ifs <;> rfl

@[simp] theorem checkVersionSynchronization_versionDownloadingTimerId (env : Env) (s : RSM) :
    (checkVersionSynchronization env s).m_versionDownloadingTimerId = s.m_versionDownloadingTimerId := by
  simp only [checkVersionSynchronization, synchronize, broadcastVersion, RSM.emit]; split_ifs <;> rfl

@[simp] theorem checkVersionSynchronization_replicationInterval (env : Env) (s : RSM) :
    (checkVersionSynchronization env s).m_replicationInterval = s.m_replicationInterval := by
  simp only [checkVersionSynchronization, synchronize, broadcastVersion, RSM.emit]; split_ifs <;> rfl

@[simp] theorem checkVersionSynchronization_hadAliveTolerance (env : Env) (s : RSM) :
    (checkVersionSynchronization env s).m_hadAliveTolerance = s.m_hadAliveTolerance := by
  simp only [checkVersionSynchronization, synchronize, broadcastVersion, RSM.emit]; split_ifs <;> rfl

@[simp] theorem checkVersionSynchronization_maxTransfererLifeTime (env : Env) (s : RSM) :
    (checkVersionSynchronization env s).m_maxTransfererLifeTime = s.m_maxTransfererLifeTime := by
  simp only [checkVersionSynchronization, synchronize, broadcastVersion, RSM.emit]; split_ifs <;> rfl

@[simp] theorem checkVersionSynchronization_newlyJoinedWaitingVersionInterval (env : Env) (s : RSM) :
    (checkVersionSynchronization env s).m_newlyJoinedWaitingVersionInterval = s.m_newlyJoinedWaitingVersionInterval := by
  simp only [checkVersionSynchronization, synchronize, broadcastVersion, RSM.emit]; split_ifs <;> rfl

@[simp] theorem checkVersionSynchronization_lastHadAliveTime (env : Env) (s : RSM) :
    (checkVersionSynchronization env s).m_lastHadAliveTime = s.m_lastHadAliveTime := by
  simp only [checkVersionSynchronization, synchronize, broadcastVersion, RSM.emit]; split_ifs <;> rfl

@[simp] theorem checkVersionSynchronization_versionFilePath (env : Env) (s : RSM) :
    (checkVersionSynchronization env s).m_versionFilePath = s.m_versionFilePath := by
  simp only [checkVersionSynchronization, synchronize, broadcastVersion, RSM.emit]; split_ifs <;> rfl

@[simp] theorem checkVersionSynchronization_stateFilePath (env : Env) (s : RSM) :
    (checkVersionSynchronization env s).m_stateFilePath = s.m_stateFilePath := by
  simp only [checkVersionSynchronization, synchronize, broadcastVersion, RSM.emit]; split_ifs <;> rfl

@[simp] theorem checkVersionSynchronization_timers (env : Env) (s : RSM) :
    (checkVersionSynchronization env s).timers = s.timers := by
  simp only [checkVersionSynchronization, synchronize, broadcastVersion, RSM.emit]; split_ifs <;> rfl

@[simp] theorem checkVersionSynchronization_nextTimerId (env : Env) (s : RSM) :
    (checkVersionSynchronization env s).nextTimerId = s.nextTimerId := by
  simp only [checkVersionSynchronization, synchronize, broadcastVersion, RSM.emit]; split_ifs <;> rfl

@[simp] theorem killStuckDownloadingTransferer_state (c : Int) (s : RSM) :
    (killStuckDownloadingTransferer c s).m_state = s.m_state := by
  simp only [killStuckDownloadingTransferer, RSM.emit]; split_ifs <;> rfl

@[simp] theorem killStuckDownloadingTransferer_myVersion (c : Int) (s : RSM) :
    (killStuckDownloadingTransferer c s).m_myVersion = s.m_myVersion := by
  simp only [killStuckDownloadingTransferer, RSM.emit]; split_ifs <;> rfl

@[simp] theorem killStuckDownloadingTransferer_versionsList (c : Int) (s : RSM) :
    (killStuckDownloadingTransferer c s).m_versionsList = s.m_versionsList := by
  simp only [killStuckDownloadingTransferer, RSM.emit]; split_ifs <;> rfl

@[simp] theorem killStuckDownloadingTransferer_uploadTransfererMetadataList (c : Int) (s : RSM) :
    (killStuckDownloadingTransferer c s).m_uploadTransfererMetadataList = s.m_uploadTransfererMetadataList := by
  simp only [killStuckDownloadingTransferer, RSM.emit]; split_ifs <;> rfl

@[simp] theorem killStuckDownloadingTransferer_replicationTimerId (c : Int) (s : RSM) :
    (killStuckDownloadingTransferer c s).m_replicationTimerId = s.m_replicationTimerId := by
  simp only [killStuckDownloadingTransferer, RSM.emit]; split_ifs <;> rfl

@[simp] theorem killStuckDownloadingTransferer_versionRequestingTimerId (c : Int) (s : RSM) :
    (killStuckDownloadingTransferer c s).m_versionRequestingTimerId = s.m_versionRequestingTimerId := by
  simp only [killStuckDownloadingTransferer, RSM.emit]; split_ifs <;> rfl

@[simp] theorem killStuckDownloadingTransferer_versionDownloadingTimerId (c : Int) (s : RSM) :
    (killStuckDownloadingTransferer c s).m_versionDownloadingTimerId = s.m_versionDownloadingTimerId := by
  simp only [killStuckDownloadingTransferer, RSM.emit]; split_ifs <;> rfl

@[simp] theorem killStuckDownloadingTransferer_replicationInterval (c : Int) (s : RSM) :
    (killStuckDownloadingTransferer c s).m_replicationInterval = s.m_replicationInterval := by
  simp only [killStuckDownloadingTransferer, RSM.emit]; split_ifs <;> rfl

@[simp] theorem killStuckDownloadingTransferer_hadAliveTolerance (c : Int) (s : RSM) :
    (killStuckDownloadingTransferer c s).m_hadAliveTolerance = s.m_hadAliveTolerance := by
  simp only [killStuckDownloadingTransferer, RSM.emit]; split_ifs <;> rfl

@[simp] theorem killStuckDownloadingTransferer_maxTransfererLifeTime (c : Int) (s : RSM) :
    (killStuckDownloadingTransferer c s).m_maxTransfererLifeTime = s.m_maxTransfererLifeTime := by
  simp only [killStuckDownloadingTransferer, RSM.emit]; split_ifs <;> rfl

@[simp] theorem killStuckDownloadingTransferer_newlyJoinedWaitingVersionInterval (c : Int) (s : RSM) :
    (killStuckDownloadingTransferer c s).m_newlyJoinedWaitingVersionInterval = s.m_newlyJoinedWaitingVersionInterval := by
  simp only [killStuckDownloadingTransferer, RSM.emit]; split_ifs <;> rfl

@[simp] theorem killStuckDownloadingTransferer_lastHadAliveTime (c : Int) (s : RSM) :
    (killStuckDownloadingTransferer c s).m_lastHadAliveTime = s.m_lastHadAliveTime := by
  simp only [killStuckDownloadingTransferer, RSM.emit]; split_ifs <;> rfl

@[simp] theorem killStuckDownloadingTransferer_versionFilePath (c : Int) (s : RSM) :
    (killStuckDownloadingTransferer c s).m_versionFilePath = s.m_versionFilePath := by
  simp only [killStuckDownloadingTransferer, RSM.emit]; split_ifs <;> rfl

@[simp] theorem killStuckDownloadingTransferer_stateFilePath (c : Int) (s : RSM) :
    (killStuckDownloadingTransferer c s).m_stateFilePath = s.m_stateFilePath := by
  simp only [killStuckDownloadingTransferer, RSM.emit]; split_ifs <;> rfl

@[simp] theorem killStuckDownloadingTransferer_timers (c : Int) (s : RSM) :
    (killStuckDownloadingTransferer c s).timers = s.timers := by
  simp only [killStuckDownloadingTransferer, RSM.emit]; split_ifs <;> rfl

@[simp] theorem killStuckDownloadingTransferer_nextTimerId (c : Int) (s : RSM) :
    (killStuckDownloadingTransferer c s).nextTimerId = s.nextTimerId := by
  simp only [killStuckDownloadingTransferer, RSM.emit]; split_ifs <;> rfl

@[simp] theorem killStuckUploadingTransferers_state (c : Int) (s : RSM) :
    (killStuckUploadingTransferers c s).m_state = s.m_state := by
  rfl

@[simp] theorem killStuckUploadingTransferers_myVersion (c : Int) (s : RSM) :
    (killStuckUploadingTransferers c s).m_myVersion = s.m_myVersion := by
  rfl

@[simp] theorem killStuckUploadingTransferers_versionsList (c : Int) (s : RSM) :
    (killStuckUploadingTransferers c s).m_versionsList = s.m_versionsList := by
  rfl

@[simp] theorem killStuckUploadingTransferers_downloadTransfererMetadata (c : Int) (s : RSM) :
    (killStuckUploadingTransferers c s).m_downloadTransfererMetadata = s.m_downloadTransfererMetadata := by
  rfl

@[simp] theorem killStuckUploadingTransferers_replicationTimerId (c : Int) (s : RSM) :
    (killStuckUploadingTransferers c s).m_replicationTimerId = s.m_replicationTimerId := by
  rfl

@[simp] theorem killStuckUploadingTransferers_versionRequestingTimerId (c : Int) (s : RSM) :
    (killStuckUploadingTransferers c s).m_versionRequestingTimerId = s.m_versionRequestingTimerId := by
  rfl

@[simp] theorem killStuckUploadingTransferers_versionDownloadingTimerId (c : Int) (s : RSM) :
    (killStuckUploadingTransferers c s).m_versionDownloadingTimerId = s.m_versionDownloadingTimerId := by
  rfl

@[simp] theorem killStuckUploadingTransferers_replicationInterval (c : Int) (s : RSM) :
    (killStuckUploadingTransferers c s).m_replicationInterval = s.m_replicationInterval := by
  rfl

@[simp] theorem killStuckUploadingTransferers_hadAliveTolerance (c : Int) (s : RSM) :
    (killStuckUploadingTransferers c s).m_hadAliveTolerance = s.m_hadAliveTolerance := by
  rfl

@[simp] theorem killStuckUploadingTransferers_maxTransfererLifeTime (c : Int) (s : RSM) :
    (killStuckUploadingTransferers c s).m_maxTransfererLifeTime = s.m_maxTransfererLifeTime := by
  rfl

@[simp] theorem killStuckUploadingTransferers_newlyJoinedWaitingVersionInterval (c : Int) (s : RSM) :
    (killStuckUploadingTransferers c s).m_newlyJoinedWaitingVersionInterval = s.m_newlyJoinedWaitingVersionInterval := by
  rfl

@[simp] theorem killStuckUploadingTransferers_lastHadAliveTime (c : Int) (s : RSM) :
    (killStuckUploadingTransferers c s).m_lastHadAliveTime = s.m_lastHadAliveTime := by
  rfl

@[simp] theorem killStuckUploadingTransferers_versionFilePath (c : Int) (s : RSM) :
    (killStuckUploadingTransferers c s).m_versionFilePath = s.m_versionFilePath := by
  rfl

@[simp] theorem killStuckUploadingTransferers_stateFilePath (c : Int) (s : RSM) :
    (killStuckUploadingTransferers c s).m_stateFilePath = s.m_stateFilePath := by
  rfl

@[simp] theorem killStuckUploadingTransferers_timers (c : Int) (s : RSM) :
    (killStuckUploadingTransferers c s).timers = s.timers := by
  rfl

@[simp] theorem killStuckUploadingTransferers_nextTimerId (c : Int) (s : RSM) :
    (killStuckUploadingTransferers c s).nextTimerId = s.nextTimerId := by
  rfl

@[simp] theorem download_state (env : Env) (a : String) (s : RSM) :
    (download env a s).m_state = s.m_state := by
  simp only [download, RSM.emit]; split_ifs <;> rfl

@[simp] theorem download_myVersion (env : Env) (a : String) (s : RSM) :
    (download env a s).m_myVersion = s.m_myVersion := by
  simp only [download, RSM.emit]; split_ifs <;> rfl

@[simp] theorem download_versionsList (env : Env) (a : String) (s : RSM) :
    (download env a s).m_versionsList = s.m_versionsList := by
  simp only [download, RSM.emit]; split_ifs <;> rfl

@[simp] theorem download_uploadTransfererMetadataList (env : Env) (a : String) (s : RSM) :
    (download env a s).m_uploadTransfererMetadataList = s.m_uploadTransfererMetadataList := by
  simp only [download, RSM.emit]; split_ifs <;> rfl

@[simp] theorem download_replicationTimerId (env : Env) (a : String) (s : RSM) :
    (download env a s).m_replicationTimerId = s.m_replicationTimerId := by
  simp only [download, RSM.emit]; split_ifs <;> rfl

@[simp] theorem download_versionRequestingTimerId (env : Env) (a : String) (s : RSM) :
    (download env a s).m_versionRequestingTimerId = s.m_versionRequestingTimerId := by
  simp only [download, RSM.emit]; split_ifs <;> rfl

@[simp] theorem download_versionDownloadingTimerId (env : Env) (a : String) (s : RSM) :
    (download env a s).m_versionDownloadingTimerId = s.m_versionDownloadingTimerId := by
  simp only [download, RSM.emit]; split_ifs <;> rfl

@[simp] theorem download_replicationInterval (env : Env) (a : String) (s : RSM) :
    (download env a s).m_replicationInterval = s.m_replicationInterval := by
  simp only [download, RSM.emit]; split_ifs <;> rfl

@[simp] theorem download_hadAliveTolerance (env : Env) (a : String) (s : RSM) :
    (download env a s).m_hadAliveTolerance = s.m_hadAliveTolerance := by
  simp only [download, RSM.emit]; split_ifs <;> rfl

@[simp] theorem download_maxTransfererLifeTime (env : Env) (a : String) (s : RSM) :
    (download env a s).m_maxTransfererLifeTime = s.m_maxTransfererLifeTime := by
  simp only [download, RSM.emit]; split_ifs <;> rfl

@[simp] theorem download_newlyJoinedWaitingVersionInterval (env : Env) (a : String) (s : RSM) :
    (download env a s).m_newlyJoinedWaitingVersionInterval = s.m_newlyJoinedWaitingVersionInterval := by
  simp only [download, RSM.emit]; split_ifs <;> rfl

@[simp] theorem download_lastHadAliveTime (env : Env) (a : String) (s : RSM) :
    (download env a s).m_lastHadAliveTime = s.m_lastHadAliveTime := by
  simp only [download, RSM.emit]; split_ifs <;> rfl

@[simp] theorem download_versionFilePath (env : Env) (a : String) (s : RSM) :
    (download env a s).m_versionFilePath = s.m_versionFilePath := by
  simp only [download, RSM.emit]; split_ifs <;> rfl

@[simp] theorem download_stateFilePath (env : Env) (a : String) (s : RSM) :
    (download env a s).m_stateFilePath = s.m_stateFilePath := by
  simp only [download, RSM.emit]; split_ifs <;> rfl

@[simp] theorem download_timers (env : Env) (a : String) (s : RSM) :
    (download env a s).timers = s.timers := by
  simp only [download, RSM.emit]; split_ifs <;> rfl

@[simp] theorem download_nextTimerId (env : Env) (a : String) (s : RSM) :
    (download env a s).nextTimerId = s.nextTimerId := by
  simp only [download, RSM.emit]; split_ifs <;> rfl

theorem killStuckDownloadingTransferer_effects (c : Int) (s : RSM) :
    (killStuckDownloadingTransferer c s).effects = s.effects ++
      (if s.m_downloadTransfererMetadata.isValid = true ∧
          c - s.m_downloadTransfererMetadata.m_lastTimeCreated > s.m_maxTransfererLifeTime then
        [Effect.sendSignalKill s.m_downloadTransfererMetadata.m_pid,
         Effect.safeUnlinkFile s.m_versionFilePath
           (temporaryExtension s.m_downloadTransfererMetadata.m_pid
             DOWNLOADING_TEMPORARY_FILES_EXTENSION),
         Effect.safeUnlinkFile s.m_stateFilePath
           (temporaryExtension s.m_downloadTransfererMetadata.m_pid
             DOWNLOADING_TEMPORARY_FILES_EXTENSION)]
      else []) := by
  simp only [killStuckDownloadingTransferer, RSM.emit]
  split_ifs <;> simp

theorem killStuckUploadingTransferers_effects (c : Int) (s : RSM) :
    (killStuckUploadingTransferers c s).effects = s.effects ++
      (killStuckUploadingLoop c s.m_maxTransfererLifeTime s.m_versionFilePath s.m_stateFilePath
        s.m_uploadTransfererMetadataList).1 := rfl

theorem checkVersionSynchronization_effects (env : Env) (s : RSM) :
    (checkVersionSynchronization env s).effects = s.effects ++
      (if env.fileChanged = true then
        [Effect.broadcastVersion Command.REPLICATION_LEADER_VERSION
          (checkVersionSynchronization env s).m_myVersion]
      else []) := by
  simp only [checkVersionSynchronization, synchronize, broadcastVersion, RSM.emit]
  split_ifs <;> simp_all

theorem download_effects (env : Env) (a : String) (s : RSM) :
    (download env a s).effects = s.effects ++ [Effect.download a] := by
  simp only [download, RSM.emit]
  split_ifs <;> rfl

/-- Effects of the loop over the uploading transferers are kill signals and file
removals only. -/
theorem killStuckUploadingLoop_effects (c maxLife : Int) (vp sp : String)
    (l : List ProcessMetadata) (e : Effect)
    (he : e ∈ (killStuckUploadingLoop c maxLife vp sp l).1) :
    (∃ pid, e = Effect.sendSignalKill pid) ∨ (∃ a b, e = Effect.safeUnlinkFile a b) := by
  induction l with
  | nil => simp [killStuckUploadingLoop] at he
  | cons p rest ih =>
    simp only [killStuckUploadingLoop] at he
    split at he
    · simp only [List.cons_append, List.nil_append, List.mem_cons] at he
      rcases he with he | he | he | he
      · exact Or.inl ⟨_, he⟩
      · exact Or.inr ⟨_, _, he⟩
      · exact Or.inr ⟨_, _, he⟩
      · exact ih he
    · exact ih he

/-! ## Selection of the replica in `BACKUP` -/

/-- C1: in `BACKUP` the handler returns, leaves its argument as it is, and its
answer is true exactly when the received version is not comparable with the
local one (the gids differ) or is strictly greater (same gid, greater logical
clock). -/
theorem replicaSelectionHandler_backup (s : RSM) (newVersion : Version)
    (h : s.m_state = ReplicatorState.BACKUP) :
    ∃ b, replicaSelectionHandler s newVersion = Outcome.ok (b, newVersion) ∧
      (newVersion.isComparable s.m_myVersion = false ↔ newVersion.gid ≠ s.m_myVersion.gid) ∧
      (b = true ↔
        (newVersion.gid ≠ s.m_myVersion.gid ∨
          (newVersion.gid = s.m_myVersion.gid ∧
            newVersion.logicalClock > s.m_myVersion.logicalClock))) := by
  refine ⟨!newVersion.isComparable (s.m_myVersion.setState newVersion) ||
      newVersion.gt (s.m_myVersion.setState newVersion),
    by simp [replicaSelectionHandler, h], ?_, ?_⟩
  · simp [Version.isComparable]
  · simp only [Version.isComparable, Version.gt, Version.setState, Bool.or_eq_true,
      Bool.not_eq_true', beq_eq_false_iff_ne, decide_eq_true_eq, ne_eq]
    constructor
    · rintro (h1 | h1)
      · exact Or.inl h1
      · by_cases hg : newVersion.gid = s.m_myVersion.gid
        · exact Or.inr ⟨hg, h1⟩
        · exact Or.inl hg
    · rintro (h1 | ⟨_, h1⟩)
      · exact Or.inl h1
      · exact Or.inr h1

/-- C1, examples: local `{gid=3,clock=999}` against peer `{gid=4,clock=1}` yields
true, and equal gid with equal clock yields false. -/
theorem replicaSelectionHandler_backup_witness :
    replicaSelectionHandler (exampleMachine ReplicatorState.BACKUP (exampleVersion 3 999 "local"))
        (exampleVersion 4 1 "peer") = Outcome.ok (true, exampleVersion 4 1 "peer") ∧
    replicaSelectionHandler (exampleMachine ReplicatorState.BACKUP (exampleVersion 3 999 "local"))
        (exampleVersion 3 999 "peer") = Outcome.ok (false, exampleVersion 3 999 "peer") := by
  constructor
  · obtain ⟨b, hb, _, hiff⟩ := replicaSelectionHandler_backup
      (exampleMachine ReplicatorState.BACKUP (exampleVersion 3 999 "local"))
      (exampleVersion 4 1 "peer") rfl
    have : b = true := hiff.2 (Or.inl (by decide))
    rw [hb, this]
  · obtain ⟨b, hb, _, hiff⟩ := replicaSelectionHandler_backup
      (exampleMachine ReplicatorState.BACKUP (exampleVersion 3 999 "local"))
      (exampleVersion 3 999 "peer") rfl
    have : b = false := by
      rcases Bool.eq_false_or_eq_true b with hb1 | hb1
      · rcases hiff.1 hb1 with h1 | ⟨_, h1⟩
        · exact absurd rfl h1
        · exact absurd h1 (by decide)
      · exact hb1
    rw [hb, this]

@[simp] theorem synchronize_fst (env : Env) (s : RSM) :
    (synchronize env s).1 = env.fileChanged := by
  simp only [synchronize]; split_ifs <;> simp_all

theorem synchronize_myVersion_gid (env : Env) (s : RSM) :
    (synchronize env s).2.m_myVersion.gid = s.m_myVersion.gid := by
  simp only [synchronize]; split_ifs <;> rfl

/-- Effects of the replication timer in `REPLICATION_LEADER`: kill signals and
file removals, then the broadcast of a changed version, then the broadcast of
the step-down. -/
theorem replicationTimer_leader_effects (env : Env) (s : RSM)
    (h : s.m_state = ReplicatorState.REPLICATION_LEADER) :
    ∃ ks v, (∀ e ∈ ks, (∃ pid, e = Effect.sendSignalKill pid) ∨
                (∃ a b, e = Effect.safeUnlinkFile a b)) ∧
      (replicationTimer env s).effects = s.effects ++ (ks ++
        ((if env.fileChanged = true then
            [Effect.broadcastVersion Command.REPLICATION_LEADER_VERSION v] else []) ++
         (if toInt32 env.now - s.m_lastHadAliveTime > s.m_hadAliveTolerance then
            [Effect.broadcastVersion Command.REPLICATION_GIVING_UP_VERSION v] else []))) := by
  refine ⟨(if s.m_downloadTransfererMetadata.isValid = true ∧
          toInt32 env.now - s.m_downloadTransfererMetadata.m_lastTimeCreated > s.m_maxTransfererLifeTime then
        [Effect.sendSignalKill s.m_downloadTransfererMetadata.m_pid,
         Effect.safeUnlinkFile s.m_versionFilePath
           (temporaryExtension s.m_downloadTransfererMetadata.m_pid
             DOWNLOADING_TEMPORARY_FILES_EXTENSION),
         Effect.safeUnlinkFile s.m_stateFilePath
           (temporaryExtension s.m_downloadTransfererMetadata.m_pid
             DOWNLOADING_TEMPORARY_FILES_EXTENSION)]
      else []) ++ (killStuckUploadingLoop (toInt32 env.now) s.m_maxTransfererLifeTime s.m_versionFilePath
        s.m_stateFilePath s.m_uploadTransfererMetadataList).1,
    (synchronize env (killStuckUploadingTransferers (toInt32 env.now) (killStuckDownloadingTransferer (toInt32 env.now)
      { s with timers := utilCancelTimer s.m_replicationTimerId s.timers ++
                 [{ id := s.nextTimerId, kind := TimerKind.replication,
                    period := s.m_replicationInterval }],
               m_replicationTimerId := s.nextTimerId,
               nextTimerId := s.nextTimerId + 1 }))).2.m_myVersion, ?_, ?_⟩
  · intro e he
    rcases List.mem_append.1 he with he | he
    · split_ifs at he
      · simp only [List.mem_cons, List.mem_singleton, List.not_mem_nil, or_false] at he
        rcases he with he | he | he
        · exact Or.inl ⟨_, he⟩
        · exact Or.inr ⟨_, _, he⟩
        · exact Or.inr ⟨_, _, he⟩
      · simp at he
    · exact killStuckUploadingLoop_effects _ _ _ _ _ _ he
  · simp only [replicationTimer, registerTimer, h, broadcastVersion, RSM.emit,
      killStuckDownloadingTransferer_state, killStuckUploadingTransferers_state,
      synchronize_fst, synchronize_effects, synchronize_lastHadAliveTime,
      synchronize_hadAliveTolerance]
    split_ifs <;>
      simp_all [killStuckUploadingTransferers_effects, killStuckDownloadingTransferer_effects]


/-- State after the replication timer in `REPLICATION_LEADER`. -/
theorem replicationTimer_leader_state (env : Env) (s : RSM)
    (h : s.m_state = ReplicatorState.REPLICATION_LEADER) :
    (replicationTimer env s).m_state =
      if toInt32 env.now - s.m_lastHadAliveTime > s.m_hadAliveTolerance then ReplicatorState.BACKUP
      else ReplicatorState.REPLICATION_LEADER := by
  simp [replicationTimer, h, registerTimer, broadcastVersion, RSM.emit]
  split_ifs <;> simp_all

/-- C3, at a failing input: after `reinitialize`, two further
`HAD_BEFORE_PASSIVE_STATE` commands, a reply of peer `B` and the expiry of the
first `versionRequesting` timer, the machine is in `VERSION_DOWNLOADING` with
one active download; the second `versionRequesting` timer, still armed, then
expires, and its handler calls `download` although
`downloadTransferersNumber( )` is 1. -/
theorem versionRequestingTimer_download_while_active :
    (exampleInitial.bind (run 0 doubleJoinTrace)).bind (fun s =>
      (step 0 (exampleEnv 11) (Event.timer 2) s).bind (fun t =>
        Outcome.ok (s.m_state, downloadTransferersNumber s, emitted s t))) =
    Outcome.ok (ReplicatorState.VERSION_DOWNLOADING, 1, [Effect.download "B"]) := by
  decide

/-! ## The leader's version received in `BACKUP` -/

/-- Value of `replicaSelectionHandler` in `BACKUP`. -/
theorem backupSelection_eq (s : RSM) (v : Version)
    (h : s.m_state = ReplicatorState.BACKUP) :
    replicaSelectionHandler s v =
      Outcome.ok (!v.isComparable (s.m_myVersion.setState v) || v.gt (s.m_myVersion.setState v),
        v) := by
  simp [replicaSelectionHandler, h]

theorem downloadTransferersNumber_checkVersionSynchronization (env : Env) (s : RSM) :
    downloadTransferersNumber (checkVersionSynchronization env s) = downloadTransferersNumber s := by
  simp [downloadTransferersNumber]

/-- C4: in `BACKUP`, on a message that decodes to the version `v`, the handler
returns and calls `download( v.sinfulString )` exactly when its call of
`replicaSelectionHandler( v )` (made after `checkVersionSynchronization`) is
true and no download transferer is active, and it calls `download` for no
other address; in the other three states the handler returns with the machine
unchanged, so that no download is started and the state, the local version and
the versions list stay as they are. -/
theorem onLeaderVersion_download (env : Env) (stream : WireStream) (s : RSM) (v : Version)
    (hv : decodeVersionAndState stream = some v) :
    (s.m_state = ReplicatorState.BACKUP →
      ∃ b t, replicaSelectionHandler (checkVersionSynchronization env s) v = Outcome.ok (b, v) ∧
        onLeaderVersion env stream s = Outcome.ok t ∧
        (Effect.download v.sinfulString ∈ emitted s t ↔
          (b = true ∧ downloadTransferersNumber s = 0)) ∧
        (∀ a, Effect.download a ∈ emitted s t → a = v.sinfulString) ∧
        t.m_state = ReplicatorState.BACKUP) ∧
    (s.m_state ≠ ReplicatorState.BACKUP →
      onLeaderVersion env stream s = Outcome.ok s ∧ emitted s s = []) := by
  constructor
  · intro h
    have h1 : (checkVersionSynchronization env s).m_state = ReplicatorState.BACKUP := by simp [h]
    have hsel := backupSelection_eq (checkVersionSynchronization env s) v h1
    have hon : onLeaderVersion env stream s =
        if downloadTransferersNumber s = 0 ∧
          (!v.isComparable ((checkVersionSynchronization env s).m_myVersion.setState v) ||
            v.gt ((checkVersionSynchronization env s).m_myVersion.setState v)) = true then
          Outcome.ok (download env v.sinfulString (checkVersionSynchronization env s))
        else Outcome.ok (checkVersionSynchronization env s) := by
      simp only [onLeaderVersion, h, ne_eq, not_true_eq_false, if_false, hv, hsel, Outcome.bind,
        downloadTransferersNumber_checkVersionSynchronization]
    by_cases hc : downloadTransferersNumber s = 0 ∧
        (!v.isComparable ((checkVersionSynchronization env s).m_myVersion.setState v) ||
          v.gt ((checkVersionSynchronization env s).m_myVersion.setState v)) = true
    · rw [if_pos hc] at hon
      have heff : (download env v.sinfulString (checkVersionSynchronization env s)).effects =
          s.effects ++ ((if env.fileChanged = true then
            [Effect.broadcastVersion Command.REPLICATION_LEADER_VERSION
              (checkVersionSynchronization env s).m_myVersion] else []) ++
            [Effect.download v.sinfulString]) := by
        rw [download_effects, checkVersionSynchronization_effects, List.append_assoc]
      refine ⟨_, _, hsel, hon, ?_, ?_, by simp [h]⟩
      · rw [emitted_of_append heff]
        simp [hc.1, hc.2]
      · intro a ha
        rw [emitted_of_append heff] at ha
        simp only [List.mem_append, List.mem_singleton, Effect.download.injEq] at ha
        rcases ha with ha | ha
        · split_ifs at ha <;> simp at ha
        · exact ha
    · rw [if_neg hc] at hon
      have heff := checkVersionSynchronization_effects env s
      refine ⟨_, _, hsel, hon, ?_, ?_, by simp [h]⟩
      · rw [emitted_of_append heff]
        constructor
        · intro ha
          split_ifs at ha <;> simp at ha
        · intro ha
          exact absurd ⟨ha.2, ha.1⟩ hc
      · intro a ha
        rw [emitted_of_append heff] at ha
        split_ifs at ha <;> simp at ha
  · intro h
    exact ⟨by simp [onLeaderVersion, h], by simp [emitted]⟩

/-- The payload of a version decodes to that version. -/
theorem decodeVersionAndState_payload (v : Version) :
    decodeVersionAndState (payload v) = some v := by
  simp [decodeVersionAndState, payload, Version.encode, Version.decode, codeInt,
    Version.setStateInt]

/-- C4, example: a backup with local version `{gid=3,clock=999}` and no active
download receives the leader's version `{gid=4,clock=1}` of `peer` and calls
`download( "peer" )`. -/
theorem onLeaderVersion_download_witness :
    ∃ t, onLeaderVersion (exampleEnv 5) (payload (exampleVersion 4 1 "peer"))
        (exampleMachine ReplicatorState.BACKUP (exampleVersion 3 999 "local")) = Outcome.ok t ∧
      Effect.download "peer" ∈
        emitted (exampleMachine ReplicatorState.BACKUP (exampleVersion 3 999 "local")) t := by
  obtain ⟨b, t, hsel, hon, hiff, _, _⟩ :=
    (onLeaderVersion_download (exampleEnv 5) (payload (exampleVersion 4 1 "peer"))
      (exampleMachine ReplicatorState.BACKUP (exampleVersion 3 999 "local"))
      (exampleVersion 4 1 "peer") (decodeVersionAndState_payload _)).1 rfl
  have hb : replicaSelectionHandler (checkVersionSynchronization (exampleEnv 5)
      (exampleMachine ReplicatorState.BACKUP (exampleVersion 3 999 "local")))
      (exampleVersion 4 1 "peer") = Outcome.ok (true, exampleVersion 4 1 "peer") := by decide
  rw [hb] at hsel
  have hbt : b = true := by
    injection hsel with hsel
    injection hsel with h1 _
    exact h1.symm
  exact ⟨t, hon, hiff.2 ⟨hbt, by decide⟩⟩

/-! ## Selection of the replica in `VERSION_DOWNLOADING` -/

/-- The loop of the source computes the best version of the spec. -/
theorem specBestVersion_cons (first : Version) (rest : List Version) :
    specBestVersion (first :: rest) = some (bestVersionLoop first rest) := by
  simp only [specBestVersion, Option.some.injEq]
  induction rest generalizing first with
  | nil => rfl
  | cons v rest ih =>
    simp only [List.foldl_cons, bestVersionLoop]
    by_cases hc : v.isComparable first = true ∧ v.gt first = true
    · rw [if_pos hc, ih]
      simp [hc.1, hc.2]
    · rw [if_neg hc, ih]
      have : (v.isComparable first && v.gt first) = false := by
        rcases Bool.eq_false_or_eq_true (v.isComparable first) with h1 | h1
        · rcases Bool.eq_false_or_eq_true (v.gt first) with h2 | h2
          · exact absurd ⟨h1, h2⟩ hc
          · simp [h2]
        · simp [h1]
      simp [this]

/-- Value of `replicaSelectionHandler` in `VERSION_DOWNLOADING` for a list that is
not empty. -/
theorem replicaSelectionHandler_downloading_cons (s : RSM) (newVersion first : Version)
    (rest : List Version) (h : s.m_state = ReplicatorState.VERSION_DOWNLOADING)
    (hl : s.m_versionsList = first :: rest) :
    replicaSelectionHandler s newVersion =
      if (bestVersionLoop first rest).isComparable s.m_myVersion = false ∨
          (bestVersionLoop first rest).gt s.m_myVersion = true then
        Outcome.ok (true, bestVersionLoop first rest)
      else Outcome.ok (false, newVersion) := by
  simp only [replicaSelectionHandler, h, hl, true_or, if_true, reduceCtorEq, if_false]
  simp only [Version.isComparable, Version.ge, Version.gt, Version.setState]
  by_cases hg : s.m_myVersion.gid = (bestVersionLoop first rest).gid
  · by_cases hc : (bestVersionLoop first rest).logicalClock > s.m_myVersion.logicalClock
    · simp [hg, hc]
    · simp [hg, hc]
  · have hg2 : ¬ (bestVersionLoop first rest).gid = s.m_myVersion.gid := fun h => hg h.symm
    simp [hg, hg2]

/-- Value of `replicaSelectionHandler` in `VERSION_DOWNLOADING` for an empty list. -/
theorem replicaSelectionHandler_downloading_nil (s : RSM) (newVersion : Version)
    (h : s.m_state = ReplicatorState.VERSION_DOWNLOADING) (hl : s.m_versionsList = []) :
    replicaSelectionHandler s newVersion = Outcome.ok (false, newVersion) := by
  simp [replicaSelectionHandler, h, hl]

/-- C5: in `VERSION_DOWNLOADING` the handler returns false and leaves its
argument unchanged when the versions list is empty; otherwise, with `best` the
best version in the words of the spec, it returns true and writes `best` into
its argument exactly when `best` is not comparable with the local version or
is strictly greater than it, and returns false leaving the argument unchanged
otherwise. -/
theorem replicaSelectionHandler_versionDownloading (s : RSM) (newVersion : Version)
    (h : s.m_state = ReplicatorState.VERSION_DOWNLOADING) :
    (s.m_versionsList = [] →
      replicaSelectionHandler s newVersion = Outcome.ok (false, newVersion)) ∧
    (∀ best, specBestVersion s.m_versionsList = some best →
      ((best.isComparable s.m_myVersion = false ∨
          (best.isComparable s.m_myVersion = true ∧ best.gt s.m_myVersion = true)) →
        replicaSelectionHandler s newVersion = Outcome.ok (true, best)) ∧
      (¬ (best.isComparable s.m_myVersion = false ∨
          (best.isComparable s.m_myVersion = true ∧ best.gt s.m_myVersion = true)) →
        replicaSelectionHandler s newVersion = Outcome.ok (false, newVersion))) := by
  refine ⟨replicaSelectionHandler_downloading_nil s newVersion h, ?_⟩
  intro best hbest
  match hl : s.m_versionsList with
  | [] => rw [hl] at hbest; cases hbest
  | first :: rest =>
    rw [hl, specBestVersion_cons] at hbest
    injection hbest with hbest
    rw [replicaSelectionHandler_downloading_cons s newVersion first rest h hl, hbest]
    constructor
    · intro hc
      rw [if_pos]
      rcases hc with hc | hc
      · exact Or.inl hc
      · exact Or.inr hc.2
    · intro hc
      rw [if_neg]
      rintro (h1 | h1)
      · exact hc (Or.inl h1)
      · rcases Bool.eq_false_or_eq_true (best.isComparable s.m_myVersion) with h2 | h2
        · exact hc (Or.inr ⟨h2, h1⟩)
        · exact hc (Or.inl h2)

/-- C5, example: with empty local files and the replies `{gid=7,clock=40}` of `A`
and `{gid=7,clock=42}` of `B`, the handler selects the version of `B`. -/
theorem replicaSelectionHandler_versionDownloading_witness :
    replicaSelectionHandler exampleDownloading Version.empty =
      Outcome.ok (true, exampleVersion 7 42 "B") :=
  ((replicaSelectionHandler_versionDownloading exampleDownloading Version.empty rfl).2
    (exampleVersion 7 42 "B") (by decide)).1 (Or.inl (by decide))

/-! ## The timers of a newly joined machine -/

/-- The selection reads the state, the versions list and the local version only. -/
theorem replicaSelectionHandler_congr (s t : RSM) (v : Version)
    (h1 : s.m_state = t.m_state) (h2 : s.m_versionsList = t.m_versionsList)
    (h3 : s.m_myVersion = t.m_myVersion) :
    replicaSelectionHandler s v = replicaSelectionHandler t v := by
  simp only [replicaSelectionHandler, h1, h2, h3]

/-- In `VERSION_DOWNLOADING` the selection returns. -/
theorem replicaSelectionHandler_downloading_ok (s : RSM) (v : Version)
    (h : s.m_state = ReplicatorState.VERSION_DOWNLOADING) :
    ∃ b best, replicaSelectionHandler s v = Outcome.ok (b, best) := by
  match hl : s.m_versionsList with
  | [] => exact ⟨_, _, replicaSelectionHandler_downloading_nil s v h hl⟩
  | first :: rest =>
    rw [replicaSelectionHandler_downloading_cons s v first rest h hl]
    split_ifs
    · exact ⟨_, _, rfl⟩
    · exact ⟨_, _, rfl⟩

@[simp] theorem versionDownloadingTimer_state (env : Env) (s : RSM) :
    (versionDownloadingTimer env s).m_state = ReplicatorState.BACKUP := rfl

@[simp] theorem versionDownloadingTimer_versionsList (env : Env) (s : RSM) :
    (versionDownloadingTimer env s).m_versionsList = [] := by
  simp [versionDownloadingTimer]

theorem versionDownloadingTimer_effects (env : Env) (s : RSM) :
    (versionDownloadingTimer env s).effects = s.effects ++
      (if env.fileChanged = true then
        [Effect.broadcastVersion Command.REPLICATION_LEADER_VERSION
          (versionDownloadingTimer env s).m_myVersion]
      else []) := by
  simp only [versionDownloadingTimer, checkVersionSynchronization_effects]

/-- What the `versionRequesting` timer does, in whatever state it fires. -/
theorem versionRequestingTimer_cases (env : Env) (s : RSM) :
    ∃ b best t,
      replicaSelectionHandler { s with m_state := ReplicatorState.VERSION_DOWNLOADING }
        Version.empty = Outcome.ok (b, best) ∧
      versionRequestingTimer env s = Outcome.ok t ∧
      (b = true →
        emitted s t = [Effect.download best.sinfulString] ∧
        (downloadTransferersNumber s = 0 → 0 < env.newPid →
          t.m_downloadTransfererMetadata = { m_pid := env.newPid, m_lastTimeCreated := env.now }) ∧
        { id := t.m_versionDownloadingTimerId, kind := TimerKind.versionDownloading,
          period := s.m_maxTransfererLifeTime } ∈ t.timers ∧
        t.m_state = ReplicatorState.VERSION_DOWNLOADING ∧
        t.m_versionsList = s.m_versionsList ∧ t.m_myVersion = s.m_myVersion) ∧
      (b = false →
        (∀ a, Effect.download a ∉ emitted s t) ∧
        t.m_state = ReplicatorState.BACKUP ∧ t.m_versionsList = []) ∧
      (s.m_versionsList = [] → b = false) := by
  obtain ⟨b, best, hsel⟩ := replicaSelectionHandler_downloading_ok
    { s with m_state := ReplicatorState.VERSION_DOWNLOADING } Version.empty rfl
  have hsel2 : replicaSelectionHandler
      { s with timers := utilCancelTimer s.m_versionRequestingTimerId s.timers,
               m_versionRequestingTimerId := cancelledId s.m_versionRequestingTimerId,
               m_state := ReplicatorState.VERSION_DOWNLOADING } Version.empty =
      Outcome.ok (b, best) := by
    rw [← hsel]
    exact replicaSelectionHandler_congr _ _ _ rfl rfl rfl
  have hnil : s.m_versionsList = [] → b = false := by
    intro hl
    rw [replicaSelectionHandler_downloading_nil
      { s with m_state := ReplicatorState.VERSION_DOWNLOADING } Version.empty rfl hl] at hsel
    injection hsel with hsel
    injection hsel with h1 _
    exact h1.symm
  cases b with
  | true =>
    refine ⟨true, best, ?t, hsel, ?_, ?_, ?_, hnil⟩
    case t =>
      exact { (registerTimer s.m_maxTransfererLifeTime TimerKind.versionDownloading
          (download env best.sinfulString
            { s with timers := utilCancelTimer s.m_versionRequestingTimerId s.timers,
                     m_versionRequestingTimerId := cancelledId s.m_versionRequestingTimerId,
                     m_state := ReplicatorState.VERSION_DOWNLOADING })).2 with
        m_versionDownloadingTimerId := s.nextTimerId }
    · simp only [versionRequestingTimer, hsel2, Outcome.bind, if_true]
      simp [registerTimer]
    · intro _
      refine ⟨?_, ?_, ?_, ?_, ?_, ?_⟩
      · apply emitted_of_append
        simp [registerTimer, download_effects]
      · intro h0 hpid
        have hv : s.m_downloadTransfererMetadata.isValid = false := by
          simp only [downloadTransferersNumber] at h0
          split_ifs at h0 with hv
          · simpa using hv
        simp [registerTimer, download, hv, hpid, RSM.emit]
      · simp [registerTimer]
      · simp [registerTimer]
      · simp [registerTimer]
      · simp [registerTimer]
    · intro hb
      exact absurd hb (by decide)
  | false =>
    refine ⟨false, best, versionDownloadingTimer env
        { s with timers := utilCancelTimer s.m_versionRequestingTimerId s.timers,
                 m_versionRequestingTimerId := cancelledId s.m_versionRequestingTimerId,
                 m_state := ReplicatorState.VERSION_DOWNLOADING }, hsel, ?_, ?_, ?_, hnil⟩
    · simp only [versionRequestingTimer, hsel2, Outcome.bind, if_false, Bool.false_eq_true]
    · intro hb
      exact absurd hb (by decide)
    · intro _
      refine ⟨?_, ?_, ?_⟩
      · intro a ha
        have hh := versionDownloadingTimer_effects env
          { s with timers := utilCancelTimer s.m_versionRequestingTimerId s.timers,
                   m_versionRequestingTimerId := cancelledId s.m_versionRequestingTimerId,
                   m_state := ReplicatorState.VERSION_DOWNLOADING }
        rw [emitted_of_append (s := s) hh] at ha
        split_ifs at ha <;> simp at ha
      · simp
      · simp

/-- C6: the `versionRequesting` timer fired in `VERSION_REQUESTING` makes the
selection in `VERSION_DOWNLOADING`; the selection returns, and if it is true
with `best`, the handler calls `download( best.sinfulString )` (which records
the new transferer when none is active and the process was created), arms the
`versionDownloading` timer with the period `maxTransfererLifeTime` and ends in
`VERSION_DOWNLOADING`; otherwise (in particular when no peer version was
received) it calls `download` for no address and ends in `BACKUP` with an
empty versions list. -/
theorem versionRequestingTimer_selection (env : Env) (s : RSM)
    (_h : s.m_state = ReplicatorState.VERSION_REQUESTING) :
    ∃ b best t,
      replicaSelectionHandler { s with m_state := ReplicatorState.VERSION_DOWNLOADING }
        Version.empty = Outcome.ok (b, best) ∧
      versionRequestingTimer env s = Outcome.ok t ∧
      (b = true →
        emitted s t = [Effect.download best.sinfulString] ∧
        (downloadTransferersNumber s = 0 → 0 < env.newPid →
          t.m_downloadTransfererMetadata = { m_pid := env.newPid, m_lastTimeCreated := env.now }) ∧
        { id := t.m_versionDownloadingTimerId, kind := TimerKind.versionDownloading,
          period := s.m_maxTransfererLifeTime } ∈ t.timers ∧
        t.m_state = ReplicatorState.VERSION_DOWNLOADING) ∧
      (b = false →
        (∀ a, Effect.download a ∉ emitted s t) ∧
        t.m_state = ReplicatorState.BACKUP ∧ t.m_versionsList = []) ∧
      (s.m_versionsList = [] → b = false) := by
  obtain ⟨b, best, t, h1, h2, h3, h4, h5⟩ := versionRequestingTimer_cases env s
  exact ⟨b, best, t, h1, h2,
    fun hb => ⟨(h3 hb).1, (h3 hb).2.1, (h3 hb).2.2.1, (h3 hb).2.2.2.1⟩, h4, h5⟩

/-- C6, example: with empty local files and the replies `{gid=7,clock=40}` of `A`
and `{gid=7,clock=42}` of `B`, the download is started from `B` and the
machine is in `VERSION_DOWNLOADING`. -/
theorem versionRequestingTimer_selection_witness :
    ∃ t, versionRequestingTimer (exampleEnv 10) exampleRequesting = Outcome.ok t ∧
      emitted exampleRequesting t = [Effect.download "B"] ∧
      t.m_state = ReplicatorState.VERSION_DOWNLOADING := by
  obtain ⟨b, best, t, hsel, hrun, htrue, _, _⟩ :=
    versionRequestingTimer_selection (exampleEnv 10) exampleRequesting rfl
  have hb : replicaSelectionHandler
      { exampleRequesting with m_state := ReplicatorState.VERSION_DOWNLOADING } Version.empty =
      Outcome.ok (true, exampleVersion 7 42 "B") := by decide
  rw [hb] at hsel
  injection hsel with hsel
  injection hsel with h1 h2
  obtain ⟨he, _, _, hs⟩ := htrue h1.symm
  rw [← h2] at he
  exact ⟨t, hrun, he, hs⟩

/-! ## Leaving `VERSION_DOWNLOADING` -/

theorem gidSelectionHandler_state (fuel : Nat) (env : Env) (s t : RSM)
    (h : gidSelectionHandler fuel env s = Outcome.ok t) :
    t.m_state = s.m_state ∧ t.m_versionsList = s.m_versionsList := by
  unfold gidSelectionHandler at h
  split_ifs at h
  · cases h; exact ⟨rfl, rfl⟩
  · split at h
    · cases h
    · cases h; exact ⟨rfl, rfl⟩

theorem becomeLeader_state (fuel : Nat) (env : Env) (s t : RSM)
    (h : becomeLeader fuel env s = Outcome.ok t) :
    t.m_state = ReplicatorState.REPLICATION_LEADER := by
  unfold becomeLeader at h
  cases hg : gidSelectionHandler fuel env { s with m_lastHadAliveTime := env.now } with
  | ok u => rw [hg] at h; simp only [Outcome.bind] at h; cases h; rfl
  | assertionFailed => rw [hg] at h; cases h
  | nullDereference => rw [hg] at h; cases h
  | outOfFuel => rw [hg] at h; cases h

/-- In `VERSION_DOWNLOADING` a command whose handler returns changes nothing. -/
theorem commandHandler_downloading (fuel : Nat) (env : Env) (c : Command) (stream : WireStream)
    (s t : RSM) (hs : s.m_state = ReplicatorState.VERSION_DOWNLOADING)
    (h : commandHandler fuel env c stream s = Outcome.ok t) : t = s := by
  unfold commandHandler at h
  cases hc : codeString stream with
  | none => rw [hc] at h; cases h; rfl
  | some p =>
    obtain ⟨a, rest⟩ := p
    rw [hc] at h
    cases c <;>
      simp [onLeaderVersion, onTransferFile, onSolicitVersion, onSolicitVersionReply,
        onNewlyJoinedVersion, onGivingUpVersion, beforePassiveStateHandler,
        afterElectionStateHandler, afterLeaderStateHandler, inLeaderStateHandler, hs] at h <;>
      exact h.symm

/-- No command brings the machine into `VERSION_DOWNLOADING`. -/
theorem commandHandler_not_downloading (fuel : Nat) (env : Env) (c : Command)
    (stream : WireStream) (s t : RSM) (hs : s.m_state ≠ ReplicatorState.VERSION_DOWNLOADING)
    (h : commandHandler fuel env c stream s = Outcome.ok t) :
    t.m_state ≠ ReplicatorState.VERSION_DOWNLOADING := by
  unfold commandHandler at h
  cases hc : codeString stream with
  | none => rw [hc] at h; cases h; exact hs
  | some p =>
    obtain ⟨a, rest⟩ := p
    rw [hc] at h
    cases c with
    | REPLICATION_LEADER_VERSION =>
      simp only [onLeaderVersion] at h
      split_ifs at h with h1
      · cases h; exact hs
      · cases hd : decodeVersionAndState rest with
        | none => rw [hd] at h; cases h
        | some v =>
          rw [hd] at h
          have hb : (checkVersionSynchronization env s).m_state = ReplicatorState.BACKUP := by
            simpa using not_not.1 h1
          simp only [backupSelection_eq _ _ hb, Outcome.bind] at h
          split_ifs at h <;> cases h <;> simp [not_not.1 h1]
    | REPLICATION_TRANSFER_FILE =>
      simp only [onTransferFile, Outcome.ok.injEq] at h
      subst h
      split_ifs
      · simp only [upload, RSM.emit]; split_ifs <;> exact hs
      · exact hs
    | REPLICATION_SOLICIT_VERSION =>
      simp only [onSolicitVersion, Outcome.ok.injEq] at h
      subst h
      split_ifs <;> exact hs
    | REPLICATION_SOLICIT_VERSION_REPLY =>
      simp only [onSolicitVersionReply, Outcome.ok.injEq] at h
      subst h
      split_ifs
      · split <;> exact hs
      · exact hs
    | REPLICATION_NEWLY_JOINED_VERSION =>
      simp only [onNewlyJoinedVersion, Outcome.ok.injEq] at h
      subst h; exact hs
    | REPLICATION_GIVING_UP_VERSION =>
      simp only [onGivingUpVersion] at h
      split_ifs at h
      · rw [(gidSelectionHandler_state _ _ _ _ h).1]; exact hs
      · cases h; exact hs
    | HAD_BEFORE_PASSIVE_STATE =>
      simp only [beforePassiveStateHandler] at h
      split_ifs at h with h1
      · cases h; simp [registerTimer, requestVersions, broadcastVersion, RSM.emit, h1]
    | HAD_AFTER_ELECTION_STATE =>
      simp only [afterElectionStateHandler] at h
      split_ifs at h
      · cases h; exact hs
      · rw [becomeLeader_state _ _ _ _ h]; decide
    | HAD_AFTER_LEADER_STATE =>
      simp only [afterLeaderStateHandler, Outcome.ok.injEq] at h
      subst h
      split_ifs
      · exact hs
      · exact hs
      · simp
    | HAD_IN_LEADER_STATE =>
      simp only [inLeaderStateHandler] at h
      split_ifs at h
      · cases h; exact hs
      · rw [becomeLeader_state _ _ _ _ h]; decide
      · cases h; exact hs

/-- The replication timer in `VERSION_DOWNLOADING` keeps the state, the versions
list and the local version. -/
theorem replicationTimer_downloading (env : Env) (s : RSM)
    (hs : s.m_state = ReplicatorState.VERSION_DOWNLOADING) :
    (replicationTimer env s).m_state = ReplicatorState.VERSION_DOWNLOADING ∧
    (replicationTimer env s).m_versionsList = s.m_versionsList ∧
    (replicationTimer env s).m_myVersion = s.m_myVersion := by
  simp [replicationTimer, registerTimer, hs]

/-- The replication timer does not bring the machine into `VERSION_DOWNLOADING`. -/
theorem replicationTimer_not_downloading (env : Env) (s : RSM)
    (hs : s.m_state ≠ ReplicatorState.VERSION_DOWNLOADING) :
    (replicationTimer env s).m_state ≠ ReplicatorState.VERSION_DOWNLOADING := by
  simp only [replicationTimer, registerTimer, killStuckDownloadingTransferer_state,
    killStuckUploadingTransferers_state, hs, if_false]
  split_ifs <;> simp_all [broadcastVersion, RSM.emit]

theorem abstractDownloadReplicaTransfererReaper_core (pid exitStatus : Int) (s : RSM) :
    (abstractDownloadReplicaTransfererReaper pid exitStatus s).2.m_state = s.m_state ∧
    (abstractDownloadReplicaTransfererReaper pid exitStatus s).2.m_versionsList =
      s.m_versionsList ∧
    (abstractDownloadReplicaTransfererReaper pid exitStatus s).2.m_myVersion = s.m_myVersion := by
  simp only [abstractDownloadReplicaTransfererReaper, RSM.emit]
  split_ifs <;> exact ⟨rfl, rfl, rfl⟩

theorem abstractDownloadReplicaTransfererReaper_fst (pid exitStatus : Int) (s : RSM) :
    (abstractDownloadReplicaTransfererReaper pid exitStatus s).1 =
      if exitStatus = 0 then TRANSFERER_TRUE else TRANSFERER_FALSE := by
  simp only [abstractDownloadReplicaTransfererReaper]
  split_ifs <;> rfl

/-- State after the download reaper: `BACKUP` with an empty versions list when
the supervisor reports success in `VERSION_DOWNLOADING`, the state, the versions
list and the local version of before otherwise. -/
theorem downloadReplicaTransfererReaper_cases (env : Env) (pid exitStatus : Int) (s : RSM) :
    ((abstractDownloadReplicaTransfererReaper pid exitStatus s).1 = TRANSFERER_TRUE ∧
        s.m_state = ReplicatorState.VERSION_DOWNLOADING →
      (downloadReplicaTransfererReaper env pid exitStatus s).2.m_state = ReplicatorState.BACKUP ∧
      (downloadReplicaTransfererReaper env pid exitStatus s).2.m_versionsList = []) ∧
    (¬ ((abstractDownloadReplicaTransfererReaper pid exitStatus s).1 = TRANSFERER_TRUE ∧
        s.m_state = ReplicatorState.VERSION_DOWNLOADING) →
      (downloadReplicaTransfererReaper env pid exitStatus s).2.m_state = s.m_state ∧
      (downloadReplicaTransfererReaper env pid exitStatus s).2.m_versionsList =
        s.m_versionsList ∧
      (downloadReplicaTransfererReaper env pid exitStatus s).2.m_myVersion = s.m_myVersion) ∧
    (downloadReplicaTransfererReaper env pid exitStatus s).1 =
      (abstractDownloadReplicaTransfererReaper pid exitStatus s).1 := by
  have hc := abstractDownloadReplicaTransfererReaper_core pid exitStatus s
  refine ⟨?_, ?_, ?_⟩
  · intro h
    have : (abstractDownloadReplicaTransfererReaper pid exitStatus s).1 = TRANSFERER_TRUE ∧
        (abstractDownloadReplicaTransfererReaper pid exitStatus s).2.m_state =
          ReplicatorState.VERSION_DOWNLOADING := ⟨h.1, hc.1.trans h.2⟩
    simp only [downloadReplicaTransfererReaper, if_pos this]
    simp
  · intro h
    have : ¬ ((abstractDownloadReplicaTransfererReaper pid exitStatus s).1 = TRANSFERER_TRUE ∧
        (abstractDownloadReplicaTransfererReaper pid exitStatus s).2.m_state =
          ReplicatorState.VERSION_DOWNLOADING) := fun h2 => h ⟨h2.1, hc.1.symm.trans h2.2⟩
    simp only [downloadReplicaTransfererReaper, if_neg this]
    exact hc
  · simp only [downloadReplicaTransfererReaper]
    split_ifs <;> rfl

theorem uploadReplicaTransfererReaper_core (pid exitStatus : Int) (s : RSM) :
    (uploadReplicaTransfererReaper pid exitStatus s).2.m_state = s.m_state ∧
    (uploadReplicaTransfererReaper pid exitStatus s).2.m_versionsList = s.m_versionsList ∧
    (uploadReplicaTransfererReaper pid exitStatus s).2.m_myVersion = s.m_myVersion :=
  ⟨rfl, rfl, rfl⟩

theorem selectionHolds_congr (s t : RSM) (h2 : t.m_versionsList = s.m_versionsList)
    (h3 : t.m_myVersion = s.m_myVersion) (h : selectionHolds s) : selectionHolds t := by
  obtain ⟨best, hb⟩ := h
  refine ⟨best, ?_⟩
  rw [← hb]
  exact replicaSelectionHandler_congr _ _ _ rfl h2 h3

theorem initialState_state (ri ml nj tol : Int) (v : Version) (vp sp : String) (s : RSM)
    (h : initialState ri ml nj tol v vp sp = Outcome.ok s) :
    s.m_state = ReplicatorState.VERSION_REQUESTING ∧ s.m_versionsList = [] := by
  simp only [initialState, beforePassiveStateHandler, registerTimer, constructed, if_true,
    Outcome.ok.injEq] at h
  subst h
  exact ⟨rfl, rfl⟩

/-- Expiry of a timer: nothing happens for an identifier that is not registered;
otherwise the timer is removed and its handler runs. -/
theorem step_timer (fuel : Nat) (env : Env) (id : Int) (s : RSM) :
    step fuel env (Event.timer id) s =
      match registeredTimerKind s id with
      | none => Outcome.ok s
      | some TimerKind.replication =>
          Outcome.ok (replicationTimer env
            { s with timers := s.timers.filter (fun u => u.id != id) })
      | some TimerKind.versionRequesting =>
          versionRequestingTimer env { s with timers := s.timers.filter (fun u => u.id != id) }
      | some TimerKind.versionDownloading =>
          Outcome.ok (versionDownloadingTimer env
            { s with timers := s.timers.filter (fun u => u.id != id) }) := by
  simp only [step, registeredTimerKind]
  cases hf : s.timers.find? (fun t => t.id == id) with
  | none => rfl
  | some tm =>
    simp only [Option.map_some']
    cases hk : tm.kind <;> rfl

/-- In every reachable state in `VERSION_DOWNLOADING` the selection that the
`versionRequesting` timer would make is true. -/
theorem reachable_downloading_selection (s : RSM) (hr : Reachable s)
    (hs : s.m_state = ReplicatorState.VERSION_DOWNLOADING) : selectionHolds s := by
  induction hr with
  | start ri ml nj tol v vp sp s h =>
    rw [(initialState_state _ _ _ _ _ _ _ _ h).1] at hs
    cases hs
  | next fuel env e s t _ hstep ih =>
    cases e with
    | command c stream =>
      simp only [step] at hstep
      by_cases h : s.m_state = ReplicatorState.VERSION_DOWNLOADING
      · rw [commandHandler_downloading _ _ _ _ _ _ h hstep]
        exact ih h
      · exact absurd hs (commandHandler_not_downloading _ _ _ _ _ _ h hstep)
    | timer id =>
      rw [step_timer] at hstep
      cases hk : registeredTimerKind s id with
      | none =>
        rw [hk] at hstep
        cases hstep
        exact ih hs
      | some k =>
        rw [hk] at hstep
        cases k with
        | replication =>
          simp only [Outcome.ok.injEq] at hstep
          subst hstep
          by_cases h : s.m_state = ReplicatorState.VERSION_DOWNLOADING
          · obtain ⟨_, h2, h3⟩ := replicationTimer_downloading env
              { s with timers := s.timers.filter (fun u => u.id != id) } h
            exact selectionHolds_congr s _ h2 h3 (ih h)
          · exact absurd hs (replicationTimer_not_downloading env
              { s with timers := s.timers.filter (fun u => u.id != id) } h)
        | versionRequesting =>
          simp only at hstep
          obtain ⟨b, best, u, hsel, hrun, htrue, hfalse, _⟩ := versionRequestingTimer_cases env
            { s with timers := s.timers.filter (fun u => u.id != id) }
          rw [hrun] at hstep
          cases hstep
          cases b with
          | true =>
            obtain ⟨_, _, _, _, h2, h3⟩ := htrue rfl
            refine ⟨best, ?_⟩
            rw [← hsel]
            exact replicaSelectionHandler_congr _ _ _ rfl h2 h3
          | false =>
            rw [(hfalse rfl).2.1] at hs
            cases hs
        | versionDownloading =>
          simp only [Outcome.ok.injEq] at hstep
          subst hstep
          cases hs
    | downloadReaper pid exitStatus =>
      simp only [step, Outcome.ok.injEq] at hstep
      subst hstep
      obtain ⟨h1, h2, _⟩ := downloadReplicaTransfererReaper_cases env pid exitStatus s
      by_cases hc : (abstractDownloadReplicaTransfererReaper pid exitStatus s).1 =
          TRANSFERER_TRUE ∧ s.m_state = ReplicatorState.VERSION_DOWNLOADING
      · rw [(h1 hc).1] at hs
        cases hs
      · obtain ⟨h3, h4, h5⟩ := h2 hc
        exact selectionHolds_congr s _ h4 h5 (ih (h3.symm.trans hs))
    | uploadReaper pid exitStatus =>
      simp only [step, Outcome.ok.injEq] at hstep
      subst hstep
      exact selectionHolds_congr s _ rfl rfl (ih hs)

/-- A run of events from a reachable state ends in a reachable state. -/
theorem reachable_run (fuel : Nat) (events : List (Env × Event)) (s t : RSM)
    (hr : Reachable s) (h : run fuel events s = Outcome.ok t) : Reachable t := by
  induction events generalizing s with
  | nil => simp only [run, Outcome.ok.injEq] at h; subst h; exact hr
  | cons p rest ih =>
    obtain ⟨env, e⟩ := p
    simp only [run] at h
    cases hstep : step fuel env e s with
    | ok u =>
      rw [hstep] at h
      exact ih u (Reachable.next fuel env e s u hr hstep) h
    | assertionFailed => rw [hstep] at h; cases h
    | nullDereference => rw [hstep] at h; cases h
    | outOfFuel => rw [hstep] at h; cases h

theorem exampleReachedDownloading_reachable : Reachable exampleReachedDownloading := by
  have h0 : exampleInitial = Outcome.ok (exampleInitial.getD
      (constructed Version.empty "Version" "State")) := by decide
  refine reachable_run 0
    [(exampleEnv 3, Event.command Command.REPLICATION_SOLICIT_VERSION_REPLY
        (message "B" (exampleVersion 7 42 "B"))),
     (exampleEnv 10, Event.timer 1)]
    (exampleInitial.getD (constructed Version.empty "Version" "State")) _
    (Reachable.start _ _ _ _ _ _ _ _ h0) ?_
  decide

/-- C7: from a reachable state in `VERSION_DOWNLOADING`, an event whose handler
returns leads to `BACKUP` with the versions list cleared when it is the expiry
of a `versionDownloading` timer or a download reaper call in which the
supervisor reports success, and leaves the machine in `VERSION_DOWNLOADING`
otherwise; the `versionDownloading` timer always ends in `BACKUP` with an empty
list; a failure reported to the download reaper in `VERSION_DOWNLOADING`, and
any report in `BACKUP`, leave the state unchanged; the reaper returns the value
of the supervisor's reaper. -/
theorem leaves_versionDownloading (s : RSM) (hr : Reachable s)
    (hs : s.m_state = ReplicatorState.VERSION_DOWNLOADING) (fuel : Nat) (env : Env) (e : Event)
    (t : RSM) (hstep : step fuel env e s = Outcome.ok t) :
    (((∃ id, e = Event.timer id ∧
          registeredTimerKind s id = some TimerKind.versionDownloading) ∨
        (∃ pid exitStatus, e = Event.downloadReaper pid exitStatus ∧
          (abstractDownloadReplicaTransfererReaper pid exitStatus s).1 = TRANSFERER_TRUE)) →
      t.m_state = ReplicatorState.BACKUP ∧ t.m_versionsList = []) ∧
    (¬ ((∃ id, e = Event.timer id ∧
          registeredTimerKind s id = some TimerKind.versionDownloading) ∨
        (∃ pid exitStatus, e = Event.downloadReaper pid exitStatus ∧
          (abstractDownloadReplicaTransfererReaper pid exitStatus s).1 = TRANSFERER_TRUE)) →
      t.m_state = ReplicatorState.VERSION_DOWNLOADING) ∧
    (∀ (env2 : Env) (u : RSM),
      (versionDownloadingTimer env2 u).m_state = ReplicatorState.BACKUP ∧
      (versionDownloadingTimer env2 u).m_versionsList = []) ∧
    (∀ (env2 : Env) (pid exitStatus : Int) (u : RSM),
      u.m_state = ReplicatorState.VERSION_DOWNLOADING →
      (abstractDownloadReplicaTransfererReaper pid exitStatus u).1 ≠ TRANSFERER_TRUE →
      (downloadReplicaTransfererReaper env2 pid exitStatus u).2.m_state =
        ReplicatorState.VERSION_DOWNLOADING) ∧
    (∀ (env2 : Env) (pid exitStatus : Int) (u : RSM),
      u.m_state = ReplicatorState.BACKUP →
      (downloadReplicaTransfererReaper env2 pid exitStatus u).2.m_state =
        ReplicatorState.BACKUP) ∧
    (∀ (env2 : Env) (pid exitStatus : Int) (u : RSM),
      (downloadReplicaTransfererReaper env2 pid exitStatus u).1 =
        (abstractDownloadReplicaTransfererReaper pid exitStatus u).1) := by
  refine ⟨?_, ?_, fun env2 u => ⟨rfl, versionDownloadingTimer_versionsList env2 u⟩, ?_, ?_,
    fun env2 pid exitStatus u => (downloadReplicaTransfererReaper_cases env2 pid exitStatus u).2.2⟩
  · rintro (⟨id, rfl, hk⟩ | ⟨pid, exitStatus, rfl, hok⟩)
    · rw [step_timer, hk] at hstep
      simp only [Outcome.ok.injEq] at hstep
      subst hstep
      exact ⟨rfl, versionDownloadingTimer_versionsList _ _⟩
    · simp only [step, Outcome.ok.injEq] at hstep
      subst hstep
      exact (downloadReplicaTransfererReaper_cases env pid exitStatus s).1 ⟨hok, hs⟩
  · intro hno
    cases e with
    | command c stream =>
      simp only [step] at hstep
      rw [commandHandler_downloading _ _ _ _ _ _ hs hstep]
      exact hs
    | timer id =>
      rw [step_timer] at hstep
      cases hk : registeredTimerKind s id with
      | none =>
        rw [hk] at hstep
        cases hstep
        exact hs
      | some k =>
        rw [hk] at hstep
        cases k with
        | replication =>
          simp only [Outcome.ok.injEq] at hstep
          subst hstep
          exact (replicationTimer_downloading env
            { s with timers := s.timers.filter (fun u => u.id != id) } hs).1
        | versionRequesting =>
          simp only at hstep
          obtain ⟨b, best, u, hsel, hrun, htrue, _, _⟩ := versionRequestingTimer_cases env
            { s with timers := s.timers.filter (fun u => u.id != id) }
          obtain ⟨best2, hb2⟩ := reachable_downloading_selection s hr hs
          have hsel2 : replicaSelectionHandler
              { s with m_state := ReplicatorState.VERSION_DOWNLOADING } Version.empty =
              Outcome.ok (b, best) := by
            rw [← hsel]
            exact replicaSelectionHandler_congr _ _ _ rfl rfl rfl
          rw [hb2] at hsel2
          injection hsel2 with hsel2
          injection hsel2 with hbt _
          rw [hrun] at hstep
          cases hstep
          exact (htrue hbt.symm).2.2.2.1
        | versionDownloading => exact absurd (Or.inl ⟨id, rfl, hk⟩) hno
    | downloadReaper pid exitStatus =>
      simp only [step, Outcome.ok.injEq] at hstep
      subst hstep
      have hc : ¬ ((abstractDownloadReplicaTransfererReaper pid exitStatus s).1 =
          TRANSFERER_TRUE ∧ s.m_state = ReplicatorState.VERSION_DOWNLOADING) :=
        fun h => hno (Or.inr ⟨pid, exitStatus, rfl, h.1⟩)
      rw [((downloadReplicaTransfererReaper_cases env pid exitStatus s).2.1 hc).1]
      exact hs
    | uploadReaper pid exitStatus =>
      simp only [step, Outcome.ok.injEq] at hstep
      subst hstep
      exact hs
  · intro env2 pid exitStatus u hu hfail
    have hc : ¬ ((abstractDownloadReplicaTransfererReaper pid exitStatus u).1 =
        TRANSFERER_TRUE ∧ u.m_state = ReplicatorState.VERSION_DOWNLOADING) :=
      fun h => hfail h.1
    rw [((downloadReplicaTransfererReaper_cases env2 pid exitStatus u).2.1 hc).1]
    exact hu
  · intro env2 pid exitStatus u hu
    have hc : ¬ ((abstractDownloadReplicaTransfererReaper pid exitStatus u).1 =
        TRANSFERER_TRUE ∧ u.m_state = ReplicatorState.VERSION_DOWNLOADING) := by
      rw [hu]
      rintro ⟨_, h⟩
      cases h
    rw [((downloadReplicaTransfererReaper_cases env2 pid exitStatus u).2.1 hc).1]
    exact hu

/-- C7, example: the machine downloading from `B` enters `BACKUP` with an empty
versions list when its transferer (pid 77) exits with status 0. -/
theorem leaves_versionDownloading_witness :
    ((step 0 (exampleEnv 20) (Event.downloadReaper 77 0) exampleReachedDownloading).getD
        exampleReachedDownloading).m_state = ReplicatorState.BACKUP ∧
    ((step 0 (exampleEnv 20) (Event.downloadReaper 77 0) exampleReachedDownloading).getD
        exampleReachedDownloading).m_versionsList = [] :=
  (leaves_versionDownloading exampleReachedDownloading exampleReachedDownloading_reachable
    (by decide) 0 (exampleEnv 20) (Event.downloadReaper 77 0) _ (by decide)).1
    (Or.inr ⟨77, 0, rfl, by decide⟩)

/-! ## Transferers that are stuck -/

theorem killStuckUploadingLoop_kept (c maxLife : Int) (vp sp : String)
    (l : List ProcessMetadata) :
    (killStuckUploadingLoop c maxLife vp sp l).2 = l.filter (fun p => !isOverdue c maxLife p) := by
  induction l with
  | nil => rfl
  | cons p rest ih =>
    simp only [killStuckUploadingLoop, List.filter_cons]
    by_cases h : p.isValid = true ∧ c - p.m_lastTimeCreated > maxLife
    · rw [if_pos h]
      have : isOverdue c maxLife p = true := by simp [isOverdue, h.1, h.2]
      simp [this, ih]
    · rw [if_neg h]
      have : isOverdue c maxLife p = false := by
        simp only [isOverdue, Bool.and_eq_false_imp, decide_eq_false_iff_not]
        exact fun h1 h2 => h ⟨h1, h2⟩
      simp [this, ih]

theorem killStuckUploadingLoop_killed (c maxLife : Int) (vp sp : String)
    (l : List ProcessMetadata) :
    (killStuckUploadingLoop c maxLife vp sp l).1.filterMap Effect.killedPid =
      (l.filter (fun p => isOverdue c maxLife p)).map (fun p => p.m_pid) := by
  induction l with
  | nil => rfl
  | cons p rest ih =>
    simp only [killStuckUploadingLoop, List.filter_cons]
    by_cases h : p.isValid = true ∧ c - p.m_lastTimeCreated > maxLife
    · rw [if_pos h]
      have : isOverdue c maxLife p = true := by simp [isOverdue, h.1, h.2]
      simp [this, ih, Effect.killedPid]
    · rw [if_neg h]
      have : isOverdue c maxLife p = false := by
        simp only [isOverdue, Bool.and_eq_false_imp, decide_eq_false_iff_not]
        exact fun h1 h2 => h ⟨h1, h2⟩
      simp [this, ih]

/-- Effects of the replication timer in `BACKUP` and in `REPLICATION_LEADER`: the
effects of the two kill functions, then broadcasts only. -/
theorem replicationTimer_effects (env : Env) (s : RSM)
    (h : s.m_state = ReplicatorState.BACKUP ∨ s.m_state = ReplicatorState.REPLICATION_LEADER) :
    ∃ bs, (∀ e ∈ bs, ∃ c v, e = Effect.broadcastVersion c v) ∧
      (replicationTimer env s).effects = s.effects ++
        ((if s.m_downloadTransfererMetadata.isValid = true ∧
              toInt32 env.now - s.m_downloadTransfererMetadata.m_lastTimeCreated >
                s.m_maxTransfererLifeTime then
            [Effect.sendSignalKill s.m_downloadTransfererMetadata.m_pid,
             Effect.safeUnlinkFile s.m_versionFilePath
               (temporaryExtension s.m_downloadTransfererMetadata.m_pid
                 DOWNLOADING_TEMPORARY_FILES_EXTENSION),
             Effect.safeUnlinkFile s.m_stateFilePath
               (temporaryExtension s.m_downloadTransfererMetadata.m_pid
                 DOWNLOADING_TEMPORARY_FILES_EXTENSION)]
          else []) ++
         ((killStuckUploadingLoop (toInt32 env.now) s.m_maxTransfererLifeTime s.m_versionFilePath
            s.m_stateFilePath s.m_uploadTransfererMetadataList).1 ++ bs)) := by
  rcases h with h | h
  · refine ⟨if env.fileChanged = true then
        [Effect.broadcastVersion Command.REPLICATION_LEADER_VERSION
          (replicationTimer env s).m_myVersion] else [], ?_, ?_⟩
    · intro e he
      split_ifs at he
      · exact ⟨_, _, List.mem_singleton.1 he⟩
      · simp at he
    · simp only [replicationTimer, registerTimer, h, killStuckDownloadingTransferer_state,
        killStuckUploadingTransferers_state, reduceCtorEq, if_false, if_true,
        checkVersionSynchronization_effects, killStuckUploadingTransferers_effects,
        killStuckDownloadingTransferer_effects,
        killStuckDownloadingTransferer_maxTransfererLifeTime,
        killStuckDownloadingTransferer_versionFilePath,
        killStuckDownloadingTransferer_stateFilePath,
        killStuckDownloadingTransferer_uploadTransfererMetadataList, List.append_assoc]
  · refine ⟨(if env.fileChanged = true then
        [Effect.broadcastVersion Command.REPLICATION_LEADER_VERSION
          (synchronize env (killStuckUploadingTransferers (toInt32 env.now)
            (killStuckDownloadingTransferer (toInt32 env.now)
              { s with timers := utilCancelTimer s.m_replicationTimerId s.timers ++
                         [{ id := s.nextTimerId, kind := TimerKind.replication,
                            period := s.m_replicationInterval }],
                       m_replicationTimerId := s.nextTimerId,
                       nextTimerId := s.nextTimerId + 1 }))).2.m_myVersion] else []) ++
        (if toInt32 env.now - s.m_lastHadAliveTime > s.m_hadAliveTolerance then
          [Effect.broadcastVersion Command.REPLICATION_GIVING_UP_VERSION
            (synchronize env (killStuckUploadingTransferers (toInt32 env.now)
              (killStuckDownloadingTransferer (toInt32 env.now)
                { s with timers := utilCancelTimer s.m_replicationTimerId s.timers ++
                           [{ id := s.nextTimerId, kind := TimerKind.replication,
                              period := s.m_replicationInterval }],
                         m_replicationTimerId := s.nextTimerId,
                         nextTimerId := s.nextTimerId + 1 }))).2.m_myVersion] else []), ?_, ?_⟩
    · intro e he
      rcases List.mem_append.1 he with he | he
      · split_ifs at he
        · exact ⟨_, _, List.mem_singleton.1 he⟩
        · simp at he
      · split_ifs at he
        · exact ⟨_, _, List.mem_singleton.1 he⟩
        · simp at he
    · simp only [replicationTimer, registerTimer, h, broadcastVersion, RSM.emit,
        killStuckDownloadingTransferer_state, killStuckUploadingTransferers_state,
        synchronize_fst, synchronize_effects, synchronize_lastHadAliveTime,
        synchronize_hadAliveTolerance]
      split_ifs <;>
        simp_all [killStuckUploadingTransferers_effects, killStuckDownloadingTransferer_effects]


theorem isOverdue_iff (c maxLife : Int) (p : ProcessMetadata) :
    isOverdue c maxLife p = true ↔ (p.isValid = true ∧ c - p.m_lastTimeCreated > maxLife) := by
  simp [isOverdue]

theorem killStuckDownloadingTransferer_record (c : Int) (s : RSM) :
    (killStuckDownloadingTransferer c s).m_downloadTransfererMetadata =
      if isOverdue c s.m_maxTransfererLifeTime s.m_downloadTransfererMetadata = true then
        ProcessMetadata.cleared
      else s.m_downloadTransfererMetadata := by
  simp only [killStuckDownloadingTransferer, isOverdue_iff, RSM.emit]
  split_ifs <;> rfl

/-- Records of the transferers after the replication timer in `BACKUP` and in
`REPLICATION_LEADER`. -/
theorem replicationTimer_records (env : Env) (s : RSM)
    (h : s.m_state = ReplicatorState.BACKUP ∨ s.m_state = ReplicatorState.REPLICATION_LEADER) :
    (replicationTimer env s).m_downloadTransfererMetadata =
      (if isOverdue (toInt32 env.now) s.m_maxTransfererLifeTime s.m_downloadTransfererMetadata = true then
        ProcessMetadata.cleared
      else s.m_downloadTransfererMetadata) ∧
    (replicationTimer env s).m_uploadTransfererMetadataList =
      s.m_uploadTransfererMetadataList.filter
        (fun p => !isOverdue (toInt32 env.now) s.m_maxTransfererLifeTime p) := by
  have hup : ∀ u : RSM, (killStuckUploadingTransferers (toInt32 env.now) u).m_uploadTransfererMetadataList =
      u.m_uploadTransfererMetadataList.filter
        (fun p => !isOverdue (toInt32 env.now) u.m_maxTransfererLifeTime p) :=
    fun u => killStuckUploadingLoop_kept _ _ _ _ _
  rcases h with h | h
  · simp only [replicationTimer, registerTimer, h, killStuckDownloadingTransferer_state,
      killStuckUploadingTransferers_state, reduceCtorEq, if_false, if_true,
      checkVersionSynchronization_downloadTransfererMetadata,
      checkVersionSynchronization_uploadTransfererMetadataList,
      killStuckUploadingTransferers_downloadTransfererMetadata, hup,
      killStuckDownloadingTransferer_record,
      killStuckDownloadingTransferer_maxTransfererLifeTime,
      killStuckDownloadingTransferer_uploadTransfererMetadataList, and_self]
  · simp only [replicationTimer, registerTimer, h, killStuckDownloadingTransferer_state,
      killStuckUploadingTransferers_state, reduceCtorEq, if_false, broadcastVersion, RSM.emit,
      synchronize_fst]
    split_ifs <;>
      simp_all only [synchronize_downloadTransfererMetadata,
        synchronize_uploadTransfererMetadataList,
        killStuckUploadingTransferers_downloadTransfererMetadata,
        killStuckDownloadingTransferer_record,
        killStuckDownloadingTransferer_maxTransfererLifeTime,
        killStuckDownloadingTransferer_uploadTransfererMetadataList, and_self, if_true, if_false,
        Bool.false_eq_true, Bool.not_eq_true]

theorem areVersionsComparable_iff (myVersion : Version) (l : List Version) :
    areVersionsComparable myVersion l = true ↔ ∀ v ∈ l, v.gid = myVersion.gid := by
  induction l with
  | nil => simp [areVersionsComparable]
  | cons v rest ih =>
    simp only [areVersionsComparable, List.mem_cons, forall_eq_or_imp]
    by_cases h : myVersion.gid = v.gid
    · simp [Version.isComparable, h, ih]
    · have h2 : ¬ v.gid = myVersion.gid := fun h3 => h h3.symm
      simp [Version.isComparable, h, h2]

theorem selectGidLoop_first (rand : Nat → Int) (gid : Int) (k : Nat) :
    ∀ (fuel i : Nat), (∀ j, j < k → rand (i + j) = gid) → rand (i + k) ≠ gid → k < fuel →
      selectGidLoop rand gid fuel i = some (rand (i + k)) := by
  induction k with
  | zero =>
    intro fuel i _ hk hf
    obtain ⟨f, rfl⟩ : ∃ f, fuel = f + 1 := ⟨fuel - 1, by omega⟩
    simp only [selectGidLoop]
    rw [if_neg (by simpa using hk)]
    rfl
  | succ k ih =>
    intro fuel i hj hk hf
    obtain ⟨f, rfl⟩ : ∃ f, fuel = f + 1 := ⟨fuel - 1, by omega⟩
    simp only [selectGidLoop]
    rw [if_pos (by simpa using hj 0 (by omega))]
    have := ih f (i + 1) (fun j hjk => by
      have := hj (j + 1) (by omega)
      rwa [show i + 1 + j = i + (j + 1) by omega]) (by
      rwa [show i + 1 + k = i + (k + 1) by omega]) (by omega)
    rw [this, show i + 1 + k = i + (k + 1) by omega]

/-- C9: in `BACKUP` or `REPLICATION_LEADER`, if every version in the versions list
is comparable with the local version (in particular if the list is empty),
`gidSelectionHandler` returns with the whole machine unchanged, for every
stream of `rand( )` and for every number of allowed iterations of the loop,
zero included: the random source is not consulted. -/
theorem gidSelectionHandler_comparable (fuel : Nat) (env : Env) (s : RSM)
    (hs : s.m_state = ReplicatorState.BACKUP ∨ s.m_state = ReplicatorState.REPLICATION_LEADER)
    (hall : ∀ v ∈ s.m_versionsList, s.m_myVersion.isComparable v = true) :
    gidSelectionHandler fuel env s = Outcome.ok s := by
  have hc : areVersionsComparable s.m_myVersion s.m_versionsList = true := by
    rw [areVersionsComparable_iff]
    intro v hv
    have := hall v hv
    simp only [Version.isComparable, beq_iff_eq] at this
    exact this.symm
  simp only [gidSelectionHandler, hs, if_true, hc]

/-- C9, example: a leader with gid 5 whose only peer version has gid 5 keeps its
version without reading `rand( )`, and so does a leader without peer versions. -/
theorem gidSelectionHandler_comparable_witness :
    gidSelectionHandler 0 exampleRandEnv exampleAgreeingLeader =
      Outcome.ok exampleAgreeingLeader ∧
    gidSelectionHandler 0 exampleRandEnv
        (exampleMachine ReplicatorState.REPLICATION_LEADER (exampleVersion 5 9 "local")) =
      Outcome.ok (exampleMachine ReplicatorState.REPLICATION_LEADER (exampleVersion 5 9 "local")) :=
  ⟨gidSelectionHandler_comparable 0 exampleRandEnv exampleAgreeingLeader (Or.inr rfl)
    (by decide),
   gidSelectionHandler_comparable 0 exampleRandEnv
    (exampleMachine ReplicatorState.REPLICATION_LEADER (exampleVersion 5 9 "local")) (Or.inr rfl)
    (by decide)⟩

/-- C10: in `BACKUP` or `REPLICATION_LEADER`, if some version in the versions list
is not comparable with the local one and the stream of `rand( )` yields the
local gid `k` times and then another value, `gidSelectionHandler` returns as
soon as more than `k` iterations are allowed, with the local gid equal to that
value, hence different from the previous gid, and with the logical clock, the
address and the state of the local version, the versions list and the state
of the machine unchanged. -/
theorem gidSelectionHandler_fresh (fuel : Nat) (env : Env) (s : RSM) (k : Nat)
    (hs : s.m_state = ReplicatorState.BACKUP ∨ s.m_state = ReplicatorState.REPLICATION_LEADER)
    (hsome : ∃ v ∈ s.m_versionsList, s.m_myVersion.isComparable v = false)
    (hsame : ∀ j, j < k → env.rand j = s.m_myVersion.gid)
    (hfresh : env.rand k ≠ s.m_myVersion.gid) (hfuel : k < fuel) :
    ∃ t, gidSelectionHandler fuel env s = Outcome.ok t ∧
      t.m_myVersion.gid = env.rand k ∧
      t.m_myVersion.gid ≠ s.m_myVersion.gid ∧
      t.m_myVersion.logicalClock = s.m_myVersion.logicalClock ∧
      t.m_myVersion.sinfulString = s.m_myVersion.sinfulString ∧
      t.m_myVersion.state = s.m_myVersion.state ∧
      t.m_versionsList = s.m_versionsList ∧
      t.m_state = s.m_state ∧
      t = { s with m_myVersion := s.m_myVersion.setGid (env.rand k) } := by
  have hc : areVersionsComparable s.m_myVersion s.m_versionsList = false := by
    rcases Bool.eq_false_or_eq_true (areVersionsComparable s.m_myVersion s.m_versionsList)
      with h | h
    · rw [areVersionsComparable_iff] at h
      obtain ⟨v, hv, hn⟩ := hsome
      have := h v hv
      simp [Version.isComparable, this] at hn
    · exact h
  have hloop := selectGidLoop_first env.rand s.m_myVersion.gid k fuel 0
    (fun j hj => by simpa using hsame j hj) (by simpa using hfresh) hfuel
  simp only [Nat.zero_add] at hloop
  refine ⟨{ s with m_myVersion := s.m_myVersion.setGid (env.rand k) }, ?_, rfl, hfresh, rfl, rfl,
    rfl, rfl, rfl, rfl⟩
  simp only [gidSelectionHandler, hs, if_true, hc, hloop, Bool.false_eq_true, if_false]

/-- C10, example: a leader with gid 5 that holds a peer version with gid 9, with
`rand( )` yielding `5, 5, 11`, ends with gid 11. -/
theorem gidSelectionHandler_fresh_witness :
    ∃ t, gidSelectionHandler 3 exampleRandEnv exampleSplitLeader = Outcome.ok t ∧
      t.m_myVersion.gid = 11 := by
  obtain ⟨t, h1, h2, _⟩ := gidSelectionHandler_fresh 3 exampleRandEnv exampleSplitLeader 2
    (Or.inr rfl) ⟨exampleVersion 9 1 "peer", by decide, by decide⟩
    (by intro j hj; interval_cases j <;> decide) (by decide) (by decide)
  exact ⟨t, h1, h2⟩

/-! ## The notifications of HAD -/

/-- A command whose sender can be read is given to its handler. -/
theorem commandHandler_had (fuel : Nat) (env : Env) (sender : String) (rest : WireStream)
    (s : RSM) :
    commandHandler fuel env Command.HAD_IN_LEADER_STATE (Item.str sender :: rest) s =
      inLeaderStateHandler fuel env s ∧
    commandHandler fuel env Command.HAD_AFTER_ELECTION_STATE (Item.str sender :: rest) s =
      afterElectionStateHandler fuel env s ∧
    commandHandler fuel env Command.HAD_AFTER_LEADER_STATE (Item.str sender :: rest) s =
      Outcome.ok (afterLeaderStateHandler s) ∧
    commandHandler fuel env Command.HAD_BEFORE_PASSIVE_STATE (Item.str sender :: rest) s =
      beforePassiveStateHandler s :=
  ⟨rfl, rfl, rfl, rfl⟩

/-- What `gidSelectionHandler` returns once the loop is allowed enough iterations
to reach the first value of `rand( )` that differs from the local gid. -/
theorem gidSelectionHandler_eq (fuel : Nat) (env : Env) (s : RSM) (k : Nat)
    (hs : s.m_state = ReplicatorState.BACKUP ∨ s.m_state = ReplicatorState.REPLICATION_LEADER)
    (hsame : ∀ j, j < k → env.rand j = s.m_myVersion.gid)
    (hfresh : env.rand k ≠ s.m_myVersion.gid) (hfuel : k < fuel) :
    gidSelectionHandler fuel env s =
      Outcome.ok (if areVersionsComparable s.m_myVersion s.m_versionsList = true then s
        else { s with m_myVersion := s.m_myVersion.setGid (env.rand k) }) := by
  have hloop := selectGidLoop_first env.rand s.m_myVersion.gid k fuel 0
    (fun j hj => by simpa using hsame j hj) (by simpa using hfresh) hfuel
  simp only [Nat.zero_add] at hloop
  simp only [gidSelectionHandler, hs, if_true, hloop]
  split_ifs <;> rfl

/-- Whatever `gidSelectionHandler` returns differs from the machine before in the
gid of the local version at most. -/
theorem gidSelectionHandler_frame (fuel : Nat) (env : Env) (s t : RSM)
    (h : gidSelectionHandler fuel env s = Outcome.ok t) :
    ∃ g, t = { s with m_myVersion := s.m_myVersion.setGid g } := by
  unfold gidSelectionHandler at h
  split_ifs at h
  · cases h; exact ⟨s.m_myVersion.gid, rfl⟩
  · split at h
    · cases h
    · cases h; exact ⟨_, rfl⟩

/-- What `becomeLeader` returns, in terms of what `gidSelectionHandler` returns. -/
theorem becomeLeader_ok (fuel : Nat) (env : Env) (s t : RSM)
    (h : becomeLeader fuel env s = Outcome.ok t) :
    ∃ u, gidSelectionHandler fuel env { s with m_lastHadAliveTime := env.now } = Outcome.ok u ∧
      t = { u with m_state := ReplicatorState.REPLICATION_LEADER } ∧
      t.m_lastHadAliveTime = env.now ∧ t.m_versionsList = s.m_versionsList := by
  unfold becomeLeader at h
  cases hg : gidSelectionHandler fuel env { s with m_lastHadAliveTime := env.now } with
  | ok u =>
    rw [hg] at h
    simp only [Outcome.bind, Outcome.ok.injEq] at h
    subst h
    obtain ⟨g, rfl⟩ := gidSelectionHandler_frame _ _ _ _ hg
    exact ⟨_, rfl, rfl, rfl, rfl⟩
  | assertionFailed => rw [hg] at h; cases h
  | nullDereference => rw [hg] at h; cases h
  | outOfFuel => rw [hg] at h; cases h

/-- In `BACKUP`, `becomeLeader` returns once the loop is allowed enough iterations. -/
theorem becomeLeader_returns (fuel : Nat) (env : Env) (s : RSM) (k : Nat)
    (hs : s.m_state = ReplicatorState.BACKUP)
    (hsame : ∀ j, j < k → env.rand j = s.m_myVersion.gid)
    (hfresh : env.rand k ≠ s.m_myVersion.gid) (hfuel : k < fuel) :
    ∃ t, becomeLeader fuel env s = Outcome.ok t := by
  have h := gidSelectionHandler_eq fuel env { s with m_lastHadAliveTime := env.now } k
    (Or.inl hs) hsame hfresh hfuel
  simp only [becomeLeader, h, Outcome.bind]
  exact ⟨_, rfl⟩


theorem areVersionsComparable_false (myVersion : Version) (l : List Version)
    (h : ∃ v ∈ l, v.gid ≠ myVersion.gid) : areVersionsComparable myVersion l = false := by
  rcases Bool.eq_false_or_eq_true (areVersionsComparable myVersion l) with h1 | h1
  · rw [areVersionsComparable_iff] at h1
    obtain ⟨v, hv, hn⟩ := h
    exact absurd (h1 v hv) hn
  · exact h1

theorem inLeaderStateHandler_backup (fuel : Nat) (env : Env) (s : RSM)
    (hs : s.m_state = ReplicatorState.BACKUP) :
    inLeaderStateHandler fuel env s = becomeLeader fuel env s := by
  simp only [inLeaderStateHandler, hs, reduceCtorEq, or_self, if_false, if_true]

theorem afterElectionStateHandler_backup (fuel : Nat) (env : Env) (s : RSM)
    (hs : s.m_state = ReplicatorState.BACKUP) :
    afterElectionStateHandler fuel env s = becomeLeader fuel env s := by
  simp only [afterElectionStateHandler, hs, ne_eq, reduceCtorEq, not_false_eq_true, or_self,
    if_false, if_true]

/-- C11, counterexample: a leader with gid 5 that holds the version of a peer with
gid 9 handles `HAD_IN_LEADER_STATE`, with `rand( )` ready to yield 11 at its
third call: only the time of the last message of HAD is recorded, and the gid
is still 5. -/
theorem inLeaderStateHandler_leader_keeps_gid :
    exampleSplitLeader.m_state = ReplicatorState.REPLICATION_LEADER ∧
    exampleSplitLeader.m_myVersion.gid = 5 ∧
    exampleVersion 9 1 "peer" ∈ exampleSplitLeader.m_versionsList ∧
    commandHandler 3 exampleRandEnv Command.HAD_IN_LEADER_STATE [Item.str "had"]
        exampleSplitLeader =
      Outcome.ok { exampleSplitLeader with m_lastHadAliveTime := 0 } ∧
    ({ exampleSplitLeader with m_lastHadAliveTime := 0 } : RSM).m_myVersion.gid = 5 := by
  decide

/-- C11, amended: with a peer version of another gid in the versions list, the
handler of `HAD_IN_LEADER_STATE` in `REPLICATION_LEADER` only records the time
and keeps the gid; in `BACKUP` it runs `gidSelectionHandler` through
`becomeLeader` and, once the loop is allowed to reach the first value of
`rand( )` that differs from the gid, ends in `REPLICATION_LEADER` with that
value as the new gid. -/
theorem inLeaderStateHandler_gid (fuel : Nat) (env : Env) (s : RSM) (k : Nat)
    (hpeer : ∃ v ∈ s.m_versionsList, v.gid ≠ s.m_myVersion.gid)
    (hsame : ∀ j, j < k → env.rand j = s.m_myVersion.gid)
    (hfresh : env.rand k ≠ s.m_myVersion.gid) (hfuel : k < fuel) :
    (s.m_state = ReplicatorState.REPLICATION_LEADER →
      inLeaderStateHandler fuel env s = Outcome.ok { s with m_lastHadAliveTime := env.now } ∧
      ({ s with m_lastHadAliveTime := env.now } : RSM).m_myVersion.gid = s.m_myVersion.gid) ∧
    (s.m_state = ReplicatorState.BACKUP →
      ∃ t, inLeaderStateHandler fuel env s = Outcome.ok t ∧
        t.m_myVersion.gid = env.rand k ∧ t.m_myVersion.gid ≠ s.m_myVersion.gid ∧
        t.m_state = ReplicatorState.REPLICATION_LEADER) := by
  constructor
  · intro hs
    exact ⟨by simp [inLeaderStateHandler, hs], rfl⟩
  · intro hs
    have hc := areVersionsComparable_false s.m_myVersion s.m_versionsList hpeer
    have hg := gidSelectionHandler_eq fuel env { s with m_lastHadAliveTime := env.now } k
      (Or.inl hs) hsame hfresh hfuel
    simp only [hc, Bool.false_eq_true, if_false] at hg
    refine ⟨{ s with m_lastHadAliveTime := env.now,
                     m_myVersion := s.m_myVersion.setGid (env.rand k),
                     m_state := ReplicatorState.REPLICATION_LEADER }, ?_, rfl, hfresh, rfl⟩
    rw [inLeaderStateHandler_backup fuel env s hs]
    unfold becomeLeader
    rw [hg]
    rfl

/-- C11, example: with `rand( )` yielding `5, 5, 11`, the backup with gid 5 and a
peer of gid 9 becomes leader with gid 11, and the leader with gid 5 and a
peer of gid 9 keeps the gid 5. -/
theorem inLeaderStateHandler_gid_witness :
    (∃ t, inLeaderStateHandler 3 exampleRandEnv exampleSplitBackup = Outcome.ok t ∧
      t.m_myVersion.gid = 11 ∧ t.m_state = ReplicatorState.REPLICATION_LEADER) ∧
    inLeaderStateHandler 3 exampleRandEnv exampleSplitLeader =
      Outcome.ok { exampleSplitLeader with m_lastHadAliveTime := 0 } := by
  constructor
  · obtain ⟨t, h1, h2, _, h4⟩ := (inLeaderStateHandler_gid 3 exampleRandEnv exampleSplitBackup 2
      ⟨exampleVersion 9 1 "peer", by decide, by decide⟩
      (by intro j hj; interval_cases j <;> decide) (by decide) (by decide)).2 rfl
    exact ⟨t, h1, h2, h4⟩
  · exact ((inLeaderStateHandler_gid 3 exampleRandEnv exampleSplitLeader 2
      ⟨exampleVersion 9 1 "peer", by decide, by decide⟩
      (by intro j hj; interval_cases j <;> decide) (by decide) (by decide)).1 rfl).1

/-- With only comparable versions in the list `gidSelectionHandler` returns the
machine as it is. -/
theorem gidSelectionHandler_of_comparable (fuel : Nat) (env : Env) (s : RSM)
    (hs : s.m_state = ReplicatorState.BACKUP ∨ s.m_state = ReplicatorState.REPLICATION_LEADER)
    (hall : ∀ v ∈ s.m_versionsList, v.gid = s.m_myVersion.gid) :
    gidSelectionHandler fuel env s = Outcome.ok s := by
  have hc := (areVersionsComparable_iff s.m_myVersion s.m_versionsList).2 hall
  simp only [gidSelectionHandler, hs, if_true, hc]

/-- In `BACKUP`, `becomeLeader` returns when every version in the list is
comparable with the local one. -/
theorem becomeLeader_returns_of_comparable (fuel : Nat) (env : Env) (s : RSM)
    (hs : s.m_state = ReplicatorState.BACKUP)
    (hall : ∀ v ∈ s.m_versionsList, v.gid = s.m_myVersion.gid) :
    becomeLeader fuel env s =
      Outcome.ok { s with m_lastHadAliveTime := env.now,
                          m_state := ReplicatorState.REPLICATION_LEADER } := by
  have h := gidSelectionHandler_of_comparable fuel env { s with m_lastHadAliveTime := env.now }
    (Or.inl hs) hall
  unfold becomeLeader
  rw [h]
  rfl

/-- C12: the handler of `HAD_IN_LEADER_STATE` (to which the command is given once
the sender is read) changes nothing in `VERSION_REQUESTING` and
`VERSION_DOWNLOADING`; in `BACKUP` it is `becomeLeader`, which, when it
returns, ends in `REPLICATION_LEADER` with `lastHadAliveTime = now` and the
versions list of before, and which returns when all versions are comparable
with the local one or the loop is allowed to reach a value of `rand( )` that
differs from the gid; in `REPLICATION_LEADER` it sets `lastHadAliveTime` to
`now` and nothing else, so that the state, the local version with its gid and
the versions list are unchanged. -/
theorem inLeaderStateHandler_cases (fuel : Nat) (env : Env) (s : RSM) :
    (∀ sender rest, commandHandler fuel env Command.HAD_IN_LEADER_STATE
        (Item.str sender :: rest) s = inLeaderStateHandler fuel env s) ∧
    (s.m_state = ReplicatorState.VERSION_REQUESTING ∨
        s.m_state = ReplicatorState.VERSION_DOWNLOADING →
      inLeaderStateHandler fuel env s = Outcome.ok s) ∧
    (s.m_state = ReplicatorState.BACKUP →
      inLeaderStateHandler fuel env s = becomeLeader fuel env s ∧
      (∀ t, inLeaderStateHandler fuel env s = Outcome.ok t →
        t.m_state = ReplicatorState.REPLICATION_LEADER ∧ t.m_lastHadAliveTime = env.now ∧
        t.m_versionsList = s.m_versionsList) ∧
      ((∀ v ∈ s.m_versionsList, v.gid = s.m_myVersion.gid) →
        ∃ t, inLeaderStateHandler fuel env s = Outcome.ok t) ∧
      (∀ k, (∀ j, j < k → env.rand j = s.m_myVersion.gid) → env.rand k ≠ s.m_myVersion.gid →
        k < fuel → ∃ t, inLeaderStateHandler fuel env s = Outcome.ok t)) ∧
    (s.m_state = ReplicatorState.REPLICATION_LEADER →
      inLeaderStateHandler fuel env s = Outcome.ok { s with m_lastHadAliveTime := env.now } ∧
      ({ s with m_lastHadAliveTime := env.now } : RSM).m_state = s.m_state ∧
      ({ s with m_lastHadAliveTime := env.now } : RSM).m_myVersion = s.m_myVersion ∧
      ({ s with m_lastHadAliveTime := env.now } : RSM).m_versionsList = s.m_versionsList) := by
  refine ⟨fun _ _ => rfl, ?_, ?_, ?_⟩
  · intro hs
    simp only [inLeaderStateHandler, hs, if_true]
  · intro hs
    have hin := inLeaderStateHandler_backup fuel env s hs
    refine ⟨hin, ?_, ?_, ?_⟩
    · intro t ht
      rw [hin] at ht
      obtain ⟨u, _, rfl, h3, h4⟩ := becomeLeader_ok fuel env s t ht
      exact ⟨rfl, h3, h4⟩
    · intro hall
      rw [hin, becomeLeader_returns_of_comparable fuel env s hs hall]
      exact ⟨_, rfl⟩
    · intro k hsame hfresh hfuel
      rw [hin]
      exact becomeLeader_returns fuel env s k hs hsame hfresh hfuel
  · intro hs
    exact ⟨by simp [inLeaderStateHandler, hs], rfl, rfl, rfl⟩

/-- C12, example: a backup without peer versions becomes leader at time 1234, and a
leader gets the time 1234 recorded and nothing else. -/
theorem inLeaderStateHandler_cases_witness :
    inLeaderStateHandler 0 (exampleEnv 1234)
        (exampleMachine ReplicatorState.REPLICATION_LEADER (exampleVersion 5 9 "local")) =
      Outcome.ok { exampleMachine ReplicatorState.REPLICATION_LEADER
                     (exampleVersion 5 9 "local") with m_lastHadAliveTime := 1234 } ∧
    ∃ t, inLeaderStateHandler 0 (exampleEnv 1234)
        (exampleMachine ReplicatorState.BACKUP (exampleVersion 5 9 "local")) = Outcome.ok t ∧
      t.m_state = ReplicatorState.REPLICATION_LEADER ∧ t.m_lastHadAliveTime = 1234 := by
  constructor
  · exact ((inLeaderStateHandler_cases 0 (exampleEnv 1234)
      (exampleMachine ReplicatorState.REPLICATION_LEADER (exampleVersion 5 9 "local"))).2.2.2
      rfl).1
  · have h := (inLeaderStateHandler_cases 0 (exampleEnv 1234)
      (exampleMachine ReplicatorState.BACKUP (exampleVersion 5 9 "local"))).2.2.1 rfl
    obtain ⟨t, ht⟩ := h.2.2.1 (by decide)
    exact ⟨t, ht, (h.2.1 t ht).1, (h.2.1 t ht).2.1⟩

/-- C13: the handler of `HAD_AFTER_ELECTION_STATE` (to which the command is given
once the sender is read) returns the machine as it is in `VERSION_REQUESTING`
and `VERSION_DOWNLOADING`; in `BACKUP` it is `becomeLeader`: when it returns,
`gidSelectionHandler` has returned on the machine with `lastHadAliveTime` set
to `now`, and the result is what `gidSelectionHandler` returned with the state
`REPLICATION_LEADER`; it returns when all versions are comparable with the
local one or the loop is allowed to reach a value of `rand( )` that differs
from the gid. -/
theorem afterElectionStateHandler_cases (fuel : Nat) (env : Env) (s : RSM) :
    (∀ sender rest, commandHandler fuel env Command.HAD_AFTER_ELECTION_STATE
        (Item.str sender :: rest) s = afterElectionStateHandler fuel env s) ∧
    (s.m_state = ReplicatorState.VERSION_REQUESTING ∨
        s.m_state = ReplicatorState.VERSION_DOWNLOADING →
      afterElectionStateHandler fuel env s = Outcome.ok s) ∧
    (s.m_state = ReplicatorState.BACKUP →
      afterElectionStateHandler fuel env s = becomeLeader fuel env s ∧
      (∀ t, afterElectionStateHandler fuel env s = Outcome.ok t →
        ∃ u, gidSelectionHandler fuel env { s with m_lastHadAliveTime := env.now } =
            Outcome.ok u ∧
          t = { u with m_state := ReplicatorState.REPLICATION_LEADER } ∧
          t.m_state = ReplicatorState.REPLICATION_LEADER ∧ t.m_lastHadAliveTime = env.now) ∧
      ((∀ v ∈ s.m_versionsList, v.gid = s.m_myVersion.gid) →
        ∃ t, afterElectionStateHandler fuel env s = Outcome.ok t) ∧
      (∀ k, (∀ j, j < k → env.rand j = s.m_myVersion.gid) → env.rand k ≠ s.m_myVersion.gid →
        k < fuel → ∃ t, afterElectionStateHandler fuel env s = Outcome.ok t)) := by
  refine ⟨fun _ _ => rfl, ?_, ?_⟩
  · intro hs
    rcases hs with hs | hs <;> simp [afterElectionStateHandler, hs]
  · intro hs
    have hin := afterElectionStateHandler_backup fuel env s hs
    refine ⟨hin, ?_, ?_, ?_⟩
    · intro t ht
      rw [hin] at ht
      obtain ⟨u, hu, rfl, h3, _⟩ := becomeLeader_ok fuel env s t ht
      exact ⟨u, hu, rfl, rfl, h3⟩
    · intro hall
      rw [hin, becomeLeader_returns_of_comparable fuel env s hs hall]
      exact ⟨_, rfl⟩
    · intro k hsame hfresh hfuel
      rw [hin]
      exact becomeLeader_returns fuel env s k hs hsame hfresh hfuel

/-- C13, example: a backup without peer versions becomes leader at time 1234. -/
theorem afterElectionStateHandler_cases_witness :
    ∃ t, afterElectionStateHandler 0 (exampleEnv 1234)
        (exampleMachine ReplicatorState.BACKUP (exampleVersion 5 9 "local")) = Outcome.ok t ∧
      t.m_state = ReplicatorState.REPLICATION_LEADER ∧ t.m_lastHadAliveTime = 1234 := by
  have h := (afterElectionStateHandler_cases 0 (exampleEnv 1234)
    (exampleMachine ReplicatorState.BACKUP (exampleVersion 5 9 "local"))).2.2 rfl
  obtain ⟨t, ht⟩ := h.2.2.1 (by decide)
  obtain ⟨u, _, _, h3, h4⟩ := h.2.1 t ht
  exact ⟨t, ht, h3, h4⟩

/-- C14: the handler of `HAD_AFTER_LEADER_STATE` (to which the command is given
once the sender is read) broadcasts `REPLICATION_GIVING_UP_VERSION` with the
local version and moves to `BACKUP` in `REPLICATION_LEADER`; in the other
three states it returns the machine as it is, so that the state is unchanged
and nothing is broadcast. -/
theorem afterLeaderStateHandler_cases (s : RSM) :
    (∀ fuel env sender rest, commandHandler fuel env Command.HAD_AFTER_LEADER_STATE
        (Item.str sender :: rest) s = Outcome.ok (afterLeaderStateHandler s)) ∧
    (s.m_state = ReplicatorState.REPLICATION_LEADER →
      (afterLeaderStateHandler s).m_state = ReplicatorState.BACKUP ∧
      emitted s (afterLeaderStateHandler s) =
        [Effect.broadcastVersion Command.REPLICATION_GIVING_UP_VERSION s.m_myVersion]) ∧
    (s.m_state ≠ ReplicatorState.REPLICATION_LEADER →
      afterLeaderStateHandler s = s ∧ emitted s (afterLeaderStateHandler s) = []) := by
  refine ⟨fun _ _ _ _ => rfl, ?_, ?_⟩
  · intro hs
    constructor
    · simp [afterLeaderStateHandler, hs]
    · apply emitted_of_append
      simp [afterLeaderStateHandler, hs, broadcastVersion, RSM.emit]
  · intro hs
    have h : afterLeaderStateHandler s = s := by
      unfold afterLeaderStateHandler
      cases hst : s.m_state <;> simp_all
    rw [h]
    exact ⟨rfl, by simp [emitted]⟩

/-- C14, example: a leader steps down on `HAD_AFTER_LEADER_STATE`, a backup stays
as it is. -/
theorem afterLeaderStateHandler_cases_witness :
    (afterLeaderStateHandler
      (exampleMachine ReplicatorState.REPLICATION_LEADER (exampleVersion 5 9 "local"))).m_state =
      ReplicatorState.BACKUP ∧
    afterLeaderStateHandler (exampleMachine ReplicatorState.BACKUP (exampleVersion 5 9 "local")) =
      exampleMachine ReplicatorState.BACKUP (exampleVersion 5 9 "local") :=
  ⟨((afterLeaderStateHandler_cases
      (exampleMachine ReplicatorState.REPLICATION_LEADER (exampleVersion 5 9 "local"))).2.1
      rfl).1,
   ((afterLeaderStateHandler_cases
      (exampleMachine ReplicatorState.BACKUP (exampleVersion 5 9 "local"))).2.2
      (by decide)).1⟩

/-! ## Notifications and timers outside their own state -/

/-- C15, counterexample: `HAD_BEFORE_PASSIVE_STATE` received in `BACKUP` and
`HAD_AFTER_ELECTION_STATE` received in `REPLICATION_LEADER` do not return: the
assertion at the head of the handler fails. -/
theorem assertion_fails_outside_state :
    commandHandler 0 (exampleEnv 5) Command.HAD_BEFORE_PASSIVE_STATE [Item.str "had"]
        (exampleMachine ReplicatorState.BACKUP (exampleVersion 5 9 "local")) =
      Outcome.assertionFailed ∧
    commandHandler 0 (exampleEnv 5) Command.HAD_AFTER_ELECTION_STATE [Item.str "had"]
        (exampleMachine ReplicatorState.REPLICATION_LEADER (exampleVersion 5 9 "local")) =
      Outcome.assertionFailed := by
  decide

/-- C15, amended: `HAD_BEFORE_PASSIVE_STATE` received in `VERSION_DOWNLOADING`,
`BACKUP` or `REPLICATION_LEADER`, and `HAD_AFTER_ELECTION_STATE` received in
`REPLICATION_LEADER`, fail the `REPLICATION_ASSERT` at the head of the handler:
the handler does not return, and nothing was changed or sent before. -/
theorem notification_outside_state (fuel : Nat) (env : Env) (sender : String)
    (rest : WireStream) (s : RSM) :
    (s.m_state = ReplicatorState.VERSION_DOWNLOADING ∨ s.m_state = ReplicatorState.BACKUP ∨
        s.m_state = ReplicatorState.REPLICATION_LEADER →
      beforePassiveStateHandler s = Outcome.assertionFailed ∧
      commandHandler fuel env Command.HAD_BEFORE_PASSIVE_STATE (Item.str sender :: rest) s =
        Outcome.assertionFailed) ∧
    (s.m_state = ReplicatorState.REPLICATION_LEADER →
      afterElectionStateHandler fuel env s = Outcome.assertionFailed ∧
      commandHandler fuel env Command.HAD_AFTER_ELECTION_STATE (Item.str sender :: rest) s =
        Outcome.assertionFailed) := by
  constructor
  · intro hs
    have h : beforePassiveStateHandler s = Outcome.assertionFailed := by
      unfold beforePassiveStateHandler
      rcases hs with hs | hs | hs <;> simp [hs]
    exact ⟨h, h⟩
  · intro hs
    have h : afterElectionStateHandler fuel env s = Outcome.assertionFailed := by
      simp [afterElectionStateHandler, hs]
    exact ⟨h, h⟩

/-- C15, example: the assertion fails for a machine in `VERSION_DOWNLOADING` that
receives `HAD_BEFORE_PASSIVE_STATE` and for a leader that receives
`HAD_AFTER_ELECTION_STATE`. -/
theorem notification_outside_state_witness :
    beforePassiveStateHandler exampleDownloading = Outcome.assertionFailed ∧
    afterElectionStateHandler 0 (exampleEnv 5) exampleSplitLeader = Outcome.assertionFailed :=
  ⟨((notification_outside_state 0 (exampleEnv 5) "had" [] exampleDownloading).1
      (Or.inl rfl)).1,
   ((notification_outside_state 0 (exampleEnv 5) "had" [] exampleSplitLeader).2 rfl).1⟩

/-- C16, counterexample: the `versionDownloading` timer and the `versionRequesting`
timer, fired in a leader without peer versions, both end in `BACKUP`; and after
a start with three armed `versionRequesting` timers, of which the first
brought the machine to `BACKUP`, and the promotion to leader by HAD, the
expiry of the second timer demotes the leader to `BACKUP`. -/
theorem stale_timer_demotes_leader :
    (versionDownloadingTimer (exampleEnv 5)
      (exampleMachine ReplicatorState.REPLICATION_LEADER (exampleVersion 5 9 "local"))).m_state =
      ReplicatorState.BACKUP ∧
    (versionRequestingTimer (exampleEnv 5)
      (exampleMachine ReplicatorState.REPLICATION_LEADER (exampleVersion 5 9 "local"))).bind
      (fun t => Outcome.ok t.m_state) = Outcome.ok ReplicatorState.BACKUP ∧
    (exampleInitial.bind (run 0 staleTimerTrace)).bind (fun s =>
      (step 0 (exampleEnv 30) (Event.timer 2) s).bind (fun t =>
        Outcome.ok (s.m_state, t.m_state))) =
    Outcome.ok (ReplicatorState.REPLICATION_LEADER, ReplicatorState.BACKUP) := by
  decide

/-- C16, amended: the handlers of the one-shot timers do not look at the state. In
every state the `versionDownloading` timer starts no download, clears the
versions list and ends in `BACKUP`; in every state the `versionRequesting`
timer makes the selection of `VERSION_DOWNLOADING` and, when a version is
selected, calls `download` for it and ends in `VERSION_DOWNLOADING` with the
versions list unchanged, and otherwise starts no download and ends in `BACKUP`
with the versions list cleared. -/
theorem timer_outside_state (env : Env) (s : RSM) :
    ((versionDownloadingTimer env s).m_state = ReplicatorState.BACKUP ∧
      (versionDownloadingTimer env s).m_versionsList = [] ∧
      (∀ a, Effect.download a ∉ emitted s (versionDownloadingTimer env s))) ∧
    (∃ b best t,
      replicaSelectionHandler { s with m_state := ReplicatorState.VERSION_DOWNLOADING }
        Version.empty = Outcome.ok (b, best) ∧
      versionRequestingTimer env s = Outcome.ok t ∧
      (b = true →
        emitted s t = [Effect.download best.sinfulString] ∧
        t.m_state = ReplicatorState.VERSION_DOWNLOADING ∧
        t.m_versionsList = s.m_versionsList) ∧
      (b = false →
        (∀ a, Effect.download a ∉ emitted s t) ∧
        t.m_state = ReplicatorState.BACKUP ∧ t.m_versionsList = [])) := by
  constructor
  · refine ⟨rfl, versionDownloadingTimer_versionsList env s, ?_⟩
    intro a ha
    rw [emitted_of_append (versionDownloadingTimer_effects env s)] at ha
    split_ifs at ha <;> simp at ha
  · obtain ⟨b, best, t, h1, h2, h3, h4, _⟩ := versionRequestingTimer_cases env s
    exact ⟨b, best, t, h1, h2,
      fun hb => ⟨(h3 hb).1, (h3 hb).2.2.2.1, (h3 hb).2.2.2.2.1⟩, h4⟩

/-! ## Versions received from the peers -/

/-- The upsert keeps the keys of the versions list unique. -/
theorem updateVersionsList_nodup (v : Version) (l : List Version)
    (h : (l.map (fun w => w.sinfulString)).Nodup) :
    ((l.filter (fun w => w.sinfulString != v.sinfulString) ++ [v]).map
      (fun w => w.sinfulString)).Nodup := by
  rw [List.map_append, List.nodup_append]
  refine ⟨(h.sublist ((List.filter_sublist l).map _)), by simp, ?_⟩
  intro a ha hb
  simp only [List.map_cons, List.map_nil, List.mem_singleton] at hb
  obtain ⟨w, hw, rfl⟩ := List.mem_map.1 ha
  have := (List.mem_filter.1 hw).2
  simp [hb] at this

/-- C17: on `REPLICATION_SOLICIT_VERSION_REPLY` with a payload that decodes to the
version `v` the state of the machine never changes; in `VERSION_REQUESTING`
the versions list becomes the list without the entries of `v`'s sender,
followed by `v`: `v` is in the list, it is the only entry of its sender, the
entries of the other senders stay, and unique keys stay unique; in the other
three states the machine is unchanged. -/
theorem onSolicitVersionReply_cases (stream : WireStream) (s : RSM) (v : Version)
    (hv : decodeVersionAndState stream = some v) :
    (∀ fuel env sender, commandHandler fuel env Command.REPLICATION_SOLICIT_VERSION_REPLY
        (Item.str sender :: stream) s = Outcome.ok (onSolicitVersionReply stream s)) ∧
    (onSolicitVersionReply stream s).m_state = s.m_state ∧
    (s.m_state = ReplicatorState.VERSION_REQUESTING →
      (onSolicitVersionReply stream s).m_versionsList =
        s.m_versionsList.filter (fun w => w.sinfulString != v.sinfulString) ++ [v] ∧
      v ∈ (onSolicitVersionReply stream s).m_versionsList ∧
      (∀ w ∈ (onSolicitVersionReply stream s).m_versionsList,
        w.sinfulString = v.sinfulString → w = v) ∧
      (∀ w ∈ s.m_versionsList, w.sinfulString ≠ v.sinfulString →
        w ∈ (onSolicitVersionReply stream s).m_versionsList) ∧
      (∀ w ∈ (onSolicitVersionReply stream s).m_versionsList, w = v ∨ w ∈ s.m_versionsList) ∧
      ((s.m_versionsList.map (fun w => w.sinfulString)).Nodup →
        ((onSolicitVersionReply stream s).m_versionsList.map
          (fun w => w.sinfulString)).Nodup)) ∧
    (s.m_state ≠ ReplicatorState.VERSION_REQUESTING →
      onSolicitVersionReply stream s = s) := by
  refine ⟨fun _ _ _ => rfl, ?_, ?_, ?_⟩
  · simp only [onSolicitVersionReply, hv]
    split_ifs <;> rfl
  · intro hs
    have hl : (onSolicitVersionReply stream s).m_versionsList =
        s.m_versionsList.filter (fun w => w.sinfulString != v.sinfulString) ++ [v] := by
      simp only [onSolicitVersionReply, hs, if_true, hv, updateVersionsList]
    rw [hl]
    refine ⟨rfl, by simp, ?_, ?_, ?_, updateVersionsList_nodup v s.m_versionsList⟩
    · intro w hw hk
      rcases List.mem_append.1 hw with hw | hw
      · have := (List.mem_filter.1 hw).2
        simp [hk] at this
      · exact List.mem_singleton.1 hw
    · intro w hw hk
      exact List.mem_append_left _ (List.mem_filter.2 ⟨hw, by simpa using hk⟩)
    · intro w hw
      rcases List.mem_append.1 hw with hw | hw
      · exact Or.inr (List.mem_filter.1 hw).1
      · exact Or.inl (List.mem_singleton.1 hw)
  · intro hs
    simp only [onSolicitVersionReply, hs, if_false]

/-- C17, example: a machine in `VERSION_REQUESTING` that holds `{gid=7,clock=40}`
of `A` and `{gid=7,clock=42}` of `B` receives `{gid=7,clock=50}` of `A`: the
list becomes the version of `B` followed by the new version of `A`. -/
theorem onSolicitVersionReply_cases_witness :
    (onSolicitVersionReply (payload (exampleVersion 7 50 "A")) exampleRequesting).m_versionsList =
      [exampleVersion 7 42 "B", exampleVersion 7 50 "A"] := by
  rw [((onSolicitVersionReply_cases (payload (exampleVersion 7 50 "A")) exampleRequesting
    (exampleVersion 7 50 "A") (decodeVersionAndState_payload _)).2.2.1 rfl).1]
  decide

/-! ## The leader's tick and the state file -/

/-- Local version after the replication timer in `REPLICATION_LEADER`. -/
theorem replicationTimer_leader_myVersion (env : Env) (s : RSM)
    (h : s.m_state = ReplicatorState.REPLICATION_LEADER) :
    (replicationTimer env s).m_myVersion =
      if env.fileChanged = true then
        { s.m_myVersion with logicalClock := s.m_myVersion.logicalClock + 1 }
      else s.m_myVersion := by
  have hsync : ∀ u : RSM, (synchronize env u).2.m_myVersion =
      if env.fileChanged = true then
        { u.m_myVersion with logicalClock := u.m_myVersion.logicalClock + 1 }
      else u.m_myVersion := by
    intro u
    simp only [synchronize]
    split_ifs <;> rfl
  simp only [replicationTimer, registerTimer, h, killStuckDownloadingTransferer_state,
    killStuckUploadingTransferers_state, reduceCtorEq, if_false, broadcastVersion, RSM.emit,
    synchronize_fst]
  split_ifs <;>
    simp_all only [killStuckUploadingTransferers_myVersion,
      killStuckDownloadingTransferer_myVersion, if_true, if_false, Bool.false_eq_true,
      Bool.not_eq_true]

/-- Effects of the replication timer in `REPLICATION_LEADER`, with the version
that the broadcasts carry: the local version after the tick. -/
theorem replicationTimer_leader_effects_version (env : Env) (s : RSM)
    (h : s.m_state = ReplicatorState.REPLICATION_LEADER) :
    ∃ ks, (∀ e ∈ ks, (∃ pid, e = Effect.sendSignalKill pid) ∨
                (∃ a b, e = Effect.safeUnlinkFile a b)) ∧
      (replicationTimer env s).effects = s.effects ++ (ks ++
        ((if env.fileChanged = true then
            [Effect.broadcastVersion Command.REPLICATION_LEADER_VERSION
              (replicationTimer env s).m_myVersion] else []) ++
         (if toInt32 env.now - s.m_lastHadAliveTime > s.m_hadAliveTolerance then
            [Effect.broadcastVersion Command.REPLICATION_GIVING_UP_VERSION
              (replicationTimer env s).m_myVersion] else []))) := by
  refine ⟨(if s.m_downloadTransfererMetadata.isValid = true ∧
          toInt32 env.now - s.m_downloadTransfererMetadata.m_lastTimeCreated > s.m_maxTransfererLifeTime then
        [Effect.sendSignalKill s.m_downloadTransfererMetadata.m_pid,
         Effect.safeUnlinkFile s.m_versionFilePath
           (temporaryExtension s.m_downloadTransfererMetadata.m_pid
             DOWNLOADING_TEMPORARY_FILES_EXTENSION),
         Effect.safeUnlinkFile s.m_stateFilePath
           (temporaryExtension s.m_downloadTransfererMetadata.m_pid
             DOWNLOADING_TEMPORARY_FILES_EXTENSION)]
      else []) ++ (killStuckUploadingLoop (toInt32 env.now) s.m_maxTransfererLifeTime s.m_versionFilePath
        s.m_stateFilePath s.m_uploadTransfererMetadataList).1, ?_, ?_⟩
  · intro e he
    rcases List.mem_append.1 he with he | he
    · split_ifs at he
      · simp only [List.mem_cons, List.mem_singleton, List.not_mem_nil, or_false] at he
        rcases he with he | he | he
        · exact Or.inl ⟨_, he⟩
        · exact Or.inr ⟨_, _, he⟩
        · exact Or.inr ⟨_, _, he⟩
      · simp at he
    · exact killStuckUploadingLoop_effects _ _ _ _ _ _ he
  · simp only [replicationTimer, registerTimer, h, broadcastVersion, RSM.emit,
      killStuckDownloadingTransferer_state, killStuckUploadingTransferers_state,
      synchronize_fst, synchronize_effects, synchronize_lastHadAliveTime,
      synchronize_hadAliveTolerance]
    split_ifs <;>
      simp_all [killStuckUploadingTransferers_effects, killStuckDownloadingTransferer_effects]

/-- C18: when the replication timer fires in `REPLICATION_LEADER`,
`REPLICATION_LEADER_VERSION` is broadcast if and only if `synchronize` reports
a change of the state file; then the logical clock of the local version is the
one of before plus one, hence strictly greater, and the other fields of the
local version are unchanged; when the file did not change the local version
is unchanged and no `REPLICATION_LEADER_VERSION` is broadcast. -/
theorem replicationTimer_leader_broadcast (env : Env) (s : RSM)
    (h : s.m_state = ReplicatorState.REPLICATION_LEADER) :
    (∀ u : RSM, (synchronize env u).1 = env.fileChanged) ∧
    ((∃ v, Effect.broadcastVersion Command.REPLICATION_LEADER_VERSION v ∈
        emitted s (replicationTimer env s)) ↔ env.fileChanged = true) ∧
    (env.fileChanged = true →
      (replicationTimer env s).m_myVersion.logicalClock = s.m_myVersion.logicalClock + 1 ∧
      (replicationTimer env s).m_myVersion.logicalClock > s.m_myVersion.logicalClock ∧
      (replicationTimer env s).m_myVersion.gid = s.m_myVersion.gid ∧
      Effect.broadcastVersion Command.REPLICATION_LEADER_VERSION
        (replicationTimer env s).m_myVersion ∈ emitted s (replicationTimer env s)) ∧
    (env.fileChanged = false →
      (replicationTimer env s).m_myVersion = s.m_myVersion ∧
      ∀ v, Effect.broadcastVersion Command.REPLICATION_LEADER_VERSION v ∉
        emitted s (replicationTimer env s)) := by
  obtain ⟨ks, hks, heff⟩ := replicationTimer_leader_effects_version env s h
  have hem := emitted_of_append heff
  have hmy := replicationTimer_leader_myVersion env s h
  have hnot : env.fileChanged = false →
      ∀ w, Effect.broadcastVersion Command.REPLICATION_LEADER_VERSION w ∉
        emitted s (replicationTimer env s) := by
    intro hf w hw
    rw [hem] at hw
    simp only [hf, Bool.false_eq_true, if_false, List.nil_append, List.mem_append] at hw
    rcases hw with hw | hw
    · rcases hks _ hw with ⟨_, h1⟩ | ⟨_, _, h1⟩ <;> cases h1
    · split_ifs at hw
      · simp at hw
      · simp at hw
  refine ⟨synchronize_fst env, ⟨?_, ?_⟩, ?_, ?_⟩
  · rintro ⟨w, hw⟩
    rcases Bool.eq_false_or_eq_true env.fileChanged with hf | hf
    · exact hf
    · exact absurd hw (hnot hf w)
  · intro hf
    refine ⟨(replicationTimer env s).m_myVersion, ?_⟩
    rw [hem]
    simp [hf]
  · intro hf
    refine ⟨by rw [hmy, if_pos hf], by rw [hmy, if_pos hf]; simp, by rw [hmy, if_pos hf], ?_⟩
    rw [hem]
    simp [hf]
  · intro hf
    refine ⟨?_, hnot hf⟩
    rw [hmy, hf]
    simp

/-- C18, example: the tick of a leader with clock 9 whose state file changed
broadcasts the local version with clock 10. -/
theorem replicationTimer_leader_broadcast_witness :
    (replicationTimer (exampleChangedEnv 1010)
      (exampleMachine ReplicatorState.REPLICATION_LEADER
        (exampleVersion 5 9 "local"))).m_myVersion.logicalClock = 9 + 1 ∧
    Effect.broadcastVersion Command.REPLICATION_LEADER_VERSION
      (replicationTimer (exampleChangedEnv 1010)
        (exampleMachine ReplicatorState.REPLICATION_LEADER
          (exampleVersion 5 9 "local"))).m_myVersion ∈
      emitted (exampleMachine ReplicatorState.REPLICATION_LEADER (exampleVersion 5 9 "local"))
        (replicationTimer (exampleChangedEnv 1010)
          (exampleMachine ReplicatorState.REPLICATION_LEADER (exampleVersion 5 9 "local"))) := by
  have h := (replicationTimer_leader_broadcast (exampleChangedEnv 1010)
    (exampleMachine ReplicatorState.REPLICATION_LEADER (exampleVersion 5 9 "local")) rfl).2.2.1
    rfl
  exact ⟨h.1, h.2.2.2⟩

/-! ## Decoding of a version and its state -/

/-- C19, at a failing input: a backup receives `REPLICATION_LEADER_VERSION` from
`peer` with a payload that ends after the gid; `decodeVersionAndState` yields no
version, and the handler gives the null pointer to `replicaSelectionHandler`,
which reads the state of the missing version: the handler does not return. -/
theorem onLeaderVersion_undecodable :
    decodeVersionAndState [Item.int32 4] = none ∧
    commandHandler 0 (exampleEnv 5) Command.REPLICATION_LEADER_VERSION
        [Item.str "peer", Item.int32 4]
        (exampleMachine ReplicatorState.BACKUP (exampleVersion 3 999 "local")) =
      Outcome.nullDereference := by
  decide

/-- C20: `decodeVersionAndState` applied to the encoding of a version `v` followed
by a state `st` as a 32-bit integer (and by whatever comes next) yields the
version with the gid, the logical clock and the address of `v` and with the
state `st`, a state being determined by its integer; and it yields no version
exactly when the version cannot be read or, the version being read, the
integer of the state cannot. -/
theorem decodeVersionAndState_roundTrip :
    (∀ (v : Version) (st : ReplicatorState) (rest : WireStream),
      decodeVersionAndState (v.encode ++ Item.int32 st.toInt :: rest) =
        some { gid := v.gid, logicalClock := v.logicalClock, sinfulString := v.sinfulString,
               state := st.toInt }) ∧
    (∀ a b : ReplicatorState, a.toInt = b.toInt → a = b) ∧
    (∀ stream : WireStream, decodeVersionAndState stream = none ↔
      (Version.decode stream = none ∨
        ∃ v rest, Version.decode stream = some (v, rest) ∧ codeInt rest = none)) := by
  refine ⟨?_, ?_, ?_⟩
  · intro v st rest
    simp [decodeVersionAndState, Version.encode, Version.decode, codeInt, Version.setStateInt]
  · intro a b h
    cases a <;> cases b <;> first | rfl | (simp [ReplicatorState.toInt] at h)
  · intro stream
    unfold decodeVersionAndState
    cases hd : Version.decode stream with
    | none => simp
    | some p =>
      obtain ⟨v, rest⟩ := p
      cases hc : codeInt rest with
      | none =>
        constructor
        · intro _
          exact Or.inr ⟨v, rest, rfl, hc⟩
        · intro _
          simp only [hc]
      | some q =>
        obtain ⟨n, r⟩ := q
        constructor
        · intro h
          simp only [hc] at h
          cases h
        · rintro (h | ⟨w, r2, h1, h2⟩)
          · cases h
          · injection h1 with h1
            injection h1 with _ h3
            rw [← h3, hc] at h2
            cases h2

/-- C16, example: the `versionDownloading` timer fired in a leader ends in `BACKUP`,
and the `versionRequesting` timer fired in a backup that holds the version of a
peer with another gid calls `download` for that peer and ends in
`VERSION_DOWNLOADING`. -/
theorem timer_outside_state_witness :
    (versionDownloadingTimer (exampleEnv 5) exampleSplitLeader).m_state =
      ReplicatorState.BACKUP ∧
    ∃ t, versionRequestingTimer (exampleEnv 5) exampleSplitBackup = Outcome.ok t ∧
      emitted exampleSplitBackup t = [Effect.download "peer"] ∧
      t.m_state = ReplicatorState.VERSION_DOWNLOADING := by
  refine ⟨(timer_outside_state (exampleEnv 5) exampleSplitLeader).1.1, ?_⟩
  obtain ⟨b, best, t, hsel, hrun, htrue, _⟩ :=
    (timer_outside_state (exampleEnv 5) exampleSplitBackup).2
  have hb : replicaSelectionHandler
      { exampleSplitBackup with m_state := ReplicatorState.VERSION_DOWNLOADING } Version.empty =
      Outcome.ok (true, exampleVersion 9 1 "peer") := by decide
  rw [hb] at hsel
  injection hsel with hsel
  injection hsel with h1 h2
  obtain ⟨he, hs, _⟩ := htrue h1.symm
  rw [← h2] at he
  exact ⟨t, hrun, he, hs⟩

/-- C20, example: the payload of `{gid=7,clock=42}` of `B` in state `BACKUP` decodes
to that version, and a payload that ends after the clock yields no version. -/
theorem decodeVersionAndState_roundTrip_witness :
    decodeVersionAndState
        ((exampleVersion 7 42 "B").encode ++ Item.int32 ReplicatorState.BACKUP.toInt :: []) =
      some (exampleVersion 7 42 "B") ∧
    decodeVersionAndState [Item.int32 7, Item.int64 42] = none :=
  ⟨decodeVersionAndState_roundTrip.1 (exampleVersion 7 42 "B") ReplicatorState.BACKUP [],
   (decodeVersionAndState_roundTrip.2.2 [Item.int32 7, Item.int64 42]).2 (Or.inl (by decide))⟩

/-! ## The configuration parameters -/

theorem getConfigurationPositiveIntegerParameter_some (c : Configuration)
    (parameter buffer : String) (h : c.param parameter = some buffer) :
    getConfigurationPositiveIntegerParameter c parameter =
      if (c.utilAtoi buffer).2 = false ∨ (c.utilAtoi buffer).1 ≤ 0 then
        Startup.crucialError parameter
      else Startup.ok (c.utilAtoi buffer).1 := by
  rw [getConfigurationPositiveIntegerParameter]
  simp only [h]

theorem getConfigurationPositiveIntegerParameter_none (c : Configuration) (parameter : String)
    (h : c.param parameter = none) :
    getConfigurationPositiveIntegerParameter c parameter =
      getConfigurationDefaultPositiveIntegerParameter c parameter := by
  rw [getConfigurationPositiveIntegerParameter]
  simp only [h]

/-- C21: when the parameter is present in the configuration with the text
`buffer`, `getConfigurationPositiveIntegerParameter` stops the program with
the fatal configuration error if and only if `utilAtoi` does not parse the
text or the value is not positive, and otherwise returns the value that
`utilAtoi` read, which is positive. -/
theorem getConfigurationPositiveIntegerParameter_present (c : Configuration)
    (parameter buffer : String) (h : c.param parameter = some buffer) :
    ((∃ p, getConfigurationPositiveIntegerParameter c parameter = Startup.crucialError p) ↔
      ((c.utilAtoi buffer).2 = false ∨ (c.utilAtoi buffer).1 ≤ 0)) ∧
    (((c.utilAtoi buffer).2 = false ∨ (c.utilAtoi buffer).1 ≤ 0) →
      getConfigurationPositiveIntegerParameter c parameter = Startup.crucialError parameter) ∧
    (¬ ((c.utilAtoi buffer).2 = false ∨ (c.utilAtoi buffer).1 ≤ 0) →
      getConfigurationPositiveIntegerParameter c parameter = Startup.ok (c.utilAtoi buffer).1 ∧
      0 < (c.utilAtoi buffer).1) := by
  have hv := getConfigurationPositiveIntegerParameter_some c parameter buffer h
  refine ⟨⟨?_, ?_⟩, ?_, ?_⟩
  · rintro ⟨p, hp⟩
    by_contra hn
    rw [hv, if_neg hn] at hp
    cases hp
  · intro hb
    exact ⟨parameter, by rw [hv, if_pos hb]⟩
  · intro hb
    rw [hv, if_pos hb]
  · intro hb
    refine ⟨by rw [hv, if_neg hb], ?_⟩
    by_contra hn
    exact hb (Or.inr (by omega))

/-- C21, example: `REPLICATION_INTERVAL = 300` is returned as 300, and a text
that `utilAtoi` rejects is a fatal error. -/
theorem getConfigurationPositiveIntegerParameter_present_witness :
    getConfigurationPositiveIntegerParameter exampleConfiguration "REPLICATION_INTERVAL" =
      Startup.ok 300 ∧
    getConfigurationPositiveIntegerParameter exampleConfiguration "HAD_LIST" =
      Startup.crucialError "HAD_LIST" :=
  ⟨((getConfigurationPositiveIntegerParameter_present exampleConfiguration
      "REPLICATION_INTERVAL" "300" rfl).2.2 (by decide)).1,
   (getConfigurationPositiveIntegerParameter_present exampleConfiguration
      "HAD_LIST" "a,b,c" rfl).2.1 (by decide)⟩

theorem initialState_fields (ri ml nj tol : Int) (v : Version) (vp sp : String) (s : RSM)
    (h : initialState ri ml nj tol v vp sp = Outcome.ok s) :
    s.m_replicationInterval = ri ∧ s.m_maxTransfererLifeTime = ml ∧
    s.m_newlyJoinedWaitingVersionInterval = nj ∧ s.m_hadAliveTolerance = tol := by
  simp only [initialState, beforePassiveStateHandler, registerTimer, constructed, if_true,
    Outcome.ok.injEq] at h
  subst h
  exact ⟨rfl, rfl, rfl, rfl⟩

/-- The default of a parameter that the table of defaults does not know is `-1`. -/
theorem getConfigurationPositiveIntegerParameter_maxTransferLifetime (c : Configuration)
    (h : c.param "MAX_TRANSFER_LIFETIME" = none) :
    getConfigurationPositiveIntegerParameter c "MAX_TRANSFER_LIFETIME" = Startup.ok (-1) := by
  rw [getConfigurationPositiveIntegerParameter_none c _ h,
    getConfigurationDefaultPositiveIntegerParameter]
  simp

/-- C22, at a failing input: with a configuration that does not set the maximum
transferer lifetime, `reinitialize` asks for `MAX_TRANSFER_LIFETIME`, a name
that the table of defaults does not know (it knows `MAX_TRANSFERER_LIFETIME`,
with the default 300), and the machine starts with the lifetime `-1`; the same
happens when the configuration sets `MAX_TRANSFERER_LIFETIME = 300`. -/
theorem reinitialize_maxTransfererLifeTime_unset :
    getConfigurationDefaultPositiveIntegerParameter exampleConfiguration
      "MAX_TRANSFERER_LIFETIME" = Startup.ok 300 ∧
    getConfigurationPositiveIntegerParameter exampleConfiguration "MAX_TRANSFER_LIFETIME" =
      Startup.ok (-1) ∧
    ( reinitialize exampleConfiguration Version.empty "Version" "State").bind
      (fun o => Startup.ok (o.bind (fun s => Outcome.ok s.m_maxTransfererLifeTime))) =
      Startup.ok (Outcome.ok (-1)) ∧
    ( reinitialize exampleConfigurationWithLifetime Version.empty "Version" "State").bind
      (fun o => Startup.ok (o.bind (fun s => Outcome.ok s.m_maxTransfererLifeTime))) =
      Startup.ok (Outcome.ok (-1)) := by
  have h1 : getConfigurationPositiveIntegerParameter exampleConfiguration
      "MAX_TRANSFER_LIFETIME" = Startup.ok (-1) :=
    getConfigurationPositiveIntegerParameter_maxTransferLifetime _ rfl
  have h2 : getConfigurationPositiveIntegerParameter exampleConfigurationWithLifetime
      "MAX_TRANSFER_LIFETIME" = Startup.ok (-1) :=
    getConfigurationPositiveIntegerParameter_maxTransferLifetime _ rfl
  have ri : ∀ c : Configuration, c.param "REPLICATION_INTERVAL" = some "300" →
      c.utilAtoi "300" = (300, true) →
      getConfigurationPositiveIntegerParameter c "REPLICATION_INTERVAL" = Startup.ok 300 := by
    intro c hp ha
    rw [getConfigurationPositiveIntegerParameter_some c _ _ hp, ha]
    simp
  have ht : ∀ c : Configuration, c.param "HAD_CONNECTION_TIMEOUT" = some "5" →
      c.utilAtoi "5" = (5, true) →
      getConfigurationPositiveIntegerParameter c "HAD_CONNECTION_TIMEOUT" = Startup.ok 5 := by
    intro c hp ha
    rw [getConfigurationPositiveIntegerParameter_some c _ _ hp, ha]
    simp
  have nj : ∀ c : Configuration, c.param "NEWLY_JOINED_WAITING_VERSION_INTERVAL" = none →
      getConfigurationPositiveIntegerParameter c "HAD_CONNECTION_TIMEOUT" = Startup.ok 5 →
      getConfigurationPositiveIntegerParameter c "NEWLY_JOINED_WAITING_VERSION_INTERVAL" =
        Startup.ok 12 := by
    intro c hp h5
    rw [getConfigurationPositiveIntegerParameter_none c _ hp,
      getConfigurationDefaultPositiveIntegerParameter, h5]
    simp [Startup.bind, toInt32, NEWLY_JOINED_TOLERANCE_FACTOR]
  refine ⟨?_, h1, ?_, ?_⟩
  · rw [getConfigurationDefaultPositiveIntegerParameter]
    simp [toInt32, MINUTE]
  · have h5 := ht exampleConfiguration rfl rfl
    simp only [ reinitialize, ri exampleConfiguration rfl rfl, h1, h5,
      nj exampleConfiguration rfl h5, Startup.bind]
    rfl
  · have h5 := ht exampleConfigurationWithLifetime rfl rfl
    simp only [ reinitialize, ri exampleConfigurationWithLifetime rfl rfl, h2, h5,
      nj exampleConfigurationWithLifetime rfl h5, Startup.bind]
    rfl

/-- The tolerance computed by `reinitialize` is exact when the result fits an `int`. -/
theorem hadAliveTolerance_exact (t n : Int) (ht : 0 < t) (hn : 0 ≤ n)
    (hfit : 2 * (2 * t * n + 1) < 2 ^ 31) :
    toInt32 (HAD_ALIVE_TOLERANCE_FACTOR * toInt32 (toInt32 (toInt32 (2 * t) * n) + 1)) =
      2 * (2 * t * n + 1) := by
  have hprod : 0 ≤ 2 * t * n := by positivity
  rcases eq_or_lt_of_le hn with h0 | hpos
  · subst h0
    simp only [mul_zero, HAD_ALIVE_TOLERANCE_FACTOR]
    rw [toInt32_of_fits 0 (by norm_num) (by norm_num)]
    rw [toInt32_of_fits (0 + 1) (by norm_num) (by norm_num)]
    rw [toInt32_of_fits (2 * (0 + 1)) (by norm_num) (by norm_num)]
  · have h2t : 2 * t ≤ 2 * t * n := by nlinarith
    rw [toInt32_of_fits (2 * t) (by omega) (by omega)]
    rw [toInt32_of_fits (2 * t * n) (by omega) (by omega)]
    rw [toInt32_of_fits (2 * t * n + 1) (by omega) (by omega)]
    simp only [HAD_ALIVE_TOLERANCE_FACTOR]
    rw [toInt32_of_fits (2 * (2 * t * n + 1)) (by omega) (by omega)]

/-- C23: when the four intervals are read, `HAD_CONNECTION_TIMEOUT` is `t > 0` and
`HAD_LIST` is present with `n` entries, and `2·(2·t·n + 1)` fits an `int`,
`reinitialize` starts the machine with `hadAliveTolerance = 2·(2·t·n + 1)`;
when `HAD_LIST` is absent it stops the program with a fatal error, which is
the one for `HAD_LIST` when the four intervals are read. -/
theorem reinitialize_hadAliveTolerance (c : Configuration) (myVersion : Version)
    (versionFilePath stateFilePath : String) (ri ml nj t : Int)
    (hri : getConfigurationPositiveIntegerParameter c "REPLICATION_INTERVAL" = Startup.ok ri)
    (hml : getConfigurationPositiveIntegerParameter c "MAX_TRANSFER_LIFETIME" = Startup.ok ml)
    (hnj : getConfigurationPositiveIntegerParameter c "NEWLY_JOINED_WAITING_VERSION_INTERVAL" =
      Startup.ok nj)
    (ht : getConfigurationPositiveIntegerParameter c "HAD_CONNECTION_TIMEOUT" = Startup.ok t)
    (htpos : 0 < t) :
    (∀ buffer, c.param "HAD_LIST" = some buffer → 0 ≤ c.stringListNumber buffer →
      2 * (2 * t * c.stringListNumber buffer + 1) < 2 ^ 31 →
      ∃ s, reinitialize c myVersion versionFilePath stateFilePath =
          Startup.ok (Outcome.ok s) ∧
        s.m_hadAliveTolerance = 2 * (2 * t * c.stringListNumber buffer + 1)) ∧
    (c.param "HAD_LIST" = none →
      reinitialize c myVersion versionFilePath stateFilePath = Startup.crucialError "HAD_LIST") := by
  constructor
  · intro buffer hlist hn hfit
    have htol := hadAliveTolerance_exact t (c.stringListNumber buffer) htpos hn hfit
    have hre : reinitialize c myVersion versionFilePath stateFilePath =
        Startup.ok (initialState ri ml nj (2 * (2 * t * c.stringListNumber buffer + 1))
          myVersion versionFilePath stateFilePath) := by
      simp only [ reinitialize, hri, hml, hnj, ht, Startup.bind, hlist, htol]
    have hok : ∃ s, initialState ri ml nj (2 * (2 * t * c.stringListNumber buffer + 1))
        myVersion versionFilePath stateFilePath = Outcome.ok s := by
      simp only [initialState, beforePassiveStateHandler, registerTimer, constructed, if_true]
      exact ⟨_, rfl⟩
    obtain ⟨s, hs⟩ := hok
    exact ⟨s, by rw [hre, hs], (initialState_fields _ _ _ _ _ _ _ _ hs).2.2.2⟩
  · intro hlist
    simp only [ reinitialize, hri, hml, hnj, ht, Startup.bind, hlist]

/-- When `HAD_LIST` is absent `reinitialize` does not return, whatever the other
parameters are. -/
theorem reinitialize_without_hadList (c : Configuration) (myVersion : Version)
    (versionFilePath stateFilePath : String) (h : c.param "HAD_LIST" = none) :
    ∃ p, reinitialize c myVersion versionFilePath stateFilePath = Startup.crucialError p := by
  simp only [ reinitialize, h]
  cases getConfigurationPositiveIntegerParameter c "REPLICATION_INTERVAL" with
  | crucialError p => exact ⟨p, rfl⟩
  | ok a =>
    cases getConfigurationPositiveIntegerParameter c "MAX_TRANSFER_LIFETIME" with
    | crucialError p => exact ⟨p, rfl⟩
    | ok b =>
      cases getConfigurationPositiveIntegerParameter c "NEWLY_JOINED_WAITING_VERSION_INTERVAL" with
      | crucialError p => exact ⟨p, rfl⟩
      | ok d =>
        cases getConfigurationPositiveIntegerParameter c "HAD_CONNECTION_TIMEOUT" with
        | crucialError p => exact ⟨p, rfl⟩
        | ok e => exact ⟨"HAD_LIST", rfl⟩

/-- C23, example: with `HAD_CONNECTION_TIMEOUT = 5` and three peers the machine
starts with the tolerance `2·(2·5·3 + 1) = 62`. -/
theorem reinitialize_hadAliveTolerance_witness :
    ∃ s, reinitialize exampleConfiguration Version.empty "Version" "State" =
        Startup.ok (Outcome.ok s) ∧
      s.m_hadAliveTolerance = 62 := by
  have h5 : getConfigurationPositiveIntegerParameter exampleConfiguration
      "HAD_CONNECTION_TIMEOUT" = Startup.ok 5 := by
    rw [getConfigurationPositiveIntegerParameter_some exampleConfiguration
      "HAD_CONNECTION_TIMEOUT" "5" rfl]
    decide
  have h300 : getConfigurationPositiveIntegerParameter exampleConfiguration
      "REPLICATION_INTERVAL" = Startup.ok 300 := by
    rw [getConfigurationPositiveIntegerParameter_some exampleConfiguration
      "REPLICATION_INTERVAL" "300" rfl]
    decide
  have h12 : getConfigurationPositiveIntegerParameter exampleConfiguration
      "NEWLY_JOINED_WAITING_VERSION_INTERVAL" = Startup.ok 12 := by
    rw [getConfigurationPositiveIntegerParameter_none exampleConfiguration
      "NEWLY_JOINED_WAITING_VERSION_INTERVAL" rfl,
      getConfigurationDefaultPositiveIntegerParameter, h5]
    simp [Startup.bind, toInt32, NEWLY_JOINED_TOLERANCE_FACTOR]
  obtain ⟨s, hs, htol⟩ := (reinitialize_hadAliveTolerance exampleConfiguration Version.empty
    "Version" "State" 300 (-1) 12 5 h300
    (getConfigurationPositiveIntegerParameter_maxTransferLifetime _ rfl) h12 h5
    (by decide)).1 "a,b,c" rfl (by decide) (by decide)
  exact ⟨s, hs, htol⟩

/-! ## More on the selection of the replica -/

/-- C24: in `BACKUP`, two runs of `replicaSelectionHandler` whose local versions
agree on gid and logical clock and whose received versions agree on gid and
logical clock return the same boolean, whatever the state fields (and the
addresses) of the four versions are; each run leaves its argument as it is. -/
theorem replicaSelectionHandler_state_blind (s1 s2 : RSM) (v1 v2 : Version)
    (h1 : s1.m_state = ReplicatorState.BACKUP) (h2 : s2.m_state = ReplicatorState.BACKUP)
    (hmg : s1.m_myVersion.gid = s2.m_myVersion.gid)
    (hmc : s1.m_myVersion.logicalClock = s2.m_myVersion.logicalClock)
    (hvg : v1.gid = v2.gid) (hvc : v1.logicalClock = v2.logicalClock) :
    ∃ b, replicaSelectionHandler s1 v1 = Outcome.ok (b, v1) ∧
      replicaSelectionHandler s2 v2 = Outcome.ok (b, v2) := by
  refine ⟨!v1.isComparable (s1.m_myVersion.setState v1) || v1.gt (s1.m_myVersion.setState v1),
    backupSelection_eq s1 v1 h1, ?_⟩
  rw [backupSelection_eq s2 v2 h2]
  simp only [Version.isComparable, Version.gt, Version.setState, hmg, hmc, hvg, hvc]

/-- C24, example: the local version `{gid=3,clock=9}` in state `BACKUP` or in state
`REPLICATION_LEADER`, against the received `{gid=3,clock=10}` in state
`REPLICATION_LEADER` or in state `VERSION_REQUESTING`: both runs answer true. -/
theorem replicaSelectionHandler_state_blind_witness :
    replicaSelectionHandler (exampleMachine ReplicatorState.BACKUP (exampleVersion 3 9 "local"))
        { exampleVersion 3 10 "peer" with state := 3 } =
      Outcome.ok (true, { exampleVersion 3 10 "peer" with state := 3 }) ∧
    replicaSelectionHandler
        (exampleMachine ReplicatorState.BACKUP { exampleVersion 3 9 "local" with state := 3 })
        { exampleVersion 3 10 "peer" with state := 0 } =
      Outcome.ok (true, { exampleVersion 3 10 "peer" with state := 0 }) := by
  obtain ⟨b, hb1, hb2⟩ := replicaSelectionHandler_state_blind
    (exampleMachine ReplicatorState.BACKUP (exampleVersion 3 9 "local"))
    (exampleMachine ReplicatorState.BACKUP { exampleVersion 3 9 "local" with state := 3 })
    { exampleVersion 3 10 "peer" with state := 3 }
    { exampleVersion 3 10 "peer" with state := 0 } rfl rfl rfl rfl rfl rfl
  have hb : replicaSelectionHandler
      (exampleMachine ReplicatorState.BACKUP (exampleVersion 3 9 "local"))
      { exampleVersion 3 10 "peer" with state := 3 } =
      Outcome.ok (true, { exampleVersion 3 10 "peer" with state := 3 }) := by decide
  have hbt : b = true := by
    rw [hb] at hb1
    injection hb1 with hb1
    injection hb1 with h _
    exact h.symm
  subst hbt
  exact ⟨hb1, hb2⟩

/-- The loop of `replicaSelectionHandler`: the result has the gid of the first
best version, a clock not below it, is the first best version or an entry of
the rest, no entry of the rest with that gid has a greater clock, and the
result is the earliest entry with its clock among those with that gid. -/
theorem bestVersionLoop_spec (rest : List Version) :
    ∀ best : Version,
      (bestVersionLoop best rest).gid = best.gid ∧
      best.logicalClock ≤ (bestVersionLoop best rest).logicalClock ∧
      (∀ w ∈ rest, w.gid = best.gid →
        w.logicalClock ≤ (bestVersionLoop best rest).logicalClock) ∧
      (bestVersionLoop best rest = best ∨
        ∃ pre post, rest = pre ++ bestVersionLoop best rest :: post ∧
          best.logicalClock < (bestVersionLoop best rest).logicalClock ∧
          ∀ w ∈ pre, w.gid = best.gid →
            w.logicalClock < (bestVersionLoop best rest).logicalClock) := by
  induction rest with
  | nil =>
    intro best
    exact ⟨rfl, le_refl _, by simp, Or.inl rfl⟩
  | cons v rest ih =>
    intro best
    by_cases hc : v.gid = best.gid ∧ v.logicalClock > best.logicalClock
    · have hstep : bestVersionLoop best (v :: rest) = bestVersionLoop v rest := by
        simp [bestVersionLoop, Version.isComparable, Version.gt, hc.1, hc.2]
      rw [hstep]
      obtain ⟨h1, h2, h3, h4⟩ := ih v
      refine ⟨h1.trans hc.1, by omega, ?_, Or.inr ?_⟩
      · intro w hw hg
        rcases List.mem_cons.1 hw with rfl | hw
        · exact h2
        · exact h3 w hw (hg.trans hc.1.symm)
      · rcases h4 with h4 | ⟨pre, post, hsplit, hlt, hpre⟩
        · refine ⟨[], rest, by rw [h4]; rfl, by rw [h4]; exact hc.2, by simp⟩
        · refine ⟨v :: pre, post, by rw [List.cons_append, ← hsplit], by omega, ?_⟩
          intro w hw hg
          rcases List.mem_cons.1 hw with rfl | hw
          · exact hlt
          · exact hpre w hw (hg.trans hc.1.symm)
    · have hstep : bestVersionLoop best (v :: rest) = bestVersionLoop best rest := by
        simp only [bestVersionLoop, Version.isComparable, Version.gt]
        by_cases hg : v.gid = best.gid
        · have : ¬ v.logicalClock > best.logicalClock := fun h => hc ⟨hg, h⟩
          simp [hg, this]
        · simp [hg]
      rw [hstep]
      obtain ⟨h1, h2, h3, h4⟩ := ih best
      have hv : v.gid = best.gid → v.logicalClock ≤ best.logicalClock := by
        intro hg
        by_contra hn
        exact hc ⟨hg, by omega⟩
      refine ⟨h1, h2, ?_, ?_⟩
      · intro w hw hg
        rcases List.mem_cons.1 hw with rfl | hw
        · exact (hv hg).trans h2
        · exact h3 w hw hg
      · rcases h4 with h4 | ⟨pre, post, hsplit, hlt, hpre⟩
        · exact Or.inl h4
        · refine Or.inr ⟨v :: pre, post, by rw [List.cons_append, ← hsplit], hlt, ?_⟩
          intro w hw hg
          rcases List.mem_cons.1 hw with rfl | hw
          · exact lt_of_le_of_lt (hv hg) hlt
          · exact hpre w hw hg

/-- C26: in `VERSION_DOWNLOADING` with the versions list `first :: rest`, the best
version of the loop of `replicaSelectionHandler` (the best version in the words
of the spec, and the version written into the argument whenever the handler
answers true) is an element of the list, has the gid of `first`, has the
greatest logical clock among the entries with that gid and is the earliest
entry with that clock among them; an entry with another gid is never the
best version. -/
theorem replicaSelectionHandler_best (s : RSM) (newVersion first : Version)
    (rest : List Version) (hs : s.m_state = ReplicatorState.VERSION_DOWNLOADING)
    (hl : s.m_versionsList = first :: rest) :
    specBestVersion s.m_versionsList = some (bestVersionLoop first rest) ∧
    (replicaSelectionHandler s newVersion = Outcome.ok (true, bestVersionLoop first rest) ∨
      replicaSelectionHandler s newVersion = Outcome.ok (false, newVersion)) ∧
    bestVersionLoop first rest ∈ s.m_versionsList ∧
    (bestVersionLoop first rest).gid = first.gid ∧
    (∀ w ∈ s.m_versionsList, w.gid = first.gid →
      w.logicalClock ≤ (bestVersionLoop first rest).logicalClock) ∧
    (∃ pre post, s.m_versionsList = pre ++ bestVersionLoop first rest :: post ∧
      ∀ w ∈ pre, w.gid = first.gid →
        w.logicalClock < (bestVersionLoop first rest).logicalClock) ∧
    (∀ w ∈ s.m_versionsList, w.gid ≠ first.gid → bestVersionLoop first rest ≠ w) := by
  obtain ⟨h1, h2, h3, h4⟩ := bestVersionLoop_spec rest first
  have hsplit : ∃ pre post, first :: rest = pre ++ bestVersionLoop first rest :: post ∧
      ∀ w ∈ pre, w.gid = first.gid →
        w.logicalClock < (bestVersionLoop first rest).logicalClock := by
    rcases h4 with h4 | ⟨pre, post, hsp, hlt, hpre⟩
    · exact ⟨[], rest, by rw [h4]; rfl, by simp⟩
    · refine ⟨first :: pre, post, by rw [List.cons_append, ← hsp], ?_⟩
      intro w hw hg
      rcases List.mem_cons.1 hw with rfl | hw
      · exact hlt
      · exact hpre w hw hg
  rw [hl]
  refine ⟨specBestVersion_cons first rest, ?_, ?_, h1, ?_, hsplit, ?_⟩
  · rw [replicaSelectionHandler_downloading_cons s newVersion first rest hs hl]
    split_ifs
    · exact Or.inl rfl
    · exact Or.inr rfl
  · obtain ⟨pre, post, hsp, _⟩ := hsplit
    rw [hsp]
    simp
  · intro w hw hg
    rcases List.mem_cons.1 hw with rfl | hw
    · exact h2
    · exact h3 w hw hg
  · intro w _ hg hbest
    exact hg (by rw [← hbest]; exact h1)

/-- C26, example: the versions `{gid=7,clock=40}` of `A` and `{gid=8,clock=99}` of
`C` give the best version of `A` when `A` comes first and the one of `C` when
`C` comes first: the choice depends on the order of the list. -/
theorem replicaSelectionHandler_best_witness :
    specBestVersion
        (exampleDownloadingWith [exampleVersion 7 40 "A", exampleVersion 8 99 "C"]).m_versionsList =
      some (exampleVersion 7 40 "A") ∧
    specBestVersion
        (exampleDownloadingWith [exampleVersion 8 99 "C", exampleVersion 7 40 "A"]).m_versionsList =
      some (exampleVersion 8 99 "C") := by
  have h1 := (replicaSelectionHandler_best
    (exampleDownloadingWith [exampleVersion 7 40 "A", exampleVersion 8 99 "C"]) Version.empty
    (exampleVersion 7 40 "A") [exampleVersion 8 99 "C"] rfl rfl).1
  have h2 := (replicaSelectionHandler_best
    (exampleDownloadingWith [exampleVersion 8 99 "C", exampleVersion 7 40 "A"]) Version.empty
    (exampleVersion 8 99 "C") [exampleVersion 7 40 "A"] rfl rfl).1
  rw [h1, h2]
  exact ⟨by decide, by decide⟩

/-! ## Invariants of the reachable states -/

theorem Shape.same {s t : RSM} (h1 : t.m_state = s.m_state)
    (h2 : t.m_versionsList = s.m_versionsList) : Shape s t :=
  Or.inl ⟨h1, Or.inl h2⟩

theorem becomeLeader_shape (fuel : Nat) (env : Env) (s t : RSM)
    (hs : s.m_state = ReplicatorState.BACKUP) (h : becomeLeader fuel env s = Outcome.ok t) :
    Shape s t := by
  obtain ⟨u, _, rfl, _, h4⟩ := becomeLeader_ok fuel env s t h
  exact Or.inr (Or.inl ⟨hs, rfl, h4⟩)

/-- State and versions list after a command. -/
theorem commandHandler_shape (fuel : Nat) (env : Env) (c : Command) (stream : WireStream)
    (s t : RSM) (h : commandHandler fuel env c stream s = Outcome.ok t) : Shape s t := by
  unfold commandHandler at h
  cases hc : codeString stream with
  | none => rw [hc] at h; cases h; exact Shape.same rfl rfl
  | some p =>
    obtain ⟨a, rest⟩ := p
    rw [hc] at h
    cases c with
    | REPLICATION_LEADER_VERSION =>
      simp only [onLeaderVersion] at h
      split_ifs at h with h1
      · cases h; exact Shape.same rfl rfl
      · cases hd : decodeVersionAndState rest with
        | none => rw [hd] at h; cases h
        | some v =>
          rw [hd] at h
          have hb : (checkVersionSynchronization env s).m_state = ReplicatorState.BACKUP := by
            simpa using not_not.1 h1
          simp only [backupSelection_eq _ _ hb, Outcome.bind] at h
          split_ifs at h <;> cases h <;> exact Shape.same (by simp) (by simp)
    | REPLICATION_TRANSFER_FILE =>
      simp only [onTransferFile, Outcome.ok.injEq] at h
      subst h
      split_ifs
      · simp only [upload, RSM.emit]; split_ifs <;> exact Shape.same rfl rfl
      · exact Shape.same rfl rfl
    | REPLICATION_SOLICIT_VERSION =>
      simp only [onSolicitVersion, Outcome.ok.injEq] at h
      subst h
      split_ifs <;> exact Shape.same rfl rfl
    | REPLICATION_SOLICIT_VERSION_REPLY =>
      simp only [onSolicitVersionReply, Outcome.ok.injEq] at h
      subst h
      split_ifs with h1
      · split
        · exact Or.inl ⟨rfl, Or.inr h1⟩
        · exact Shape.same rfl rfl
      · exact Shape.same rfl rfl
    | REPLICATION_NEWLY_JOINED_VERSION =>
      simp only [onNewlyJoinedVersion, Outcome.ok.injEq] at h
      subst h; exact Shape.same rfl rfl
    | REPLICATION_GIVING_UP_VERSION =>
      simp only [onGivingUpVersion] at h
      split_ifs at h
      · obtain ⟨g, rfl⟩ := gidSelectionHandler_frame _ _ _ _ h
        exact Shape.same rfl rfl
      · cases h; exact Shape.same rfl rfl
    | HAD_BEFORE_PASSIVE_STATE =>
      simp only [beforePassiveStateHandler] at h
      split_ifs at h with h1
      · cases h
        exact Or.inl ⟨by simp [registerTimer, requestVersions, broadcastVersion, RSM.emit],
          Or.inr h1⟩
    | HAD_AFTER_ELECTION_STATE =>
      simp only [afterElectionStateHandler] at h
      split_ifs at h with h1 h2
      · cases h; exact Shape.same rfl rfl
      · have hb : s.m_state = ReplicatorState.BACKUP := by
          cases hst : s.m_state <;> simp_all
        exact becomeLeader_shape fuel env s t hb h
    | HAD_AFTER_LEADER_STATE =>
      simp only [afterLeaderStateHandler, Outcome.ok.injEq] at h
      subst h
      split_ifs with h1 h2
      · exact Shape.same rfl rfl
      · exact Shape.same rfl rfl
      · have hl : s.m_state = ReplicatorState.REPLICATION_LEADER := by
          cases hst : s.m_state <;> simp_all
        exact Or.inr (Or.inr (Or.inl ⟨hl, rfl, rfl⟩))
    | HAD_IN_LEADER_STATE =>
      simp only [inLeaderStateHandler] at h
      split_ifs at h with h1 h2
      · cases h; exact Shape.same rfl rfl
      · exact becomeLeader_shape fuel env s t h2 h
      · cases h; exact Shape.same rfl rfl

theorem replicationTimer_versionsList (env : Env) (s : RSM) :
    (replicationTimer env s).m_versionsList = s.m_versionsList := by
  simp only [replicationTimer, registerTimer, killStuckDownloadingTransferer_state,
    killStuckUploadingTransferers_state, broadcastVersion, RSM.emit, synchronize_fst]
  split_ifs <;> simp

theorem replicationTimer_shape (env : Env) (s : RSM) : Shape s (replicationTimer env s) := by
  have hl := replicationTimer_versionsList env s
  cases hst : s.m_state with
  | VERSION_REQUESTING =>
    exact Shape.same (by simp [replicationTimer, registerTimer, hst]) hl
  | VERSION_DOWNLOADING =>
    exact Shape.same (by rw [(replicationTimer_downloading env s hst).1, hst]) hl
  | BACKUP =>
    refine Shape.same ?_ hl
    simp [replicationTimer, registerTimer, hst]
  | REPLICATION_LEADER =>
    by_cases hgt : toInt32 env.now - s.m_lastHadAliveTime > s.m_hadAliveTolerance
    · exact Or.inr (Or.inr (Or.inl ⟨hst,
        by rw [replicationTimer_leader_state env s hst, if_pos hgt], hl⟩))
    · exact Shape.same (by rw [replicationTimer_leader_state env s hst, if_neg hgt, hst]) hl

/-- State and versions list after any event. -/
theorem step_shape (fuel : Nat) (env : Env) (e : Event) (s t : RSM)
    (h : step fuel env e s = Outcome.ok t) : Shape s t := by
  cases e with
  | command c stream => exact commandHandler_shape fuel env c stream s t h
  | timer id =>
    rw [step_timer] at h
    cases hk : registeredTimerKind s id with
    | none => rw [hk] at h; cases h; exact Shape.same rfl rfl
    | some k =>
      rw [hk] at h
      cases k with
      | replication =>
        simp only [Outcome.ok.injEq] at h
        subst h
        exact replicationTimer_shape env { s with timers := s.timers.filter (fun u => u.id != id) }
      | versionRequesting =>
        simp only at h
        obtain ⟨b, best, u, _, hrun, htrue, hfalse, _⟩ := versionRequestingTimer_cases env
          { s with timers := s.timers.filter (fun u => u.id != id) }
        rw [hrun] at h
        cases h
        cases b with
        | true => exact Or.inr (Or.inr (Or.inr (Or.inl (htrue rfl).2.2.2.1)))
        | false => exact Or.inr (Or.inr (Or.inr (Or.inr (hfalse rfl).2)))
      | versionDownloading =>
        simp only [Outcome.ok.injEq] at h
        subst h
        exact Or.inr (Or.inr (Or.inr (Or.inr
          ⟨rfl, versionDownloadingTimer_versionsList _ _⟩)))
  | downloadReaper pid exitStatus =>
    simp only [step, Outcome.ok.injEq] at h
    subst h
    obtain ⟨h1, h2, _⟩ := downloadReplicaTransfererReaper_cases env pid exitStatus s
    by_cases hc : (abstractDownloadReplicaTransfererReaper pid exitStatus s).1 =
        TRANSFERER_TRUE ∧ s.m_state = ReplicatorState.VERSION_DOWNLOADING
    · exact Or.inr (Or.inr (Or.inr (Or.inr (h1 hc))))
    · exact Shape.same (h2 hc).1 (h2 hc).2.1
  | uploadReaper pid exitStatus =>
    simp only [step, Outcome.ok.injEq] at h
    subst h
    exact Shape.same rfl rfl

/-- In every reachable state of `BACKUP` or `REPLICATION_LEADER` the versions list is
empty. -/
theorem reachable_versionsList (s : RSM) (hr : Reachable s)
    (hs : s.m_state = ReplicatorState.BACKUP ∨ s.m_state = ReplicatorState.REPLICATION_LEADER) :
    s.m_versionsList = [] := by
  induction hr with
  | start ri ml nj tol v vp sp s h => exact (initialState_state _ _ _ _ _ _ _ _ h).2
  | next fuel env e s t _ hstep ih =>
    rcases step_shape fuel env e s t hstep with ⟨h1, h2⟩ | ⟨h1, _, h3⟩ | ⟨h1, _, h3⟩ | h1 | h1
    · rw [h1] at hs
      rcases h2 with h2 | h2
      · rw [h2]; exact ih hs
      · rw [h2] at hs
        rcases hs with hs | hs <;> cases hs
    · rw [h3]; exact ih (Or.inl h1)
    · rw [h3]; exact ih (Or.inr h1)
    · rw [h1] at hs
      rcases hs with hs | hs <;> cases hs
    · exact h1.2

theorem exampleReachedBackup_reachable : Reachable exampleReachedBackup := by
  have h0 : exampleInitial = Outcome.ok (exampleInitial.getD
      (constructed Version.empty "Version" "State")) := by decide
  refine reachable_run 0 [(exampleEnv 10, Event.timer 1)]
    (exampleInitial.getD (constructed Version.empty "Version" "State")) _
    (Reachable.start _ _ _ _ _ _ _ _ h0) ?_
  decide

/-- C27: in every reachable state the versions list is empty whenever the state is
`BACKUP` or `REPLICATION_LEADER`; consequently, in every reachable state,
whatever `gidSelectionHandler` returns is the machine as it was (it returns it
in `BACKUP` and `REPLICATION_LEADER`, for every stream of `rand( )` and every
number of allowed iterations), so that the gid of the local version is
unchanged: `becomeLeader` in `BACKUP` only sets the time and the state, and
`onGivingUpVersion` in `REPLICATION_LEADER` returns the machine as it was. -/
theorem reachable_gid_unchanged (s : RSM) (hr : Reachable s) :
    (s.m_state = ReplicatorState.BACKUP ∨ s.m_state = ReplicatorState.REPLICATION_LEADER →
      s.m_versionsList = []) ∧
    (∀ fuel env t, gidSelectionHandler fuel env s = Outcome.ok t →
      t = s ∧ t.m_myVersion.gid = s.m_myVersion.gid) ∧
    (s.m_state = ReplicatorState.BACKUP ∨ s.m_state = ReplicatorState.REPLICATION_LEADER →
      ∀ fuel env, gidSelectionHandler fuel env s = Outcome.ok s) ∧
    (s.m_state = ReplicatorState.BACKUP →
      ∀ fuel env, becomeLeader fuel env s =
        Outcome.ok { s with m_lastHadAliveTime := env.now,
                            m_state := ReplicatorState.REPLICATION_LEADER }) ∧
    (s.m_state = ReplicatorState.REPLICATION_LEADER →
      ∀ fuel env stream, onGivingUpVersion fuel env stream s = Outcome.ok s) := by
  have hlist := reachable_versionsList s hr
  have hgid : s.m_state = ReplicatorState.BACKUP ∨
      s.m_state = ReplicatorState.REPLICATION_LEADER →
      ∀ fuel env, gidSelectionHandler fuel env s = Outcome.ok s := by
    intro hs fuel env
    apply gidSelectionHandler_of_comparable fuel env s hs
    intro v hv
    rw [hlist hs] at hv
    cases hv
  refine ⟨hlist, ?_, hgid, ?_, ?_⟩
  · intro fuel env t ht
    by_cases hs : s.m_state = ReplicatorState.BACKUP ∨
        s.m_state = ReplicatorState.REPLICATION_LEADER
    · rw [hgid hs fuel env] at ht
      cases ht
      exact ⟨rfl, rfl⟩
    · simp only [gidSelectionHandler, hs, if_false] at ht
      cases ht
  · intro hs fuel env
    apply becomeLeader_returns_of_comparable fuel env s hs
    intro v hv
    rw [hlist (Or.inl hs)] at hv
    cases hv
  · intro hs fuel env stream
    simp only [onGivingUpVersion, hs, if_true]
    exact hgid (Or.inr hs) fuel env

/-- C27, example: the backup reached after a start without peer versions has an
empty versions list and keeps its local version in `gidSelectionHandler`. -/
theorem reachable_gid_unchanged_witness :
    exampleReachedBackup.m_state = ReplicatorState.BACKUP ∧
    exampleReachedBackup.m_versionsList = [] ∧
    gidSelectionHandler 0 exampleRandEnv exampleReachedBackup =
      Outcome.ok exampleReachedBackup :=
  ⟨by decide,
   (reachable_gid_unchanged exampleReachedBackup exampleReachedBackup_reachable).1
     (Or.inl (by decide)),
   (reachable_gid_unchanged exampleReachedBackup exampleReachedBackup_reachable).2.2.1
     (Or.inl (by decide)) 0 exampleRandEnv⟩

/-- A command of a peer does not change the state. -/
theorem commandHandler_peer_state (fuel : Nat) (env : Env) (c : Command) (stream : WireStream)
    (s t : RSM) (hc : c.isPeerCommand = true)
    (h : commandHandler fuel env c stream s = Outcome.ok t) : t.m_state = s.m_state := by
  unfold commandHandler at h
  cases hcs : codeString stream with
  | none => rw [hcs] at h; cases h; rfl
  | some p =>
    obtain ⟨a, rest⟩ := p
    rw [hcs] at h
    cases c with
    | REPLICATION_LEADER_VERSION =>
      simp only [onLeaderVersion] at h
      split_ifs at h with h1
      · cases h; rfl
      · cases hd : decodeVersionAndState rest with
        | none => rw [hd] at h; cases h
        | some v =>
          rw [hd] at h
          have hb : (checkVersionSynchronization env s).m_state = ReplicatorState.BACKUP := by
            simpa using not_not.1 h1
          simp only [backupSelection_eq _ _ hb, Outcome.bind] at h
          split_ifs at h <;> cases h <;> simp
    | REPLICATION_TRANSFER_FILE =>
      simp only [onTransferFile, Outcome.ok.injEq] at h
      subst h
      split_ifs
      · simp only [upload, RSM.emit]; split_ifs <;> rfl
      · rfl
    | REPLICATION_SOLICIT_VERSION =>
      simp only [onSolicitVersion, Outcome.ok.injEq] at h
      subst h
      split_ifs <;> rfl
    | REPLICATION_SOLICIT_VERSION_REPLY =>
      simp only [onSolicitVersionReply, Outcome.ok.injEq] at h
      subst h
      split_ifs
      · split <;> rfl
      · rfl
    | REPLICATION_NEWLY_JOINED_VERSION =>
      simp only [onNewlyJoinedVersion, Outcome.ok.injEq] at h
      subst h; rfl
    | REPLICATION_GIVING_UP_VERSION =>
      simp only [onGivingUpVersion] at h
      split_ifs at h
      · exact (gidSelectionHandler_state _ _ _ _ h).1
      · cases h; rfl
    | HAD_BEFORE_PASSIVE_STATE => cases hc
    | HAD_AFTER_ELECTION_STATE => cases hc
    | HAD_AFTER_LEADER_STATE => cases hc
    | HAD_IN_LEADER_STATE => cases hc

/-- C28: for every command, expiry of a timer and exit of a transferer whose handler
returns, if the state after the handler is `REPLICATION_LEADER` and the state
before it was not, then the state before it was `BACKUP`; and a command of a
peer (`REPLICATION_...`) whose handler returns leaves the state as it was. -/
theorem leader_only_from_backup (fuel : Nat) (env : Env) (s t : RSM) :
    (∀ e, step fuel env e s = Outcome.ok t →
      t.m_state = ReplicatorState.REPLICATION_LEADER →
      s.m_state ≠ ReplicatorState.REPLICATION_LEADER →
      s.m_state = ReplicatorState.BACKUP) ∧
    (∀ c stream, c.isPeerCommand = true →
      step fuel env (Event.command c stream) s = Outcome.ok t → t.m_state = s.m_state) := by
  constructor
  · intro e hstep ht hs
    rcases step_shape fuel env e s t hstep with ⟨h1, _⟩ | ⟨h1, _, _⟩ | ⟨_, h2, _⟩ | h1 | h1
    · exact absurd (h1.symm.trans ht) hs
    · exact h1
    · rw [h2] at ht; cases ht
    · rw [h1] at ht; cases ht
    · rw [h1.1] at ht; cases ht
  · intro c stream hc hstep
    exact commandHandler_peer_state fuel env c stream s t hc hstep

/-- C28, example: the backup reached after a start without peer versions becomes
leader on `HAD_IN_LEADER_STATE`, and the state before was `BACKUP`. -/
theorem leader_only_from_backup_witness :
    ((step 0 (exampleEnv 20) (Event.command Command.HAD_IN_LEADER_STATE [Item.str "had"])
      exampleReachedBackup).getD exampleReachedBackup).m_state =
      ReplicatorState.REPLICATION_LEADER ∧
    exampleReachedBackup.m_state = ReplicatorState.BACKUP :=
  ⟨by decide,
   (leader_only_from_backup 0 (exampleEnv 20) exampleReachedBackup
    ((step 0 (exampleEnv 20) (Event.command Command.HAD_IN_LEADER_STATE [Item.str "had"])
      exampleReachedBackup).getD exampleReachedBackup)).1
    (Event.command Command.HAD_IN_LEADER_STATE [Item.str "had"]) (by decide) (by decide)
    (by decide)⟩

end Replication

namespace Pandad

/-! ## The events the plugin sends inside a transaction -/

/-- Inside a transaction `newClassAd` puts the cluster of a job it does not ignore between
`lowestNewCluster` and `highestNewCluster`, so that `endTransaction` scans it. -/
theorem newClassAd_scanned (q : Schedd) (key : String) (p : PandadClassAdLogPlugin)
    (cluster proc : Int) (hk : shouldIgnoreJob q key = some (cluster, proc))
    (ht : p.inTransaction = true) :
    (newClassAd q key p).lowestNewCluster ≤ cluster ∧
      cluster ≤ (newClassAd q key p).highestNewCluster ∧
      (newClassAd q key p).inTransaction = true ∧
      (newClassAd q key p).pandad = p.pandad := by
  unfold newClassAd
  simp only [hk, ht]
  split_ifs <;> simp_all

/-- Inside a transaction the three calls send nothing for a cluster above
`lowestNewCluster`. -/
theorem silent_above_lowest (q : Schedd) (key attr : String) (value : Option String)
    (p : PandadClassAdLogPlugin) (cluster proc : Int)
    (hk : shouldIgnoreJob q key = some (cluster, proc)) (ht : p.inTransaction = true)
    (hc : p.lowestNewCluster < cluster) :
    setAttribute q key attr value p = p ∧ deleteAttribute q key attr p = p ∧
      destroyClassAd q key p = p := by
  unfold setAttribute deleteAttribute destroyClassAd
  simp only [hk, ht]
  simp [hc]

/-- Inside a transaction `destroyClassAd` and `setAttribute` send their event for a job of
the cluster `lowestNewCluster` itself, whenever the job has a global job id. -/
theorem sent_at_lowest (q : Schedd) (key attr value globalJobID : String)
    (p : PandadClassAdLogPlugin) (proc : Int)
    (hk : shouldIgnoreJob q key = some (p.lowestNewCluster, proc))
    (hg : getGlobalJobID q p.lowestNewCluster proc = some globalJobID)
    (hp : proc ≠ -1) (ha : shouldIgnoreAttribute q attr = false) :
    destroyClassAd q key p = removePandaJob globalJobID p ∧
      setAttribute q key attr (some value) p =
        updatePandaJob q globalJobID attr (some value) p := by
  unfold setAttribute destroyClassAd
  simp only [hk, hg]
  simp [hp, ha]

/-- C29: inside the transaction that has created the job `5.0`, whose cluster 5 is the one
cluster `endTransaction` will scan, `setAttribute`, `destroyClassAd` and `deleteAttribute`
each send an event for that job, because they return early only for a cluster above
`lowestNewCluster`; `endTransaction` then reports the job once more. -/
theorem events_for_lowest_new_cluster :
    exampleCreated.inTransaction = true ∧
    exampleCreated.pandad = [] ∧
    scannedClusters exampleCreated = [5] ∧
    shouldIgnoreJob exampleSchedd "5.0" = some (5, 0) ∧
    (setAttribute exampleSchedd "5.0" "Owner" (some "\"bob\"") exampleCreated).pandad =
      [PandaEvent.UPDATE "submit#5.0#1400000000" "owner" "\"bob\""] ∧
    (destroyClassAd exampleSchedd "5.0" exampleCreated).pandad =
      [PandaEvent.REMOVE "submit#5.0#1400000000"] ∧
    (deleteAttribute exampleSchedd "5.0" "GlobalJobId" exampleCreated).pandad =
      [PandaEvent.REMOVE "submit#5.0#1400000000"] ∧
    (endTransaction exampleSchedd 2
        (setAttribute exampleSchedd "5.0" "Owner" (some "\"bob\"") exampleCreated)).map
        (fun p => p.pandad) =
      some [PandaEvent.UPDATE "submit#5.0#1400000000" "owner" "\"bob\"",
            PandaEvent.ADD "submit#5.0#1400000000" "5.0",
            PandaEvent.UPDATE "submit#5.0#1400000000" "owner" "\"alice\""] := by
  decide

/-! ## The buffer of `unquote` -/

/-- The copy loop writes inside the buffer only. -/
theorem copyLoop_index (q : List Char) (i : Nat) (w : Nat × Char) (hw : w ∈ copyLoop q i) :
    w.1 < bufferSize := by
  induction q generalizing i with
  | nil => simp [copyLoop] at hw
  | cons c rest ih =>
    unfold copyLoop at hw
    split_ifs at hw with h
    · rcases List.mem_cons.1 hw with rfl | hw
      · exact h
      · exact ih _ hw
    · simp at hw

/-- The copy loop stops at the end of the input or of the buffer. -/
theorem copyLoop_length (q : List Char) (i : Nat) :
    (copyLoop q i).length = min q.length (bufferSize - i) := by
  induction q generalizing i with
  | nil => simp [copyLoop]
  | cons c rest ih =>
    unfold copyLoop
    split_ifs with h
    · simp only [List.length_cons, ih]; omega
    · simp only [List.length_nil, List.length_cons]; omega

/-- The writes of `unquote`: the copy, the terminator behind it, and at most one more
terminator on the last character copied. -/
theorem unquote_writes (q : List Char) :
    (unquote (some q)).writes =
        copyLoop q 0 ++ [(min q.length bufferSize, NUL)] ∨
      (0 < min q.length bufferSize ∧
        (unquote (some q)).writes =
          (copyLoop q 0 ++ [(min q.length bufferSize, NUL)]) ++
            [(min q.length bufferSize - 1, NUL)]) := by
  have hl := copyLoop_length q 0
  simp only [Nat.sub_zero] at hl
  unfold unquote
  simp only [hl]
  split_ifs with h1 h2 h2
  · exact Or.inr ⟨h1.1, rfl⟩
  · exact Or.inr ⟨h1.1, rfl⟩
  · exact Or.inl rfl
  · exact Or.inl rfl

/-- All writes of `unquote` fall inside the buffer exactly when the input is shorter than the
buffer. -/
theorem unquote_in_bounds_iff (q : List Char) :
    (∀ w ∈ (unquote (some q)).writes, w.1 < bufferSize) ↔ q.length < bufferSize := by
  constructor
  · intro h
    have hm : (min q.length bufferSize, NUL) ∈ (unquote (some q)).writes := by
      rcases unquote_writes q with hw | ⟨_, hw⟩ <;> rw [hw] <;> simp
    have := h _ hm
    simp only at this
    omega
  · intro h w hw
    rcases unquote_writes q with hq | ⟨h0, hq⟩ <;> rw [hq] at hw <;>
      simp only [List.mem_append, List.mem_singleton] at hw
    · rcases hw with hw | rfl
      · exact copyLoop_index _ _ _ hw
      · simp only; omega
    · rcases hw with (hw | rfl) | rfl
      · exact copyLoop_index _ _ _ hw
      · simp only; omega
      · simp only; omega

/-- The cell `i` after one more write. -/
theorem bufferAt_append (w : List (Nat × Char)) (j : Nat) (c : Char) (i : Nat) :
    bufferAt (w ++ [(j, c)]) i = if j = i then c else bufferAt w i := by
  simp [bufferAt, List.foldl_append]

/-- The cells after a copy that fits the buffer hold the characters of the input. -/
theorem foldl_copyLoop (q : List Char) (k i : Nat) (init : Char)
    (h : k + q.length ≤ bufferSize) :
    (copyLoop q k).foldl (fun c w => if w.1 = i then w.2 else c) init =
      if k ≤ i then q.getD (i - k) init else init := by
  induction q generalizing k init with
  | nil => simp [copyLoop]
  | cons c rest ih =>
    simp only [List.length_cons] at h
    have hk : k < bufferSize := by omega
    simp only [copyLoop, hk, if_true, List.foldl_cons]
    rw [ih (k + 1) _ (by omega)]
    by_cases h1 : k + 1 ≤ i
    · have h2 : k ≤ i := by omega
      have h3 : ¬ k = i := by omega
      have h4 : i - k = (i - (k + 1)) + 1 := by omega
      simp only [h1, h2, h3, if_true, if_false]
      rw [h4, List.getD_cons_succ]
    · by_cases h2 : k = i
      · subst h2
        simp
      · have h3 : ¬ k ≤ i := by omega
        simp [h1, h2, h3]

/-- Reading a C string from cells that hold the characters of `l` and then `NUL`. -/
theorem cString_eq (w : List (Nat × Char)) (l : List Char) (fuel start : Nat)
    (hm : ∀ j, bufferAt w (start + j) = l.getD j NUL) (hn : NUL ∉ l) (hf : l.length < fuel) :
    cString w fuel start = l := by
  induction l generalizing fuel start with
  | nil =>
    cases fuel with
    | zero => simp at hf
    | succ f =>
      have h0 := hm 0
      simp only [Nat.add_zero, List.getD_nil] at h0
      simp [cString, h0]
  | cons c l ih =>
    cases fuel with
    | zero => simp at hf
    | succ f =>
      have h0 := hm 0
      simp only [Nat.add_zero, List.getD_cons_zero] at h0
      have hc : c ≠ NUL := fun h => hn (by simp [h])
      simp only [cString, h0, hc, if_false]
      congr 1
      apply ih
      · intro j
        have := hm (j + 1)
        simp only [List.getD_cons_succ] at this
        rw [← this]
        congr 1
        omega
      · exact fun h => hn (List.mem_cons_of_mem _ h)
      · simp only [List.length_cons] at hf
        omega

/-- The entries of a list without its last one. -/
theorem getD_dropLast (q : List Char) (i : Nat) (d : Char) :
    q.dropLast.getD i d = if q.length - 1 = i then d else q.getD i d := by
  simp only [List.getD_eq_getElem?_getD]
  by_cases h : i < q.length - 1
  · have h1 : ¬ q.length - 1 = i := by omega
    simp only [h1, if_false]
    rw [List.getElem?_eq_getElem (by simp; omega), List.getElem?_eq_getElem (by omega)]
    simp [List.getElem_dropLast]
  · rw [List.getElem?_eq_none (by simp; omega)]
    by_cases h1 : q.length - 1 = i
    · simp [h1]
    · simp only [h1, if_false]
      rw [List.getElem?_eq_none (by omega)]

/-- For an input shorter than the buffer and without `NUL`, the string `unquote` returns is
the input with one trailing and one leading double quote removed when present. -/
theorem unquote_short (q : List Char) (hq : q.length < bufferSize) (hn : NUL ∉ q) :
    (unquote (some q)).result = withoutQuotes q := by
  have hl : (copyLoop q 0).length = q.length := by
    rw [copyLoop_length]; simp only [Nat.sub_zero]; omega
  have hm1 : ∀ i, bufferAt (copyLoop q 0 ++ [(q.length, NUL)]) i = q.getD i NUL := by
    intro i
    rw [bufferAt_append, bufferAt, foldl_copyLoop q 0 i NUL (by omega)]
    simp only [Nat.zero_le, if_true, Nat.sub_zero]
    split_ifs with h
    · subst h
      simp [List.getD_eq_getElem?_getD]
    · rfl
  have hlast : (0 < q.length ∧ q.getD (q.length - 1) NUL = '"') ↔ q.getLast? = some '"' := by
    rw [List.getD_eq_getElem?_getD, ← List.getLast?_eq_getElem?]
    cases hg : q.getLast? with
    | none =>
      simp only [Option.getD_none]
      constructor
      · rintro ⟨_, h⟩; exact absurd h (by decide)
      · intro h; cases h
    | some c =>
      have : q ≠ [] := by rintro rfl; simp at hg
      have := List.length_pos.2 this
      simp [this]
  have hmem : ∀ i, bufferAt (if 0 < q.length ∧
        bufferAt (copyLoop q 0 ++ [(q.length, NUL)]) (q.length - 1) = '"' then
          (copyLoop q 0 ++ [(q.length, NUL)]) ++ [(q.length - 1, NUL)]
        else copyLoop q 0 ++ [(q.length, NUL)]) i =
      (if q.getLast? = some '"' then q.dropLast else q).getD i NUL := by
    intro i
    rw [hm1]
    simp only [hlast]
    split_ifs with h
    · rw [bufferAt_append, hm1, getD_dropLast]
    · exact hm1 i
  generalize hq1 : (if q.getLast? = some '"' then q.dropLast else q) = q1 at hmem
  have hq1n : NUL ∉ q1 := by
    rw [← hq1]
    split_ifs
    · exact fun h => hn (List.mem_of_mem_dropLast h)
    · exact hn
  have hq1l : q1.length ≤ q.length := by
    rw [← hq1]
    split_ifs
    · simp
    · exact le_rfl
  have hhead : q1.getD 0 NUL = '"' ↔ q1.head? = some '"' := by
    cases q1 with
    | nil => simp only [List.getD_nil, List.head?_nil]; constructor
             · intro h; exact absurd h (by decide)
             · intro h; cases h
    | cons c l => simp
  unfold unquote Unquoted.result withoutQuotes
  simp only [hl, hq1]
  generalize hw : (if 0 < q.length ∧
        bufferAt (copyLoop q 0 ++ [(q.length, NUL)]) (q.length - 1) = '"' then
          (copyLoop q 0 ++ [(q.length, NUL)]) ++ [(q.length - 1, NUL)]
        else copyLoop q 0 ++ [(q.length, NUL)]) = w at hmem
  rw [hmem 0]
  simp only [hhead]
  split_ifs with h
  · apply cString_eq
    · intro j
      rw [hmem]
      cases q1 with
      | nil => simp
      | cons c l => simp [Nat.add_comm 1 j]
    · exact fun h => hq1n (List.mem_of_mem_tail h)
    · have : q1.tail.length ≤ q1.length := by simp
      omega
  · apply cString_eq
    · intro j
      rw [hmem]
      simp
    · exact hq1n
    · omega

set_option maxRecDepth 100000 in
/-- C30: for an input of 128 characters `unquote` fills the 128 cells of its buffer with
characters other than `NUL` and writes the terminator at index 128, behind the buffer. -/
theorem unquote_overflows_buffer :
    (bufferSize, NUL) ∈ (unquote (some (List.replicate 128 (Char.ofNat 97)))).writes ∧
    ¬ (∀ w ∈ (unquote (some (List.replicate 128 (Char.ofNat 97)))).writes, w.1 < bufferSize) ∧
    (∀ i, i < bufferSize →
      bufferAt (unquote (some (List.replicate 128 (Char.ofNat 97)))).writes i ≠ NUL) := by
  decide

end Pandad

namespace Replication

/-! ## Two leaders at the same time -/

theorem replicationTimer_lastHadAliveTime (env : Env) (s : RSM) :
    (replicationTimer env s).m_lastHadAliveTime = s.m_lastHadAliveTime ∧
    (replicationTimer env s).m_hadAliveTolerance = s.m_hadAliveTolerance := by
  simp only [replicationTimer, registerTimer, broadcastVersion, RSM.emit]
  split_ifs <;> simp

/-- After the replication timer, a machine is `REPLICATION_LEADER` only if it was one
before and the `int` that holds the time is not more than the tolerance after the last
message of HAD. -/
theorem replicationTimer_stays_leader (env : Env) (s : RSM)
    (h : (replicationTimer env s).m_state = ReplicatorState.REPLICATION_LEADER) :
    s.m_state = ReplicatorState.REPLICATION_LEADER ∧
    toInt32 env.now - s.m_lastHadAliveTime ≤ s.m_hadAliveTolerance := by
  cases hst : s.m_state with
  | REPLICATION_LEADER =>
    refine ⟨rfl, ?_⟩
    by_contra hn
    rw [replicationTimer_leader_state env s hst, if_pos (by omega)] at h
    cases h
  | VERSION_REQUESTING =>
    have : (replicationTimer env s).m_state = ReplicatorState.VERSION_REQUESTING := by
      simp [replicationTimer, registerTimer, hst]
    rw [this] at h; cases h
  | VERSION_DOWNLOADING =>
    rw [(replicationTimer_downloading env s hst).1] at h; cases h
  | BACKUP =>
    have : (replicationTimer env s).m_state = ReplicatorState.BACKUP := by
      simp [replicationTimer, registerTimer, hst]
    rw [this] at h; cases h

theorem LeaderTime.unchanged {env : Env} {e : Event} {s t : RSM}
    (hn : e.isLeaderNotification = false) (h1 : t.m_state = s.m_state)
    (h2 : t.m_lastHadAliveTime = s.m_lastHadAliveTime) : LeaderTime env e s t :=
  fun hl => Or.inr ⟨hn, h1 ▸ hl, h2⟩

theorem LeaderTime.of_ne {env : Env} {e : Event} {s t : RSM}
    (h : t.m_state ≠ ReplicatorState.REPLICATION_LEADER) : LeaderTime env e s t :=
  fun hl => absurd hl h

/-- The record of HAD after a command. -/
theorem commandHandler_leaderTime (fuel : Nat) (env : Env) (c : Command) (stream : WireStream)
    (s t : RSM) (h : commandHandler fuel env c stream s = Outcome.ok t) :
    LeaderTime env (Event.command c stream) s t := by
  unfold commandHandler at h
  cases hc : codeString stream with
  | none =>
    rw [hc] at h; cases h
    exact LeaderTime.unchanged (by cases c <;> simp [Event.isLeaderNotification, hc]) rfl rfl
  | some p =>
    obtain ⟨a, rest⟩ := p
    rw [hc] at h
    cases c with
    | REPLICATION_LEADER_VERSION =>
      simp only [onLeaderVersion] at h
      split_ifs at h with h1
      · cases h; exact LeaderTime.unchanged rfl rfl rfl
      · cases hd : decodeVersionAndState rest with
        | none => rw [hd] at h; cases h
        | some v =>
          rw [hd] at h
          have hb : (checkVersionSynchronization env s).m_state = ReplicatorState.BACKUP := by
            simpa using not_not.1 h1
          simp only [backupSelection_eq _ _ hb, Outcome.bind] at h
          split_ifs at h <;> cases h <;> exact LeaderTime.unchanged rfl (by simp) (by simp)
    | REPLICATION_TRANSFER_FILE =>
      simp only [onTransferFile, Outcome.ok.injEq] at h
      subst h
      split_ifs
      · simp only [upload, RSM.emit]; split_ifs <;> exact LeaderTime.unchanged rfl rfl rfl
      · exact LeaderTime.unchanged rfl rfl rfl
    | REPLICATION_SOLICIT_VERSION =>
      simp only [onSolicitVersion, Outcome.ok.injEq] at h
      subst h
      split_ifs <;> exact LeaderTime.unchanged rfl rfl rfl
    | REPLICATION_SOLICIT_VERSION_REPLY =>
      simp only [onSolicitVersionReply, Outcome.ok.injEq] at h
      subst h
      split_ifs with h1
      · split <;> exact LeaderTime.unchanged rfl rfl rfl
      · exact LeaderTime.unchanged rfl rfl rfl
    | REPLICATION_NEWLY_JOINED_VERSION =>
      simp only [onNewlyJoinedVersion, Outcome.ok.injEq] at h
      subst h; exact LeaderTime.unchanged rfl rfl rfl
    | REPLICATION_GIVING_UP_VERSION =>
      simp only [onGivingUpVersion] at h
      split_ifs at h
      · obtain ⟨g, rfl⟩ := gidSelectionHandler_frame _ _ _ _ h
        exact LeaderTime.unchanged rfl rfl rfl
      · cases h; exact LeaderTime.unchanged rfl rfl rfl
    | HAD_BEFORE_PASSIVE_STATE =>
      simp only [beforePassiveStateHandler] at h
      split_ifs at h with h1
      · cases h
        exact LeaderTime.unchanged rfl
          (by simp [registerTimer, requestVersions, broadcastVersion, RSM.emit])
          (by simp [registerTimer, requestVersions, broadcastVersion, RSM.emit])
    | HAD_AFTER_ELECTION_STATE =>
      simp only [afterElectionStateHandler] at h
      split_ifs at h with h1 h2
      · cases h
        intro hl
        rcases h2 with h2 | h2 <;> rw [h2] at hl <;> cases hl
      · intro _
        obtain ⟨u, _, _, h3, _⟩ := becomeLeader_ok fuel env s t h
        exact Or.inl ⟨by simp [Event.isLeaderNotification, hc], h3⟩
    | HAD_AFTER_LEADER_STATE =>
      simp only [afterLeaderStateHandler, Outcome.ok.injEq] at h
      subst h
      split_ifs with h1 h2
      · exact LeaderTime.unchanged rfl rfl rfl
      · exact LeaderTime.unchanged rfl rfl rfl
      · exact LeaderTime.of_ne (by simp)
    | HAD_IN_LEADER_STATE =>
      simp only [inLeaderStateHandler] at h
      split_ifs at h with h1 h2
      · cases h
        intro hl
        rcases h1 with h1 | h1 <;> rw [h1] at hl <;> cases hl
      · intro _
        obtain ⟨u, _, _, h3, _⟩ := becomeLeader_ok fuel env s t h
        exact Or.inl ⟨by simp [Event.isLeaderNotification, hc], h3⟩
      · cases h
        intro _
        exact Or.inl ⟨by simp [Event.isLeaderNotification, hc], rfl⟩

/-- The record of HAD after any event. -/
theorem step_leaderTime (fuel : Nat) (env : Env) (e : Event) (s t : RSM)
    (h : step fuel env e s = Outcome.ok t) : LeaderTime env e s t := by
  cases e with
  | command c stream => exact commandHandler_leaderTime fuel env c stream s t h
  | timer id =>
    rw [step_timer] at h
    cases hk : registeredTimerKind s id with
    | none => rw [hk] at h; cases h; exact LeaderTime.unchanged rfl rfl rfl
    | some k =>
      rw [hk] at h
      cases k with
      | replication =>
        simp only [Outcome.ok.injEq] at h
        subst h
        intro hl
        exact Or.inr ⟨rfl, (replicationTimer_stays_leader env _ hl).1,
          (replicationTimer_lastHadAliveTime env _).1⟩
      | versionRequesting =>
        simp only at h
        obtain ⟨b, best, u, _, hrun, htrue, hfalse, _⟩ := versionRequestingTimer_cases env
          { s with timers := s.timers.filter (fun u => u.id != id) }
        rw [hrun] at h
        cases h
        cases b with
        | true => exact LeaderTime.of_ne (by rw [(htrue rfl).2.2.2.1]; decide)
        | false => exact LeaderTime.of_ne (by rw [(hfalse rfl).2.1]; decide)
      | versionDownloading =>
        simp only [Outcome.ok.injEq] at h
        subst h
        exact LeaderTime.of_ne (by simp)
  | downloadReaper pid exitStatus =>
    simp only [step, Outcome.ok.injEq] at h
    subst h
    simp only [downloadReplicaTransfererReaper]
    split_ifs
    · exact LeaderTime.of_ne (by simp)
    · refine LeaderTime.unchanged rfl (abstractDownloadReplicaTransfererReaper_core _ _ _).1 ?_
      simp only [abstractDownloadReplicaTransfererReaper, RSM.emit]
      split_ifs <;> rfl
  | uploadReaper pid exitStatus =>
    simp only [step, Outcome.ok.injEq] at h
    subst h
    exact LeaderTime.unchanged rfl rfl rfl

/-- After a sequence of events, a leader holds in `m_lastHadAliveTime` the time of the last
command by which HAD named it the leader. -/
theorem run_leaderTime (fuel : Nat) (trace : List (Env × Event)) :
    ∀ (s t : RSM) (earlier : Option Int),
      (s.m_state = ReplicatorState.REPLICATION_LEADER → earlier = some s.m_lastHadAliveTime) →
      run fuel trace s = Outcome.ok t → t.m_state = ReplicatorState.REPLICATION_LEADER →
      lastTime Event.isLeaderNotification earlier trace = some t.m_lastHadAliveTime := by
  induction trace with
  | nil =>
    intro s t earlier hinv hrun hl
    simp only [run, Outcome.ok.injEq] at hrun
    subst hrun
    exact hinv hl
  | cons x rest ih =>
    obtain ⟨env, e⟩ := x
    intro s t earlier hinv hrun hl
    simp only [run] at hrun
    cases hstep : step fuel env e s with
    | ok u =>
      rw [hstep] at hrun
      simp only [Outcome.bind] at hrun
      simp only [lastTime]
      refine ih u t _ ?_ hrun hl
      intro hu
      rcases step_leaderTime fuel env e s u hstep hu with ⟨hn, ht⟩ | ⟨hn, hs, ht⟩
      · rw [if_pos hn, ht]
      · rw [hn, if_neg (by decide), ht]
        exact hinv hs
    | assertionFailed => rw [hstep] at hrun; cases hrun
    | nullDereference => rw [hstep] at hrun; cases hrun
    | outOfFuel => rw [hstep] at hrun; cases hrun

/-- No command changes the tolerance. -/
theorem commandHandler_hadAliveTolerance (fuel : Nat) (env : Env) (c : Command)
    (stream : WireStream) (s t : RSM) (h : commandHandler fuel env c stream s = Outcome.ok t) :
    t.m_hadAliveTolerance = s.m_hadAliveTolerance := by
  unfold commandHandler at h
  cases hc : codeString stream with
  | none => rw [hc] at h; cases h; rfl
  | some p =>
    obtain ⟨a, rest⟩ := p
    rw [hc] at h
    cases c with
    | REPLICATION_LEADER_VERSION =>
      simp only [onLeaderVersion] at h
      split_ifs at h with h1
      · cases h; rfl
      · cases hd : decodeVersionAndState rest with
        | none => rw [hd] at h; cases h
        | some v =>
          rw [hd] at h
          have hb : (checkVersionSynchronization env s).m_state = ReplicatorState.BACKUP := by
            simpa using not_not.1 h1
          simp only [backupSelection_eq _ _ hb, Outcome.bind] at h
          split_ifs at h <;> cases h <;> simp
    | REPLICATION_TRANSFER_FILE =>
      simp only [onTransferFile, Outcome.ok.injEq] at h
      subst h
      split_ifs
      · simp only [upload, RSM.emit]; split_ifs <;> rfl
      · rfl
    | REPLICATION_SOLICIT_VERSION =>
      simp only [onSolicitVersion, Outcome.ok.injEq] at h
      subst h
      split_ifs <;> rfl
    | REPLICATION_SOLICIT_VERSION_REPLY =>
      simp only [onSolicitVersionReply, Outcome.ok.injEq] at h
      subst h
      split_ifs with h1
      · split <;> rfl
      · rfl
    | REPLICATION_NEWLY_JOINED_VERSION =>
      simp only [onNewlyJoinedVersion, Outcome.ok.injEq] at h
      subst h; rfl
    | REPLICATION_GIVING_UP_VERSION =>
      simp only [onGivingUpVersion] at h
      split_ifs at h
      · obtain ⟨g, rfl⟩ := gidSelectionHandler_frame _ _ _ _ h
        rfl
      · cases h; rfl
    | HAD_BEFORE_PASSIVE_STATE =>
      simp only [beforePassiveStateHandler] at h
      split_ifs at h with h1
      · cases h
        simp [registerTimer, requestVersions, broadcastVersion, RSM.emit]
    | HAD_AFTER_ELECTION_STATE =>
      simp only [afterElectionStateHandler] at h
      split_ifs at h with h1 h2
      · cases h; rfl
      · obtain ⟨u, hu, rfl, _, _⟩ := becomeLeader_ok fuel env s t h
        obtain ⟨g, rfl⟩ := gidSelectionHandler_frame _ _ _ _ hu
        rfl
    | HAD_AFTER_LEADER_STATE =>
      simp only [afterLeaderStateHandler, Outcome.ok.injEq] at h
      subst h
      split_ifs <;> rfl
    | HAD_IN_LEADER_STATE =>
      simp only [inLeaderStateHandler] at h
      split_ifs at h with h1 h2
      · cases h; rfl
      · obtain ⟨u, hu, rfl, _, _⟩ := becomeLeader_ok fuel env s t h
        obtain ⟨g, rfl⟩ := gidSelectionHandler_frame _ _ _ _ hu
        rfl
      · cases h; rfl

/-- No event changes the tolerance. -/
theorem step_hadAliveTolerance (fuel : Nat) (env : Env) (e : Event) (s t : RSM)
    (h : step fuel env e s = Outcome.ok t) : t.m_hadAliveTolerance = s.m_hadAliveTolerance := by
  cases e with
  | command c stream => exact commandHandler_hadAliveTolerance fuel env c stream s t h
  | timer id =>
    rw [step_timer] at h
    cases hk : registeredTimerKind s id with
    | none => rw [hk] at h; cases h; rfl
    | some k =>
      rw [hk] at h
      cases k with
      | replication =>
        simp only [Outcome.ok.injEq] at h
        subst h
        exact (replicationTimer_lastHadAliveTime env _).2
      | versionRequesting =>
        simp only [versionRequestingTimer] at h
        cases hsel : replicaSelectionHandler
            { s with timers := utilCancelTimer s.m_versionRequestingTimerId
                       (s.timers.filter (fun u => u.id != id)),
                     m_versionRequestingTimerId := cancelledId s.m_versionRequestingTimerId,
                     m_state := ReplicatorState.VERSION_DOWNLOADING } Version.empty with
        | ok r =>
          rw [hsel] at h
          simp only [Outcome.bind] at h
          split_ifs at h <;> cases h <;> simp [registerTimer, versionDownloadingTimer]
        | assertionFailed => rw [hsel] at h; cases h
        | nullDereference => rw [hsel] at h; cases h
        | outOfFuel => rw [hsel] at h; cases h
      | versionDownloading =>
        simp only [Outcome.ok.injEq] at h
        subst h
        simp [versionDownloadingTimer]
  | downloadReaper pid exitStatus =>
    simp only [step, Outcome.ok.injEq] at h
    subst h
    simp only [downloadReplicaTransfererReaper, abstractDownloadReplicaTransfererReaper, RSM.emit]
    split_ifs <;> simp [versionDownloadingTimer]
  | uploadReaper pid exitStatus =>
    simp only [step, Outcome.ok.injEq] at h
    subst h
    rfl

/-- The tolerance of a machine is the one it was started with. -/
theorem run_hadAliveTolerance (fuel : Nat) (trace : List (Env × Event)) :
    ∀ (s t : RSM), run fuel trace s = Outcome.ok t →
      t.m_hadAliveTolerance = s.m_hadAliveTolerance := by
  induction trace with
  | nil =>
    intro s t hrun
    simp only [run, Outcome.ok.injEq] at hrun
    subst hrun; rfl
  | cons x rest ih =>
    obtain ⟨env, e⟩ := x
    intro s t hrun
    simp only [run] at hrun
    cases hstep : step fuel env e s with
    | ok u =>
      rw [hstep] at hrun
      simp only [Outcome.bind] at hrun
      rw [ih u t hrun, step_hadAliveTolerance fuel env e s u hstep]
    | assertionFailed => rw [hstep] at hrun; cases hrun
    | nullDereference => rw [hstep] at hrun; cases hrun
    | outOfFuel => rw [hstep] at hrun; cases hrun

/-- C25, counterexample: two peers that became backups after their start and that received
`HAD_IN_LEADER_STATE` at the times 20 and 21 are both `REPLICATION_LEADER` at the time 22,
with a tolerance of 50, and none of them received its last `HAD_IN_LEADER_STATE` more than
the tolerance ago; both are still leaders after their replication timers fire at the
time 22. -/
theorem two_leaders_both_notified :
    exampleInitial.bind (run 0 (exampleLeaderTrace 20)) =
      Outcome.ok (exampleNotifiedLeader 20) ∧
    exampleInitial.bind (run 0 (exampleLeaderTrace 21)) =
      Outcome.ok (exampleNotifiedLeader 21) ∧
    lastTime Event.isInLeaderState none (exampleLeaderTrace 20) = some 20 ∧
    lastTime Event.isInLeaderState none (exampleLeaderTrace 21) = some 21 ∧
    (exampleNotifiedLeader 20).m_state = ReplicatorState.REPLICATION_LEADER ∧
    (exampleNotifiedLeader 21).m_state = ReplicatorState.REPLICATION_LEADER ∧
    (exampleNotifiedLeader 20).m_hadAliveTolerance = 50 ∧
    (exampleNotifiedLeader 21).m_hadAliveTolerance = 50 ∧
    ¬ singleLeaderWriter 22 (exampleNotifiedLeader 20) (exampleNotifiedLeader 21) 20 21 ∧
    ¬ singleLeaderWriter 22 (replicationTimer (exampleEnv 22) (exampleNotifiedLeader 20))
        (replicationTimer (exampleEnv 22) (exampleNotifiedLeader 21)) 20 21 := by
  refine ⟨by decide, by decide, by decide, by decide, by decide, by decide, by decide,
    by decide, by decide, by decide⟩

/-- C25, amended: for a peer started with the tolerance `hadAliveTolerance` that has handled
the events of `trace`, and a replication timer that fires at a time `now` inside the range
of `int`: if the peer is `REPLICATION_LEADER` after the timer, it was a leader before and
the last command by which HAD named it the leader (`HAD_IN_LEADER_STATE` or
`HAD_AFTER_ELECTION_STATE`) came at most `hadAliveTolerance` before `now`; and a leader
for which that command came more than `hadAliveTolerance` before `now` is a backup after
the timer. -/
theorem leaders_after_replicationTimer (fuel : Nat)
    (replicationInterval maxTransfererLifeTime newlyJoinedWaitingVersionInterval
      hadAliveTolerance : Int) (myVersion : Version) (versionFilePath stateFilePath : String)
    (trace : List (Env × Event)) (s0 s : RSM) (env : Env)
    (h0 : initialState replicationInterval maxTransfererLifeTime
      newlyJoinedWaitingVersionInterval hadAliveTolerance myVersion versionFilePath
      stateFilePath = Outcome.ok s0)
    (hrun : run fuel trace s0 = Outcome.ok s)
    (hnow : -2 ^ 31 ≤ env.now ∧ env.now < 2 ^ 31) :
    ((replicationTimer env s).m_state = ReplicatorState.REPLICATION_LEADER →
      s.m_state = ReplicatorState.REPLICATION_LEADER ∧
      ∃ last, lastTime Event.isLeaderNotification none trace = some last ∧
        env.now - last ≤ hadAliveTolerance) ∧
    (s.m_state = ReplicatorState.REPLICATION_LEADER →
      ∃ last, lastTime Event.isLeaderNotification none trace = some last ∧
        (env.now - last > hadAliveTolerance →
          (replicationTimer env s).m_state = ReplicatorState.BACKUP)) := by
  have hfit := toInt32_of_fits env.now hnow.1 hnow.2
  have htol : s.m_hadAliveTolerance = hadAliveTolerance := by
    rw [run_hadAliveTolerance fuel trace s0 s hrun]
    exact (initialState_fields _ _ _ _ _ _ _ _ h0).2.2.2
  have hlast : s.m_state = ReplicatorState.REPLICATION_LEADER →
      lastTime Event.isLeaderNotification none trace = some s.m_lastHadAliveTime := by
    intro hl
    refine run_leaderTime fuel trace s0 s none ?_ hrun hl
    intro hc
    rw [(initialState_state _ _ _ _ _ _ _ _ h0).1] at hc
    cases hc
  constructor
  · intro hl
    obtain ⟨h1, h2⟩ := replicationTimer_stays_leader env s hl
    rw [hfit, htol] at h2
    exact ⟨h1, _, hlast h1, h2⟩
  · intro hl
    refine ⟨_, hlast hl, fun hgt => ?_⟩
    rw [replicationTimer_leader_state env s hl, hfit, htol, if_pos hgt]

/-- C25, example: the peer that received `HAD_IN_LEADER_STATE` at the time 20 is a leader
after its replication timer fires at the time 60, and the command is then at most 50 old;
the same holds for a peer that HAD named the leader with `HAD_AFTER_ELECTION_STATE`. -/
theorem leaders_after_replicationTimer_witness :
    (∃ last, lastTime Event.isLeaderNotification none (exampleLeaderTrace 20) = some last ∧
      60 - last ≤ 50) ∧
    (∃ last, lastTime Event.isLeaderNotification none (exampleElectedTrace 20) = some last ∧
      60 - last ≤ 50) :=
  ⟨((leaders_after_replicationTimer 0 300 60 10 50 Version.empty "Version" "State"
      (exampleLeaderTrace 20) (exampleInitial.getD (constructed Version.empty "Version" "State"))
      (exampleNotifiedLeader 20) (exampleEnv 60) (by decide) (by decide) (by decide)).1
      (by decide)).2,
   ((leaders_after_replicationTimer 0 300 60 10 50 Version.empty "Version" "State"
      (exampleElectedTrace 20) (exampleInitial.getD (constructed Version.empty "Version" "State"))
      ((exampleInitial.bind (run 0 (exampleElectedTrace 20))).getD
        (constructed Version.empty "Version" "State"))
      (exampleEnv 60) (by decide) (by decide) (by decide)).1 (by decide)).2⟩

/-! ## The replication timer at a time that no `int` holds -/

end Replication
